import Mathlib

/-!
Verification development for the gball authoritative game server
(`src/server/src/game/engine.ts`, `src/server/src/utils/physics.ts`,
`src/server/src/game/stadium.ts`, `src/server/src/config/player.ts`,
`src/server/src/index.ts`).

The TypeScript source is shallowly embedded: JavaScript numbers are
modelled as real numbers, `Map<string, Player>` as an insertion-ordered
association list with unique keys, `Date.now()` as an explicit `now`
parameter, the wall-clock tick delta as an explicit `dt` parameter (in
seconds, as computed by `GameEngine.update`), and `Math.random()` as an
explicit stream `rand : Nat -> Real` consumed at an explicit cursor.
The `redPlayers.reduce` call in `makeAggressiveAIDecision` throws on an
empty array in JavaScript; the embedding returns `Option` and yields
`none` exactly on that error branch, so `GameEngine.update` is an
`Option`-valued function that is `none` exactly when the tick would
throw.
-/

/-- JavaScript number, idealised as a real (`src/server/src/types/game.ts`, `Vector2`). -/
structure Vector2 where
  x : ℝ
  y : ℝ

/-- Team tag: `'red' | 'blue'` (`src/server/src/types/game.ts`). -/
inductive Team where
  | red
  | blue
deriving DecidableEq, Repr

/-- AI role: `'midfielder' | 'attacker'` (`src/server/src/types/game.ts`). -/
inductive AIRole where
  | midfielder
  | attacker
deriving DecidableEq, Repr

/-- Boolean input packet (`src/server/src/types/game.ts`, `PlayerInput`). -/
structure PlayerInput where
  up : Bool
  down : Bool
  left : Bool
  right : Bool
  kick : Bool
deriving DecidableEq, Repr

/-- `aiCooldowns` record of a Player (`src/server/src/types/game.ts`). -/
structure AICooldowns where
  kick : ℝ
  decision : ℝ

/-- Player record (`src/server/src/types/game.ts`, `Player extends GameEntity`). -/
structure Player where
  id : String
  playerId : String
  team : Team
  position : Vector2
  velocity : Vector2
  radius : ℝ
  maxSpeed : ℝ
  acceleration : ℝ
  aiRole : Option AIRole
  aiCooldowns : Option AICooldowns
  input : PlayerInput

/-- Ball record (`src/server/src/types/game.ts`, `Ball extends GameEntity`). -/
structure Ball where
  id : String
  position : Vector2
  velocity : Vector2
  radius : ℝ
  friction : ℝ
  bounciness : ℝ

/-- Score record `{red, blue}` (`src/server/src/types/game.ts`).
JavaScript numbers here only ever hold the results of `++` starting at 0,
so they are modelled as naturals. -/
structure Score where
  red : ℕ
  blue : ℕ
deriving DecidableEq, Repr

/-- Wall segment (`src/server/src/types/game.ts`, `Wall`). -/
structure Wall where
  start : Vector2
  stop : Vector2
  normal : Vector2

/-- Stadium value (`src/server/src/types/game.ts`, `Stadium`). -/
structure Stadium where
  width : ℝ
  height : ℝ
  goalWidth : ℝ
  goalDepth : ℝ
  walls : List Wall

/-- The mutable aggregate root (`src/server/src/types/game.ts`, `GameState`).
`players` models `Map<string, Player>`: an insertion-ordered list with
unique `playerId` keys. -/
structure GameState where
  players : List Player
  ball : Ball
  score : Score
  gameTime : ℝ
  matchDuration : ℝ
  isMatchActive : Bool

namespace Physics

/-- `Physics.add` (`src/server/src/utils/physics.ts`). -/
def add (a b : Vector2) : Vector2 := ⟨a.x + b.x, a.y + b.y⟩

/-- `Physics.subtract` (`src/server/src/utils/physics.ts`). -/
def subtract (a b : Vector2) : Vector2 := ⟨a.x - b.x, a.y - b.y⟩

/-- `Physics.multiply` (`src/server/src/utils/physics.ts`). -/
def multiply (v : Vector2) (scalar : ℝ) : Vector2 := ⟨v.x * scalar, v.y * scalar⟩

/-- `Physics.dot` (`src/server/src/utils/physics.ts`). -/
def dot (a b : Vector2) : ℝ := a.x * b.x + a.y * b.y

/-- `Physics.magnitude` (`src/server/src/utils/physics.ts`): `Math.sqrt(x*x + y*y)`. -/
noncomputable def magnitude (v : Vector2) : ℝ := Real.sqrt (v.x * v.x + v.y * v.y)

/-- `Physics.normalize` (`src/server/src/utils/physics.ts`): zero vector for zero magnitude. -/
noncomputable def normalize (v : Vector2) : Vector2 :=
  if magnitude v = 0 then ⟨0, 0⟩ else ⟨v.x / magnitude v, v.y / magnitude v⟩

/-- `Physics.distance` (`src/server/src/utils/physics.ts`). -/
noncomputable def distance (a b : Vector2) : ℝ := magnitude (subtract a b)

/-- `Physics.limit` (`src/server/src/utils/physics.ts`). -/
noncomputable def limit (v : Vector2) (max : ℝ) : Vector2 :=
  if magnitude v > max then multiply (normalize v) max else v

/-- `Physics.applyFriction` (`src/server/src/utils/physics.ts`):
`velocity * Math.pow(friction, deltaTime)`. -/
noncomputable def applyFriction (velocity : Vector2) (friction deltaTime : ℝ) : Vector2 :=
  multiply velocity (friction ^ (deltaTime : ℝ))

/-- `Physics.checkCircleCollision` (`src/server/src/utils/physics.ts`). -/
noncomputable def checkCircleCollision (aPos : Vector2) (aRadius : ℝ) (bPos : Vector2) (bRadius : ℝ) : Prop :=
  distance aPos bPos < aRadius + bRadius

/-- A circular entity as `resolveCircleCollision` reads and writes it
(`position`, `velocity`, `radius` of a `GameEntity`). -/
structure Circ where
  position : Vector2
  velocity : Vector2
  radius : ℝ

/-- `Physics.resolveCircleCollision` (`src/server/src/utils/physics.ts`):
separate the two circles 50/50 along the connecting normal, then apply a
restitution-0.8 impulse 50/50 unless the pair is already separating.
`collisionNormal` is the `direction` local of the source, with the
coincident-centers fallback `(1, 0)`. -/
noncomputable def collisionNormal (a b : Circ) : Vector2 :=
  let d := distance a.position b.position
  let direction0 := normalize (subtract b.position a.position)
  if d = 0 then ⟨1, 0⟩ else direction0

/-- `Physics.resolveCircleCollision` continued: the full resolution step. -/
noncomputable def resolveCircleCollision (a b : Circ) : Circ × Circ :=
  let d := distance a.position b.position
  let minDistance := a.radius + b.radius
  if d < minDistance then
    let overlap := minDistance - d
    let direction := collisionNormal a b
    let separation := multiply direction (overlap * 0.5)
    let aPos := subtract a.position separation
    let bPos := add b.position separation
    let relativeVelocity := subtract b.velocity a.velocity
    let velocityAlongNormal := dot relativeVelocity direction
    if velocityAlongNormal > 0 then
      ({ a with position := aPos }, { b with position := bPos })
    else
      let restitution : ℝ := 0.8
      let impulse := -(1 + restitution) * velocityAlongNormal
      let impulseVector := multiply direction impulse
      ({ a with position := aPos, velocity := subtract a.velocity (multiply impulseVector 0.5) },
       { b with position := bPos, velocity := add b.velocity (multiply impulseVector 0.5) })
  else
    (a, b)

/-- `Physics.getClosestPointOnWall` (`src/server/src/utils/physics.ts`). -/
noncomputable def getClosestPointOnWall (point : Vector2) (wall : Wall) : Vector2 :=
  let wallVector := subtract wall.stop wall.start
  let pointVector := subtract point wall.start
  let wallLength := magnitude wallVector
  if wallLength = 0 then wall.start
  else
    let normalizedWall := normalize wallVector
    let projection := dot pointVector normalizedWall
    let t := max 0 (min wallLength projection)
    add wall.start (multiply normalizedWall t)

/-- `Physics.checkWallCollision` (`src/server/src/utils/physics.ts`). -/
noncomputable def checkWallCollision (pos : Vector2) (radius : ℝ) (wall : Wall) : Prop :=
  distance pos (getClosestPointOnWall pos wall) < radius

/-- `Physics.resolveWallCollision` (`src/server/src/utils/physics.ts`):
push the entity out along the closest-point-to-center direction, then
reflect an inbound velocity about the wall normal with 0.8 damping. -/
noncomputable def resolveWallCollision (c : Circ) (wall : Wall) : Circ :=
  let closestPoint := getClosestPointOnWall c.position wall
  let d := distance c.position closestPoint
  if d < c.radius then
    let overlap := c.radius - d
    let direction := normalize (subtract c.position closestPoint)
    let pos := add c.position (multiply direction overlap)
    let velocityAlongNormal := dot c.velocity wall.normal
    if velocityAlongNormal < 0 then
      let reflection := multiply wall.normal (velocityAlongNormal * 2)
      { c with position := pos, velocity := multiply (subtract c.velocity reflection) 0.8 }
    else
      { c with position := pos }
  else
    c

/-- `Physics.applyKick` (`src/server/src/utils/physics.ts`): add a
`kickPower`-scaled impulse along the player-to-ball direction to the
ball velocity. -/
noncomputable def applyKick (playerPos ballPos ballVelocity : Vector2) (kickPower : ℝ) : Vector2 :=
  let direction := normalize (subtract ballPos playerPos)
  let kickForce := multiply direction kickPower
  add ballVelocity kickForce

end Physics

namespace StadiumConfig

/-- `StadiumConfig.createClassicStadium` (`src/server/src/game/stadium.ts`):
1260 x 600 field, goal width 192, goal depth 45, twelve walls in source order. -/
def createClassicStadium : Stadium :=
  { width := 1260
    height := 600
    goalWidth := 192
    goalDepth := 45
    walls :=
      [ ⟨⟨-630, -300⟩, ⟨630, -300⟩, ⟨0, 1⟩⟩
      , ⟨⟨-630, 300⟩, ⟨630, 300⟩, ⟨0, -1⟩⟩
      , ⟨⟨-630, -300⟩, ⟨-630, -96⟩, ⟨1, 0⟩⟩
      , ⟨⟨-630, 96⟩, ⟨-630, 300⟩, ⟨1, 0⟩⟩
      , ⟨⟨630, -300⟩, ⟨630, -96⟩, ⟨-1, 0⟩⟩
      , ⟨⟨630, 96⟩, ⟨630, 300⟩, ⟨-1, 0⟩⟩
      , ⟨⟨-630, -96⟩, ⟨-675, -96⟩, ⟨0, 1⟩⟩
      , ⟨⟨-630, 96⟩, ⟨-675, 96⟩, ⟨0, -1⟩⟩
      , ⟨⟨-675, -96⟩, ⟨-675, 96⟩, ⟨1, 0⟩⟩
      , ⟨⟨630, -96⟩, ⟨675, -96⟩, ⟨0, 1⟩⟩
      , ⟨⟨630, 96⟩, ⟨675, 96⟩, ⟨0, -1⟩⟩
      , ⟨⟨675, -96⟩, ⟨675, 96⟩, ⟨-1, 0⟩⟩ ] }

/-- `StadiumConfig.isInGoal` (`src/server/src/game/stadium.ts`): returns the team
that scored (`some .blue` in the left pocket, `some .red` in the right pocket). -/
noncomputable def isInGoal (position : Vector2) (stadium : Stadium) : Option Team :=
  if position.y ≥ -stadium.goalWidth / 2 ∧ position.y ≤ stadium.goalWidth / 2 ∧
      position.x ≤ -stadium.width / 2 ∧ position.x ≥ -stadium.width / 2 - stadium.goalDepth then
    some Team.blue
  else if position.y ≥ -stadium.goalWidth / 2 ∧ position.y ≤ stadium.goalWidth / 2 ∧
      position.x ≥ stadium.width / 2 ∧ position.x ≤ stadium.width / 2 + stadium.goalDepth then
    some Team.red
  else
    none

/-- Red formation slots (`src/server/src/game/stadium.ts`, `getPlayerSpawnPosition`). -/
def redFormation : List Vector2 := [⟨-150, 0⟩, ⟨-240, -90⟩, ⟨-240, 90⟩, ⟨-360, 0⟩]

/-- Blue formation slots (`src/server/src/game/stadium.ts`, `getPlayerSpawnPosition`). -/
def blueFormation : List Vector2 := [⟨150, 0⟩, ⟨240, -90⟩, ⟨240, 90⟩, ⟨360, 0⟩]

/-- `StadiumConfig.getPlayerSpawnPosition` (`src/server/src/game/stadium.ts`):
fixed 4-slot formation, index wraps modulo 4. -/
def getPlayerSpawnPosition (team : Team) (playerIndex : ℕ) : Vector2 :=
  match team with
  | Team.red => redFormation.getD (playerIndex % 4) ⟨0, 0⟩
  | Team.blue => blueFormation.getD (playerIndex % 4) ⟨0, 0⟩

/-- `StadiumConfig.getBallSpawnPosition` (`src/server/src/game/stadium.ts`). -/
def getBallSpawnPosition : Vector2 := ⟨0, 0⟩

end StadiumConfig

namespace GameConfig

/-- `PLAYER_PHYSICS` (`src/server/src/config/player.ts`). -/
def playerRadius : ℝ := 24

/-- `PLAYER_PHYSICS.maxSpeed` (`src/server/src/config/player.ts`). -/
def playerMaxSpeed : ℝ := 450

/-- `PLAYER_PHYSICS.acceleration` (`src/server/src/config/player.ts`). -/
def playerAcceleration : ℝ := 2000

/-- `PLAYER_PHYSICS.friction` (`src/server/src/config/player.ts`). -/
def playerFriction : ℝ := 0.1

/-- `BALL_PHYSICS.radius` (`src/server/src/config/player.ts`). -/
def ballRadius : ℝ := 18

/-- `BALL_PHYSICS.friction` (`src/server/src/config/player.ts`). -/
def ballFriction : ℝ := 0.5

/-- `BALL_PHYSICS.bounciness` (`src/server/src/config/player.ts`). -/
def ballBounciness : ℝ := 0.8

/-- `GAME_PHYSICS.kickPower` (`src/server/src/config/player.ts`). -/
def kickPower : ℝ := 250

/-- `GAME_PHYSICS.kickRange` (`src/server/src/config/player.ts`). -/
def kickRange : ℝ := 15

end GameConfig

namespace GameEngine

/-- Decimal digit character, as JavaScript number-to-string produces. -/
def digitChar10 (d : ℕ) : Char := Char.ofNat (48 + d)

/-- Decimal rendering of a natural, as the template literal of `Date.now()`
and the loop index render JavaScript numbers in `addAIPlayer`. -/
def natToString (n : ℕ) : String :=
  if n = 0 then "0" else String.mk (((Nat.digits 10 n).map digitChar10).reverse)

/-- AI id `ai_blue_${Date.now()}_${index}` (`src/server/src/game/engine.ts`,
`addAIPlayer`), with `Date.now()` as the `now` parameter. -/
def aiId (now index : ℕ) : String :=
  "ai_blue_" ++ natToString now ++ "_" ++ natToString index

/-- JavaScript `String.prototype.startsWith`, used as
`playerId.startsWith("ai_")` throughout the engine. -/
def strStartsWith (s p : String) : Bool := p.data.isPrefixOf s.data

/-- The `playerId.startsWith("ai_")` human/autonomous discriminator. -/
def isAIid (s : String) : Bool := strStartsWith s "ai_"

/-- `Map.prototype.set` on the insertion-ordered player map: replace in place
if the key exists, else append. -/
def mapSet (l : List Player) (p : Player) : List Player :=
  if l.any (fun q => q.playerId = p.playerId) then
    l.map (fun q => if q.playerId = p.playerId then p else q)
  else
    l ++ [p]

/-- `Map.prototype.delete` on the player map. -/
def mapDelete (l : List Player) (id : String) : List Player :=
  l.filter (fun q => ¬ (q.playerId = id))

/-- `Map.prototype.get` on the player map. -/
def mapGet (l : List Player) (id : String) : Option Player :=
  l.find? (fun q => q.playerId = id)

/-- The fixed stadium owned by the engine (`this.stadium`, built once in the
constructor from `StadiumConfig.createClassicStadium()`). -/
def stadium : Stadium := StadiumConfig.createClassicStadium

/-- `GameEngine.createBall` (`src/server/src/game/engine.ts`). -/
def createBall : Ball :=
  { id := "ball"
    position := StadiumConfig.getBallSpawnPosition
    velocity := ⟨0, 0⟩
    radius := GameConfig.ballRadius
    friction := GameConfig.ballFriction
    bounciness := GameConfig.ballBounciness }

/-- The engine constructor's initial game state (`src/server/src/game/engine.ts`). -/
def initialGameState : GameState :=
  { players := []
    ball := createBall
    score := ⟨0, 0⟩
    gameTime := 0
    matchDuration := 3 * 60 * 1000
    isMatchActive := false }

/-- `GameEngine.getRedPlayerCount` (`src/server/src/game/engine.ts`):
red players whose id does not start with `ai_`. -/
def getRedPlayerCount (s : GameState) : ℕ :=
  (s.players.filter (fun p => p.team = Team.red ∧ ¬ isAIid p.playerId = true)).length

/-- `GameEngine.getBluePlayerCount` (`src/server/src/game/engine.ts`):
blue players whose id starts with `ai_`. -/
def getBluePlayerCount (s : GameState) : ℕ :=
  (s.players.filter (fun p => p.team = Team.blue ∧ isAIid p.playerId = true)).length

/-- The filtered list behind `getBluePlayerCount` (used by `balanceAITeam`'s
removal branch, in map insertion order). -/
def aiBlues (l : List Player) : List Player :=
  l.filter (fun p => p.team = Team.blue ∧ isAIid p.playerId = true)

/-- The roles rotation of `addAIPlayer` (`src/server/src/game/engine.ts`). -/
def aiRoles : List AIRole := [AIRole.attacker, AIRole.midfielder, AIRole.attacker, AIRole.attacker]

/-- The AI player record built by `GameEngine.addAIPlayer`
(`src/server/src/game/engine.ts`), with `Date.now()` as `now`. -/
def mkAIPlayer (now index : ℕ) : Player :=
  { id := aiId now index
    playerId := aiId now index
    team := Team.blue
    position := StadiumConfig.getPlayerSpawnPosition Team.blue index
    velocity := ⟨0, 0⟩
    radius := GameConfig.playerRadius
    maxSpeed := GameConfig.playerMaxSpeed
    acceleration := GameConfig.playerAcceleration
    aiRole := some (aiRoles.getD (index % 4) AIRole.midfielder)
    aiCooldowns := some ⟨0, 0⟩
    input := ⟨false, false, false, false, false⟩ }

/-- `GameEngine.addAIPlayer` (`src/server/src/game/engine.ts`). -/
def addAIPlayer (s : GameState) (now index : ℕ) : GameState :=
  { s with players := mapSet s.players (mkAIPlayer now index) }

/-- `GameEngine.balanceAITeam` (`src/server/src/game/engine.ts`): drive the
blue autonomous headcount to the red human headcount, appending fresh AI
players at indices `blueCount..redCount-1` or deleting the tail
(`slice(redCount)`) of the blue AI list. -/
def balanceAITeam (s : GameState) (now : ℕ) : GameState :=
  let redCount := getRedPlayerCount s
  let blueCount := getBluePlayerCount s
  if blueCount < redCount then
    (List.range' blueCount (redCount - blueCount)).foldl (fun t i => addAIPlayer t now i) s
  else if redCount < blueCount then
    ((aiBlues s.players).drop redCount).foldl
      (fun t p => { t with players := mapDelete t.players p.playerId }) s
  else
    s

/-- `GameEngine.resetBallAndPlayers` (`src/server/src/game/engine.ts`): every
red (resp. blue) player is moved to the spawn slot of its index within the
filtered red (resp. blue) list, in map order, and all velocities zeroed. -/
def resetPositionsAux : List Player → ℕ → ℕ → List Player
  | [], _, _ => []
  | p :: rest, r, b =>
    if p.team = Team.red then
      { p with position := StadiumConfig.getPlayerSpawnPosition Team.red r,
               velocity := ⟨0, 0⟩ } :: resetPositionsAux rest (r + 1) b
    else
      { p with position := StadiumConfig.getPlayerSpawnPosition Team.blue b,
               velocity := ⟨0, 0⟩ } :: resetPositionsAux rest r (b + 1)

/-- `GameEngine.resetBallAndPlayers` (`src/server/src/game/engine.ts`). -/
def resetBallAndPlayers (s : GameState) : GameState :=
  { s with
    ball := { s.ball with position := StadiumConfig.getBallSpawnPosition, velocity := ⟨0, 0⟩ }
    players := resetPositionsAux s.players 0 0 }

/-- `GameEngine.startMatch` (`src/server/src/game/engine.ts`). -/
def startMatch (s : GameState) : GameState :=
  resetBallAndPlayers
    { s with isMatchActive := true, gameTime := 0, score := ⟨0, 0⟩ }

/-- `GameEngine.endMatch` (`src/server/src/game/engine.ts`): only deactivates. -/
def endMatch (s : GameState) : GameState :=
  { s with isMatchActive := false }

/-- The human player record built by `GameEngine.addPlayer`
(`src/server/src/game/engine.ts`); `teamCount` is the red human count
before insertion. -/
def mkHumanPlayer (playerId : String) (teamCount : ℕ) : Player :=
  { id := playerId
    playerId := playerId
    team := Team.red
    position := StadiumConfig.getPlayerSpawnPosition Team.red teamCount
    velocity := ⟨0, 0⟩
    radius := GameConfig.playerRadius
    maxSpeed := GameConfig.playerMaxSpeed
    acceleration := GameConfig.playerAcceleration
    aiRole := none
    aiCooldowns := none
    input := ⟨false, false, false, false, false⟩ }

/-- `GameEngine.addPlayer` (`src/server/src/game/engine.ts`): insert the human
on red, rebalance the AI team, and start the match if at least one red
human is present and no match is active. -/
def addPlayer (s : GameState) (playerId : String) (now : ℕ) : GameState :=
  let teamCount :=
    (s.players.filter (fun p => p.team = Team.red ∧ ¬ isAIid p.playerId = true)).length
  let s1 := { s with players := mapSet s.players (mkHumanPlayer playerId teamCount) }
  let s2 := balanceAITeam s1 now
  if 1 ≤ getRedPlayerCount s2 ∧ s2.isMatchActive = false then startMatch s2 else s2

/-- `GameEngine.removePlayer` (`src/server/src/game/engine.ts`): delete the
player, rebalance if a human left, deactivate if no red humans remain. -/
def removePlayer (s : GameState) (playerId : String) (now : ℕ) : GameState :=
  let s1 := { s with players := mapDelete s.players playerId }
  let s2 := if isAIid playerId = true then s1 else balanceAITeam s1 now
  if getRedPlayerCount s2 = 0 then { s2 with isMatchActive := false } else s2

/-- `GameEngine.updatePlayerInput` (`src/server/src/game/engine.ts`):
set the named player's input if present, else do nothing. -/
def updatePlayerInput (s : GameState) (playerId : String) (input : PlayerInput) : GameState :=
  match mapGet s.players playerId with
  | none => s
  | some p => { s with players := mapSet s.players { p with input := input } }

end GameEngine

namespace GameEngine

section TickPipeline

open Classical

/-- `GameEngine.canPlayerKickBall` (`src/server/src/game/engine.ts`):
boundary-inclusive kick range test against the ball. -/
noncomputable def canPlayerKickBall (p : Player) (ball : Ball) : Prop :=
  Physics.distance p.position ball.position ≤ p.radius + ball.radius + GameConfig.kickRange

/-- `GameEngine.performKick` (`src/server/src/game/engine.ts`). -/
noncomputable def performKick (p : Player) (ball : Ball) : Ball :=
  { ball with
    velocity := Physics.applyKick p.position ball.position ball.velocity GameConfig.kickPower }

/-- `GameEngine.updatePlayer` (`src/server/src/game/engine.ts`): input
acceleration, speed limit, friction, integration, then the kick attempt
at the post-integration position. Returns the updated player and the
(possibly kicked) ball. -/
noncomputable def updatePlayer (p : Player) (ball : Ball) (dt : ℝ) : Player × Ball :=
  let acceleration : Vector2 :=
    ⟨(if p.input.left then -p.acceleration else 0) +
       (if p.input.right then p.acceleration else 0),
     (if p.input.up then -p.acceleration else 0) +
       (if p.input.down then p.acceleration else 0)⟩
  let v1 := Physics.add p.velocity (Physics.multiply acceleration dt)
  let v2 := Physics.limit v1 p.maxSpeed
  let v3 := Physics.applyFriction v2 GameConfig.playerFriction dt
  let pos := Physics.add p.position (Physics.multiply v3 dt)
  let p1 := { p with velocity := v3, position := pos }
  if p1.input.kick = true ∧ canPlayerKickBall p1 ball then (p1, performKick p1 ball)
  else (p1, ball)

/-- `GameEngine.updateBall` (`src/server/src/game/engine.ts`). -/
noncomputable def updateBall (ball : Ball) (dt : ℝ) : Ball :=
  let v := Physics.applyFriction ball.velocity ball.friction dt
  { ball with velocity := v, position := Physics.add ball.position (Physics.multiply v dt) }

/-- `GameEngine.clampToBounds` (`src/server/src/game/engine.ts`). -/
noncomputable def clampToBounds (position : Vector2) : Vector2 :=
  ⟨max (-stadium.width / 2 + 30) (min (stadium.width / 2 - 30) position.x),
   max (-stadium.height / 2 + 30) (min (stadium.height / 2 - 30) position.y)⟩

/-- `GameEngine.isGoodScoringPosition` (`src/server/src/game/engine.ts`). -/
noncomputable def isGoodScoringPosition (ballPos : Vector2) : Prop :=
  let redGoal : Vector2 := ⟨-stadium.width / 2, 0⟩
  let distanceToGoal := Physics.distance ballPos redGoal
  ballPos.x < stadium.width / 4 ∧ distanceToGoal < stadium.width * 0.6 ∧
    |ballPos.y| < stadium.goalWidth * 1.5

/-- `GameEngine.isValidKickDirection` (`src/server/src/game/engine.ts`). -/
noncomputable def isValidKickDirection (ballPos direction : Vector2) (maxDistance : ℝ) : Prop :=
  let testDistance := min maxDistance 300
  let predictedPos := Physics.add ballPos (Physics.multiply direction testDistance)
  let margin : ℝ := 30
  let wouldGoOutOfBounds :=
    predictedPos.x < -stadium.width / 2 - margin ∨ predictedPos.x > stadium.width / 2 + margin ∨
    predictedPos.y < -stadium.height / 2 - margin ∨ predictedPos.y > stadium.height / 2 + margin
  ¬ wouldGoOutOfBounds ∧ direction.x < 0.2

/-- `GameEngine.reflectVector` (`src/server/src/game/engine.ts`). -/
noncomputable def reflectVector (vector normal : Vector2) : Vector2 :=
  Physics.subtract vector (Physics.multiply normal (2 * Physics.dot vector normal))

/-- `GameEngine.calculateWallBounceToGoal` (`src/server/src/game/engine.ts`).
The JavaScript loop `for (let t = 0.2; t <= 0.8; t += 0.2)` is read in
exact real arithmetic, visiting 0.2, 0.4, 0.6, 0.8. -/
noncomputable def calculateWallBounceToGoal (ballPos goal : Vector2) : Option Vector2 :=
  let walls := stadium.walls.filter (fun wall => decide (|wall.normal.y| > 0.5))
  walls.findSome? (fun wall =>
    ([0.2, 0.4, 0.6, 0.8] : List ℝ).findSome? (fun t =>
      let bouncePoint : Vector2 :=
        ⟨wall.start.x + (wall.stop.x - wall.start.x) * t,
         wall.start.y + (wall.stop.y - wall.start.y) * t⟩
      let toBounce := Physics.subtract bouncePoint ballPos
      let toBounceDir := Physics.normalize toBounce
      let reflectedDir := reflectVector toBounceDir wall.normal
      let bounceToGoal := Physics.subtract goal bouncePoint
      let bounceToGoalDir := Physics.normalize bounceToGoal
      let similarity := Physics.dot reflectedDir bounceToGoalDir
      if similarity > 0.6 ∧ isValidKickDirection ballPos toBounceDir (Physics.magnitude toBounce)
      then some toBounceDir else none))

/-- JavaScript `Math.atan2`. -/
noncomputable def atan2 (y x : ℝ) : ℝ := Complex.arg ⟨x, y⟩

set_option linter.unusedVariables false in
/-- Steps 3-5 and the final fallback of `GameEngine.getAgressiveKickDirection`
(`src/server/src/game/engine.ts`): angled progress shots, "just get it
forward", fixed forward directions, then toward center field. -/
noncomputable def kickDirectionFallback2 (ballPos : Vector2) : Vector2 :=
  let redGoal : Vector2 := ⟨-stadium.width / 2, 0⟩
  let progressDirection := Physics.normalize (Physics.subtract redGoal ballPos)
  let angledResult : Option Vector2 :=
    if ¬ isValidKickDirection ballPos progressDirection 200 then
      let angle := atan2 progressDirection.y progressDirection.x
      let angleOffsets : List ℝ := [Real.pi / 6, -(Real.pi / 6), Real.pi / 4, -(Real.pi / 4)]
      angleOffsets.findSome? (fun offset =>
        let newAngle := angle + offset
        let angledDirection : Vector2 := ⟨Real.cos newAngle, Real.sin newAngle⟩
        if isValidKickDirection ballPos angledDirection 200 then some angledDirection else none)
    else none
  match angledResult with
  | some d => d
  | none =>
    let step4 : Option Vector2 :=
      if ballPos.x > 0 then
        if isValidKickDirection ballPos ⟨-1, 0⟩ 150 then some ⟨-1, 0⟩ else none
      else none
    match step4 with
    | some d => d
    | none =>
      let forwardDirections : List Vector2 :=
        [⟨-0.8, -0.6⟩, ⟨-0.8, 0.6⟩, ⟨-1, 0⟩, ⟨-0.6, -0.8⟩, ⟨-0.6, 0.8⟩]
      match forwardDirections.findSome? (fun direction =>
        let normalized := Physics.normalize direction
        if isValidKickDirection ballPos normalized 100 then some normalized else none) with
      | some d => d
      | none => Physics.normalize ⟨-ballPos.x, -ballPos.y * 0.5⟩

/-- Step 2 of `GameEngine.getAgressiveKickDirection`: single wall bounce
toward goal, else fall through. -/
noncomputable def kickDirectionFallback (ballPos : Vector2) : Vector2 :=
  match calculateWallBounceToGoal ballPos ⟨-stadium.width / 2, 0⟩ with
  | some bounceShot =>
    if isValidKickDirection ballPos bounceShot 350 then bounceShot
    else kickDirectionFallback2 ballPos
  | none => kickDirectionFallback2 ballPos

/-- `GameEngine.getAgressiveKickDirection` (`src/server/src/game/engine.ts`,
spelled as in the source): direct shots at goal center and posts (posts
with a random offset), then the fallbacks. The `target === goalCenter`
reference-equality test in the source is true exactly for the first
element of the direct-shot list. Every source path returns a vector, so
`none` never occurs; the option mirrors the source's `Vector2 | null`
signature. -/
noncomputable def getAgressiveKickDirection (aiPlayer : Player) (ball : Ball)
    (rand : ℕ → ℝ) (ridx : ℕ) : Option Vector2 × ℕ :=
  let redGoal : Vector2 := ⟨-stadium.width / 2, 0⟩
  let goalTop : Vector2 := ⟨redGoal.x, -stadium.goalWidth / 2 + 20⟩
  let goalBottom : Vector2 := ⟨redGoal.x, stadium.goalWidth / 2 - 20⟩
  let dirCenter := Physics.normalize (Physics.subtract redGoal ball.position)
  if isValidKickDirection ball.position dirCenter 400 then (some dirCenter, ridx)
  else
    let dirTop := Physics.normalize (Physics.subtract goalTop ball.position)
    if isValidKickDirection ball.position dirTop 400 then
      let randomOffset := (rand ridx - 0.5) * 0.2
      (some (Physics.normalize ⟨dirTop.x + randomOffset * 0.3, dirTop.y + randomOffset⟩),
       ridx + 1)
    else
      let dirBottom := Physics.normalize (Physics.subtract goalBottom ball.position)
      if isValidKickDirection ball.position dirBottom 400 then
        let randomOffset := (rand ridx - 0.5) * 0.2
        (some (Physics.normalize ⟨dirBottom.x + randomOffset * 0.3, dirBottom.y + randomOffset⟩),
         ridx + 1)
      else (some (kickDirectionFallback ball.position), ridx)

/-- `GameEngine.getMinimalAvoidanceForce` (`src/server/src/game/engine.ts`). -/
noncomputable def getMinimalAvoidanceForce (s : GameState) (aiPlayer : Player) : Vector2 :=
  s.players.foldl (fun avoidanceForce otherPlayer =>
    if otherPlayer.playerId = aiPlayer.playerId then avoidanceForce
    else
      let d := Physics.distance aiPlayer.position otherPlayer.position
      let avoidDistance : ℝ := 25
      if d < avoidDistance ∧ d > 0 then
        let repulsion :=
          Physics.normalize (Physics.subtract aiPlayer.position otherPlayer.position)
        let strength := (avoidDistance - d) / avoidDistance * 0.5
        ⟨avoidanceForce.x + repulsion.x * strength, avoidanceForce.y + repulsion.y * strength⟩
      else avoidanceForce) ⟨0, 0⟩

/-- `GameEngine.moveAggressivelyToTarget` (`src/server/src/game/engine.ts`):
convert the blended direction into boolean inputs with dead zone 0.1,
with a random nudge if stuck. -/
noncomputable def moveAggressivelyToTarget (s : GameState) (aiPlayer : Player)
    (targetPosition : Vector2) (rand : ℕ → ℝ) (ridx : ℕ) : Player × ℕ :=
  let direction := Physics.subtract targetPosition aiPlayer.position
  let dist := Physics.magnitude direction
  if dist < 3 then (aiPlayer, ridx)
  else
    let normalizedDirection := Physics.normalize direction
    let avoidanceForce := getMinimalAvoidanceForce s aiPlayer
    let finalDirection := Physics.normalize
      (Physics.add (Physics.multiply normalizedDirection 0.9)
        (Physics.multiply avoidanceForce 0.1))
    let threshold : ℝ := 0.1
    let input1 : PlayerInput :=
      { aiPlayer.input with
        left := if finalDirection.x < -threshold then true else aiPlayer.input.left
        right := if finalDirection.x > threshold then true else aiPlayer.input.right
        up := if finalDirection.y < -threshold then true else aiPlayer.input.up
        down := if finalDirection.y > threshold then true else aiPlayer.input.down }
    if |finalDirection.x| < threshold ∧ |finalDirection.y| < threshold ∧ dist > 10 then
      let randomDirection := rand ridx * Real.pi * 2
      let randomX := Real.cos randomDirection
      let randomY := Real.sin randomDirection
      let input2 :=
        if |randomX| > 0.5 then
          if randomX > 0 then { input1 with right := true } else { input1 with left := true }
        else input1
      let input3 :=
        if |randomY| > 0.5 then
          if randomY > 0 then { input2 with down := true } else { input2 with up := true }
        else input2
      ({ aiPlayer with input := input3 }, ridx + 1)
    else ({ aiPlayer with input := input1 }, ridx)

/-- `GameEngine.getInterceptionPosition` (`src/server/src/game/engine.ts`). -/
noncomputable def getInterceptionPosition (aiPlayer targetHuman : Player) (ball : Ball) : Vector2 :=
  let humanVelocity := targetHuman.velocity
  let humanSpeed := Physics.magnitude humanVelocity
  let interceptPoint :=
    if humanSpeed > 20 then
      let timeToIntercept :=
        Physics.distance aiPlayer.position targetHuman.position / aiPlayer.maxSpeed
      let humanFuturePos :=
        Physics.add targetHuman.position (Physics.multiply humanVelocity timeToIntercept)
      (⟨(humanFuturePos.x + ball.position.x) * 0.6 + humanFuturePos.x * 0.4,
        (humanFuturePos.y + ball.position.y) * 0.6 + humanFuturePos.y * 0.4⟩ : Vector2)
    else
      let humanToBall := Physics.subtract ball.position targetHuman.position
      let interceptDistance := min 60 (Physics.magnitude humanToBall * 0.7)
      let interceptDirection := Physics.normalize humanToBall
      Physics.add targetHuman.position (Physics.multiply interceptDirection interceptDistance)
  clampToBounds interceptPoint

set_option linter.unusedVariables false in
/-- `GameEngine.getAggressivePositioning` (`src/server/src/game/engine.ts`).
`bluePlayers.indexOf(aiPlayer)` is reference identity in the source;
keys are unique, so it is the index of the matching `playerId` (or -1). -/
noncomputable def getAggressivePositioning (aiPlayer : Player) (ball : Ball)
    (bluePlayers : List Player) (role : AIRole) : Vector2 :=
  let redGoal : Vector2 := ⟨-stadium.width / 2, 0⟩
  let aiVeryCloseToBall :=
    (bluePlayers.filter (fun ai => decide (Physics.distance ai.position ball.position < 60))).length
  let ballToGoal := Physics.subtract redGoal ball.position
  let distanceBallToGoal := Physics.magnitude ballToGoal
  if isGoodScoringPosition ball.position then
    let directToBall := Physics.normalize (Physics.subtract ball.position aiPlayer.position)
    Physics.add aiPlayer.position (Physics.multiply directToBall 40)
  else if 3 ≤ aiVeryCloseToBall ∧ Physics.distance aiPlayer.position ball.position > 80 then
    let playerIndex : ℤ :=
      (bluePlayers.findIdx? (fun q => q.playerId = aiPlayer.playerId)).elim (-1) (fun i => (i : ℤ))
    let totalAI := bluePlayers.length
    if role = AIRole.attacker ∨ playerIndex = 0 then
      clampToBounds
        ⟨ball.position.x - 60,
         ball.position.y + (if Int.tmod playerIndex 2 = 0 then (-40 : ℝ) else 40)⟩
    else
      let supportAngle := ((playerIndex : ℝ) / (totalAI : ℝ)) * Real.pi * 1.2 + Real.pi / 4
      let supportDistance : ℝ := 70
      let supportX := ball.position.x + Real.cos supportAngle * supportDistance
      let supportY := ball.position.y + Real.sin supportAngle * supportDistance
      let biasedX := supportX * 0.6 + (redGoal.x + 100) * 0.4
      clampToBounds ⟨biasedX, supportY⟩
  else
    let directionToTarget0 := Physics.normalize (Physics.subtract ball.position aiPlayer.position)
    let pair : Vector2 × ℝ :=
      if role = AIRole.attacker then (directionToTarget0, 25)
      else if role = AIRole.midfielder then
        (Physics.normalize ⟨directionToTarget0.x, directionToTarget0.y * 0.8⟩, 35)
      else (directionToTarget0, 30)
    Physics.add aiPlayer.position (Physics.multiply pair.1 pair.2)

/-- The rate-limited kick section at the end of
`GameEngine.makeAggressiveAIDecision` (`src/server/src/game/engine.ts`):
raise the kick input and set the cooldown when a kick is wanted, the
cooldown has expired and a direction exists (it always does). -/
noncomputable def kickPhase (ball : Ball) (rand : ℕ → ℝ) (shouldKick : Bool)
    (moved : Player × ℕ) : Player × ℕ :=
  if shouldKick = true ∧ moved.1.aiCooldowns.isSome = true ∧
      (moved.1.aiCooldowns.getD ⟨0, 0⟩).kick ≤ 0 then
    let kd := getAgressiveKickDirection moved.1 ball rand moved.2
    match kd.1 with
    | some _ =>
      let newKick : ℝ := if isGoodScoringPosition ball.position then 0.1 else 0.15
      ({ moved.1 with
          input := { moved.1.input with kick := true }
          aiCooldowns := some { (moved.1.aiCooldowns.getD ⟨0, 0⟩) with kick := newKick } },
        kd.2)
    | none => (moved.1, kd.2)
  else (moved.1, moved.2)

/-- The body of `GameEngine.makeAggressiveAIDecision`
(`src/server/src/game/engine.ts`) after the `closestHumanToBall`
reduction has succeeded: strategy selection, movement realisation, and
the rate-limited kick. The stable ascending sort of `isInTopTwoClosest`
is a merge sort on distance. -/
noncomputable def decisionBody (s : GameState) (aiPlayer : Player) (ball : Ball)
    (distanceToBall : ℝ) (rand : ℕ → ℝ) (ridx : ℕ) (closestHumanToBall : Player) :
    Player × ℕ :=
  let role := aiPlayer.aiRole.getD AIRole.midfielder
  let bluePlayers := s.players.filter (fun p => p.team = Team.blue)
  let ballSpeed := Physics.magnitude ball.velocity
  let isMovingBall := ballSpeed > 30
  let isCloseEnoughToBall := distanceToBall < 200
  let isInTopTwoClosest :=
    (((bluePlayers.map (fun ai => (ai, Physics.distance ai.position ball.position))).mergeSort
        (fun a b => decide (a.2 ≤ b.2))).take 2).any
      (fun entry => entry.1.playerId = aiPlayer.playerId)
  let targetAndKick : Vector2 × Bool :=
    if isCloseEnoughToBall ∨ isInTopTwoClosest = true then
      let targetPosition :=
        if isMovingBall then
          let timeToReach := distanceToBall / (aiPlayer.maxSpeed * 1.2)
          clampToBounds (Physics.add ball.position (Physics.multiply ball.velocity timeToReach))
        else ball.position
      let baseKickRange := aiPlayer.radius + ball.radius + GameConfig.kickRange
      let extendedKickRange :=
        if isGoodScoringPosition ball.position then baseKickRange + 20 else baseKickRange + 10
      (targetPosition, decide (distanceToBall ≤ extendedKickRange))
    else
      let humanToBallDistance := Physics.distance closestHumanToBall.position ball.position
      if humanToBallDistance < 150 then
        (getInterceptionPosition aiPlayer closestHumanToBall ball, false)
      else
        (getAggressivePositioning aiPlayer ball bluePlayers role, false)
  kickPhase ball rand targetAndKick.2
    (moveAggressivelyToTarget s aiPlayer targetAndKick.1 rand ridx)

/-- `GameEngine.makeAggressiveAIDecision` (`src/server/src/game/engine.ts`).
The `redPlayers.reduce` with no initial value throws on an empty red
list; that error branch is `none`, and otherwise the reduction result
(the red player closest to the ball, earlier insertion wins ties) feeds
the decision body. -/
noncomputable def makeAggressiveAIDecision (s : GameState) (aiPlayer : Player) (ball : Ball)
    (distanceToBall : ℝ) (rand : ℕ → ℝ) (ridx : ℕ) : Option (Player × ℕ) :=
  match s.players.filter (fun p => p.team = Team.red) with
  | [] => none
  | h :: t =>
    some (decisionBody s aiPlayer ball distanceToBall rand ridx
      (t.foldl (fun closest player =>
        if Physics.distance player.position ball.position <
            Physics.distance closest.position ball.position then player else closest) h))

/-- `GameEngine.updateAIPlayer` (`src/server/src/game/engine.ts`): initialise
cooldowns if absent, decay the kick cooldown, reset inputs, then decide. -/
noncomputable def updateAIPlayer (s : GameState) (p : Player) (dt : ℝ)
    (rand : ℕ → ℝ) (ridx : ℕ) : Option (Player × ℕ) :=
  let cds0 := p.aiCooldowns.getD ⟨0, 0⟩
  let cds1 : AICooldowns := { cds0 with kick := max 0 (cds0.kick - dt) }
  let p1 := { p with aiCooldowns := some cds1, input := ⟨false, false, false, false, false⟩ }
  let distanceToBall := Physics.distance p1.position s.ball.position
  makeAggressiveAIDecision s p1 s.ball distanceToBall rand ridx

/-- One iteration of the player loop in `GameEngine.update`
(`src/server/src/game/engine.ts`): AI decision for blue `ai_` players,
then the shared integration path. -/
noncomputable def stepPlayer (dt : ℝ) (rand : ℕ → ℝ) (acc : GameState × ℕ) (id : String) :
    Option (GameState × ℕ) :=
  match mapGet acc.1.players id with
  | none => some acc
  | some p =>
    (if p.team = Team.blue ∧ isAIid p.playerId = true
      then updateAIPlayer acc.1 p dt rand acc.2
      else some (p, acc.2)).map (fun pr =>
      ({ acc.1 with
          players := mapSet acc.1.players (updatePlayer pr.1 acc.1.ball dt).1
          ball := (updatePlayer pr.1 acc.1.ball dt).2 }, pr.2))

/-- The player loop of `GameEngine.update`: iterate the map values in
insertion order (the roster never changes during the loop). -/
noncomputable def updatePlayersPhase (s : GameState) (dt : ℝ) (rand : ℕ → ℝ) (ridx : ℕ) :
    Option (GameState × ℕ) :=
  (s.players.map (fun p => p.playerId)).foldl
    (fun acc id => acc.bind (fun a => stepPlayer dt rand a id)) (some (s, ridx))

/-- One wall check-and-resolve of `GameEngine.handleCollisions`. -/
noncomputable def wallStep (c : Physics.Circ) (wall : Wall) : Physics.Circ :=
  if Physics.checkWallCollision c.position c.radius wall
  then Physics.resolveWallCollision c wall else c

/-- Player-wall section of `GameEngine.handleCollisions`. -/
noncomputable def playerWallPass (players : List Player) : List Player :=
  players.map (fun p =>
    let c := stadium.walls.foldl wallStep (⟨p.position, p.velocity, p.radius⟩ : Physics.Circ)
    { p with position := c.position, velocity := c.velocity })

/-- Ball-wall section of `GameEngine.handleCollisions`. -/
noncomputable def ballWallPass (ball : Ball) : Ball :=
  let c := stadium.walls.foldl wallStep (⟨ball.position, ball.velocity, ball.radius⟩ : Physics.Circ)
  { ball with position := c.position, velocity := c.velocity }

/-- One player-ball check-and-resolve of `GameEngine.handleCollisions`. -/
noncomputable def playerBallStep (t : GameState) (id : String) : GameState :=
  match mapGet t.players id with
  | none => t
  | some p =>
    if Physics.checkCircleCollision p.position p.radius t.ball.position t.ball.radius then
      let res := Physics.resolveCircleCollision ⟨p.position, p.velocity, p.radius⟩
        ⟨t.ball.position, t.ball.velocity, t.ball.radius⟩
      { t with
        players := mapSet t.players
          { p with position := res.1.position, velocity := res.1.velocity }
        ball := { t.ball with position := res.2.position, velocity := res.2.velocity } }
    else t

/-- Player-ball section of `GameEngine.handleCollisions`: sequential over
players, the ball updated in place between iterations. -/
noncomputable def playerBallPass (s : GameState) : GameState :=
  (s.players.map (fun p => p.playerId)).foldl playerBallStep s

/-- Index pairs `i < j` below `n`, in the nested-loop order of
`GameEngine.handleCollisions`. -/
def pairsUpTo (n : ℕ) : List (ℕ × ℕ) :=
  (List.range n).flatMap (fun i => (List.range' (i + 1) (n - (i + 1))).map (fun j => (i, j)))

/-- One player-player check-and-resolve of `GameEngine.handleCollisions`. -/
noncomputable def playerPlayerStep (ids : List String) (t : GameState) (ij : ℕ × ℕ) : GameState :=
  match mapGet t.players (ids.getD ij.1 ""), mapGet t.players (ids.getD ij.2 "") with
  | some pa, some pb =>
    if Physics.checkCircleCollision pa.position pa.radius pb.position pb.radius then
      let res := Physics.resolveCircleCollision ⟨pa.position, pa.velocity, pa.radius⟩
        ⟨pb.position, pb.velocity, pb.radius⟩
      { t with
        players := mapSet
          (mapSet t.players { pa with position := res.1.position, velocity := res.1.velocity })
          { pb with position := res.2.position, velocity := res.2.velocity } }
    else t
  | _, _ => t

/-- Player-player section of `GameEngine.handleCollisions`: all pairs from
the values snapshot, mutations visible to later pairs. -/
noncomputable def playerPlayerPass (s : GameState) : GameState :=
  let ids := s.players.map (fun p => p.playerId)
  (pairsUpTo ids.length).foldl (playerPlayerStep ids) s

/-- `GameEngine.handleCollisions` (`src/server/src/game/engine.ts`):
player-wall, ball-wall, player-ball, player-player, in source order. -/
noncomputable def handleCollisions (s : GameState) : GameState :=
  let s1 := { s with players := playerWallPass s.players }
  let s2 := { s1 with ball := ballWallPass s1.ball }
  playerPlayerPass (playerBallPass s2)

/-- `GameEngine.checkGoals` (`src/server/src/game/engine.ts`): on a goal,
increment the scorer's tally, reset ball and players, end the match at
three goals. -/
noncomputable def checkGoals (s : GameState) : GameState :=
  match StadiumConfig.isInGoal s.ball.position stadium with
  | none => s
  | some team =>
    let s1 :=
      match team with
      | Team.red => { s with score := { s.score with red := s.score.red + 1 } }
      | Team.blue => { s with score := { s.score with blue := s.score.blue + 1 } }
    let s2 := resetBallAndPlayers s1
    if 3 ≤ s2.score.red ∨ 3 ≤ s2.score.blue then endMatch s2 else s2

/-- The clock section of `GameEngine.update`: advance `gameTime` while a
match is active, end the match on time-up. -/
noncomputable def tickClock (s : GameState) (dt : ℝ) : GameState :=
  if s.isMatchActive = true then
    let s1 := { s with gameTime := s.gameTime + dt * 1000 }
    if s1.gameTime ≥ s1.matchDuration then endMatch s1 else s1
  else s

/-- `GameEngine.update` (`src/server/src/game/engine.ts`): clock, player
loop (AI + integration), ball integration, collisions, goals. `dt` is
the wall-clock delta in seconds; `none` is the JavaScript crash of the
empty-red `reduce`. -/
noncomputable def update (s : GameState) (dt : ℝ) (rand : ℕ → ℝ) (ridx : ℕ) :
    Option GameState :=
  (updatePlayersPhase (tickClock s dt) dt rand ridx).map (fun a =>
    checkGoals (handleCollisions { a.1 with ball := updateBall a.1.ball dt }))

end TickPipeline

end GameEngine

/-!
Reference-semantics model for the snapshot boundary.

`GameEngine.getGameState` and the return of `GameEngine.update` are both
the spread `{ ...this.gameState }`. A JavaScript spread copies the
top-level record but keeps the same object references in its fields, so
the `players` map, `ball` and `score` of the returned record are the
live heap objects. The model makes those references explicit: a heap of
numbered cells and a top-level record holding cell addresses plus the
primitive fields.
-/

namespace SnapshotModel

/-- Heap of the engine's mutable sub-objects; an address is an index. -/
structure Heap where
  scoreCells : List Score
  ballCells : List Ball
  playerMapCells : List (List Player)

/-- The top-level `GameState` record as JavaScript sees it: object
references for `players`, `ball`, `score`, values for the primitives. -/
structure GameStateObj where
  playersRef : ℕ
  ballRef : ℕ
  scoreRef : ℕ
  gameTime : ℝ
  matchDuration : ℝ
  isMatchActive : Bool

/-- The spread `{ ...this.gameState }` of `GameEngine.getGameState` and of
the `return` in `GameEngine.update`: a fresh top-level record holding the
same field references and primitive values. -/
def spreadClone (g : GameStateObj) : GameStateObj :=
  { playersRef := g.playersRef
    ballRef := g.ballRef
    scoreRef := g.scoreRef
    gameTime := g.gameTime
    matchDuration := g.matchDuration
    isMatchActive := g.isMatchActive }

/-- Read the score object at an address. -/
def readScore (h : Heap) (a : ℕ) : Score := h.scoreCells.getD a ⟨0, 0⟩

/-- Mutate the score object at an address (e.g. `snapshot.score.red++`
performed by a holder of the returned record). -/
def writeScore (h : Heap) (a : ℕ) (v : Score) : Heap :=
  { h with scoreCells := h.scoreCells.set a v }

/-- What the engine observes as its own score: the cell its live record
references. -/
def engineScore (h : Heap) (live : GameStateObj) : Score := readScore h live.scoreRef

end SnapshotModel

/-!
Wire-protocol model for the `input` message handling of
`src/server/src/index.ts` (`GameServer.processMessage` /
`GameServer.isValidInput`).
-/

namespace GameServer

/-- A JSON value as produced by `JSON.parse` on a client message. -/
inductive JValue where
  | null
  | bool (b : Bool)
  | num (q : ℚ)
  | str (s : String)
  | arr (items : List JValue)
  | obj (fields : List (String × JValue))

/-- JavaScript truthiness of a parsed JSON value (`message.data && ...`).
`NaN` cannot arise from `JSON.parse`. -/
def truthy : JValue → Bool
  | JValue.null => false
  | JValue.bool b => b
  | JValue.num q => ¬ q = 0
  | JValue.str s => ¬ s = ""
  | JValue.arr _ => true
  | JValue.obj _ => true

/-- JavaScript `typeof` on a parsed JSON value. -/
def typeofJS : JValue → String
  | JValue.null => "object"
  | JValue.bool _ => "boolean"
  | JValue.num _ => "number"
  | JValue.str _ => "string"
  | JValue.arr _ => "object"
  | JValue.obj _ => "object"

/-- Property access `v.name` on a parsed JSON value: `JSON.parse` keeps the
last duplicate key; absent properties are `undefined` (`none`). -/
def getProp : JValue → String → Option JValue
  | JValue.obj fields, name =>
    (fields.reverse.find? (fun f => f.1 = name)).map (fun f => f.2)
  | _, _ => none

/-- `typeof v.name === 'boolean'` on a parsed JSON value. -/
def propIsBool (v : JValue) (name : String) : Bool :=
  match getProp v name with
  | some (JValue.bool _) => true
  | _ => false

/-- `GameServer.isValidInput` (`src/server/src/index.ts`): the payload is an
object and all five directional fields are boolean-typed. -/
def isValidInput (input : JValue) : Bool :=
  typeofJS input = "object" ∧
    propIsBool input "up" ∧ propIsBool input "down" ∧ propIsBool input "left" ∧
    propIsBool input "right" ∧ propIsBool input "kick"

/-- Boolean read of a validated field (`message.data as PlayerInput`). -/
def getBoolProp (v : JValue) (name : String) : Bool :=
  match getProp v name with
  | some (JValue.bool b) => b
  | _ => false

/-- The `PlayerInput` decoded from a validated payload. -/
def decodeInput (v : JValue) : PlayerInput :=
  { up := getBoolProp v "up"
    down := getBoolProp v "down"
    left := getBoolProp v "left"
    right := getBoolProp v "right"
    kick := getBoolProp v "kick" }

/-- A parsed client message `{type, playerId?, data?, timestamp}`
(`src/server/src/types/game.ts`, `GameMessage`); absent fields are
`none`. -/
structure GameMessage where
  type : String
  playerId : Option String
  data : Option JValue
  timestamp : ℚ

/-- An outbound reply from `processMessage`; the `input` path never sends
one, so this type only records that nothing is emitted. -/
inductive Reply where
  | message (payload : String)
deriving DecidableEq

/-- `GameServer.processMessage` (`src/server/src/index.ts`): an `input`
message is applied through `GameEngine.updatePlayerInput` only when the
data is present, truthy and `isValidInput`; every other outcome leaves
the engine untouched, and no reply is ever sent for a client message. -/
def processMessage (engine : GameState) (playerId : String) (message : GameMessage) :
    GameState × List Reply :=
  if message.type = "input" then
    match message.data with
    | some d =>
      if truthy d = true ∧ isValidInput d = true then
        (GameEngine.updatePlayerInput engine playerId (decodeInput d), [])
      else (engine, [])
    | none => (engine, [])
  else (engine, [])

end GameServer

/-!
Vector-math lemmas about the `Physics` embedding.
-/

namespace Physics

theorem magnitude_nonneg (v : Vector2) : 0 ≤ magnitude v := Real.sqrt_nonneg _

theorem magnitude_eq_zero_iff (v : Vector2) : magnitude v = 0 ↔ v.x = 0 ∧ v.y = 0 := by
  unfold magnitude
  rw [show v.x * v.x + v.y * v.y = v.x ^ 2 + v.y ^ 2 by ring]
  constructor
  · intro h
    have h2 : v.x ^ 2 + v.y ^ 2 ≤ 0 := Real.sqrt_eq_zero'.mp h
    constructor <;> nlinarith [sq_nonneg v.x, sq_nonneg v.y]
  · rintro ⟨hx, hy⟩
    rw [hx, hy]
    simp

theorem magnitude_mk_x (a : ℝ) : magnitude ⟨a, 0⟩ = |a| := by
  unfold magnitude
  rw [show a * a + 0 * 0 = a ^ 2 by ring, Real.sqrt_sq_eq_abs]

theorem magnitude_mk_y (a : ℝ) : magnitude ⟨0, a⟩ = |a| := by
  unfold magnitude
  rw [show 0 * 0 + a * a = a ^ 2 by ring, Real.sqrt_sq_eq_abs]

theorem magnitude_multiply (v : Vector2) (c : ℝ) :
    magnitude (multiply v c) = |c| * magnitude v := by
  unfold magnitude multiply
  rw [show v.x * c * (v.x * c) + v.y * c * (v.y * c) = c ^ 2 * (v.x * v.x + v.y * v.y) by ring,
    Real.sqrt_mul (sq_nonneg c), Real.sqrt_sq_eq_abs]

theorem magnitude_lt_iff {v : Vector2} {c : ℝ} (hc : 0 < c) :
    magnitude v < c ↔ v.x * v.x + v.y * v.y < c * c := by
  unfold magnitude
  rw [Real.sqrt_lt' hc]
  constructor <;> intro h <;> nlinarith

theorem magnitude_le_iff {v : Vector2} {c : ℝ} (hc : 0 ≤ c) :
    magnitude v ≤ c ↔ v.x * v.x + v.y * v.y ≤ c * c := by
  unfold magnitude
  constructor
  · intro h
    have h2 : Real.sqrt (v.x * v.x + v.y * v.y) ^ 2 ≤ c ^ 2 := by
      have := magnitude_nonneg v
      unfold magnitude at this
      nlinarith
    rw [Real.sq_sqrt (by nlinarith [sq_nonneg v.x, sq_nonneg v.y] : (0:ℝ) ≤ v.x * v.x + v.y * v.y)] at h2
    nlinarith
  · intro h
    have h2 : Real.sqrt (v.x * v.x + v.y * v.y) ≤ Real.sqrt (c * c) :=
      Real.sqrt_le_sqrt h
    rwa [show c * c = c ^ 2 by ring, Real.sqrt_sq hc] at h2

theorem not_magnitude_lt_of_sq_le {v : Vector2} {c : ℝ} (h : c * c ≤ v.x * v.x + v.y * v.y) :
    ¬ magnitude v < c := by
  intro hlt
  have hc : 0 < c := lt_of_le_of_lt (magnitude_nonneg v) hlt
  exact absurd ((magnitude_lt_iff hc).mp hlt) (not_lt.mpr h)

theorem abs_x_le_magnitude (v : Vector2) : |v.x| ≤ magnitude v := by
  rcases le_or_lt (magnitude v) 0 with h | h
  · have h0 := (magnitude_eq_zero_iff v).mp (le_antisymm h (magnitude_nonneg v))
    rw [h0.1]
    simp [le_antisymm h (magnitude_nonneg v)]
  · rw [abs_le]
    constructor <;> nlinarith [(magnitude_le_iff (magnitude_nonneg v)).mp (le_refl (magnitude v)),
      sq_nonneg v.y]

theorem abs_y_le_magnitude (v : Vector2) : |v.y| ≤ magnitude v := by
  rcases le_or_lt (magnitude v) 0 with h | h
  · have h0 := (magnitude_eq_zero_iff v).mp (le_antisymm h (magnitude_nonneg v))
    rw [h0.2]
    simp [le_antisymm h (magnitude_nonneg v)]
  · rw [abs_le]
    constructor <;> nlinarith [(magnitude_le_iff (magnitude_nonneg v)).mp (le_refl (magnitude v)),
      sq_nonneg v.x]

theorem distance_nonneg (a b : Vector2) : 0 ≤ distance a b := magnitude_nonneg _

theorem distance_mk_x (x1 y1 x2 : ℝ) :
    distance ⟨x1, y1⟩ ⟨x2, y1⟩ = |x1 - x2| := by
  unfold distance subtract
  simpa using magnitude_mk_x (x1 - x2)

theorem distance_mk_y (x1 y1 y2 : ℝ) :
    distance ⟨x1, y1⟩ ⟨x1, y2⟩ = |y1 - y2| := by
  unfold distance subtract
  simpa using magnitude_mk_y (y1 - y2)

end Physics

/-!
Claim C8: goal detection returns the scoring team.
-/

/-- C8: `isInGoal` returns the team that scored, not whose goal it is: the
exact center of the blue team's goal pocket (the right pocket, centered
at (652.5, 0)) yields red, the exact center of the red team's goal
pocket (the left pocket, centered at (-652.5, 0)) yields blue, and the
field center yields none. -/
theorem c8_goal_detection :
    StadiumConfig.isInGoal ⟨652.5, 0⟩ GameEngine.stadium = some Team.red ∧
    StadiumConfig.isInGoal ⟨-652.5, 0⟩ GameEngine.stadium = some Team.blue ∧
    StadiumConfig.isInGoal ⟨0, 0⟩ GameEngine.stadium = none := by
  refine ⟨?_, ?_, ?_⟩ <;>
    · rw [StadiumConfig.isInGoal]
      norm_num [GameEngine.stadium, StadiumConfig.createClassicStadium]

/-!
Claim C2: the returned game state is a spread (shallow) copy, not a deep
copy.
-/

/-- C2 counterexample: with the live record referencing score cell 0 of a
one-cell heap, mutating the score through the record returned by
`getGameState`/`update` (the spread clone) changes the score the engine
itself observes — refuting "mutating any part of the returned value
leaves the engine's internal state unchanged". -/
theorem c2_snapshot_deep_copy_counterexample :
    SnapshotModel.engineScore
        (SnapshotModel.writeScore ⟨[⟨0, 0⟩], [], []⟩
          (SnapshotModel.spreadClone ⟨0, 0, 0, 0, 180000, false⟩).scoreRef ⟨1, 0⟩)
        ⟨0, 0, 0, 0, 180000, false⟩ ≠
      SnapshotModel.engineScore ⟨[⟨0, 0⟩], [], []⟩ ⟨0, 0, 0, 0, 180000, false⟩ := by
  simp [SnapshotModel.engineScore, SnapshotModel.writeScore, SnapshotModel.readScore,
    SnapshotModel.spreadClone]

/-- C2 amended: the state returned by `update` and `getGameState` is a
shallow copy — a fresh top-level record whose primitive fields are
copied by value but whose `players`, `ball` and `score` fields are the
same references as the live state's, so mutating those shared
sub-objects through the returned value is visible to the engine. -/
theorem c2_snapshot_is_shallow_copy :
    (∀ g : SnapshotModel.GameStateObj,
        (SnapshotModel.spreadClone g).playersRef = g.playersRef ∧
        (SnapshotModel.spreadClone g).ballRef = g.ballRef ∧
        (SnapshotModel.spreadClone g).scoreRef = g.scoreRef ∧
        (SnapshotModel.spreadClone g).gameTime = g.gameTime ∧
        (SnapshotModel.spreadClone g).isMatchActive = g.isMatchActive) ∧
    (∀ (h : SnapshotModel.Heap) (g : SnapshotModel.GameStateObj) (v : Score),
        g.scoreRef < h.scoreCells.length →
        SnapshotModel.engineScore
          (SnapshotModel.writeScore h (SnapshotModel.spreadClone g).scoreRef v) g = v) := by
  constructor
  · intro g
    exact ⟨rfl, rfl, rfl, rfl, rfl⟩
  · intro h g v hlen
    simp only [SnapshotModel.engineScore, SnapshotModel.writeScore, SnapshotModel.readScore,
      SnapshotModel.spreadClone, List.getD, List.get?_eq_getElem?]
    rw [List.getElem?_set_self]
    · rfl
    · exact hlen

/-- C2 amended witness: the sharing consequence evaluated at the concrete
one-cell heap. -/
theorem c2_snapshot_is_shallow_copy_witness :
    (0 : ℕ) < ([⟨0, 0⟩] : List Score).length ∧
      SnapshotModel.engineScore
        (SnapshotModel.writeScore ⟨[⟨0, 0⟩], [], []⟩
          (SnapshotModel.spreadClone ⟨0, 0, 0, 0, 180000, false⟩).scoreRef ⟨2, 1⟩)
        ⟨0, 0, 0, 0, 180000, false⟩ = ⟨2, 1⟩ :=
  ⟨by decide, c2_snapshot_is_shallow_copy.2 ⟨[⟨0, 0⟩], [], []⟩ ⟨0, 0, 0, 0, 180000, false⟩ ⟨2, 1⟩
    (by decide)⟩

/-!
Claim C9: input messages are applied iff all five fields are present and
boolean-typed, else silently dropped.
-/

namespace GameServer

/-- Spec-side predicate for claim C9, following the spec's words: the data
has all five fields `up`, `down`, `left`, `right`, `kick` present and
boolean-typed. -/
def hasFiveBoolFields (d : JValue) : Bool :=
  propIsBool d "up" && propIsBool d "down" && propIsBool d "left" &&
    propIsBool d "right" && propIsBool d "kick"

/-- The engine-side guard (`message.data && isValidInput(message.data)`)
accepts exactly the payloads with five boolean fields. -/
theorem guard_iff_fiveBool (d : JValue) :
    (truthy d = true ∧ isValidInput d = true) ↔ hasFiveBoolFields d = true := by
  cases d <;>
    simp [truthy, isValidInput, hasFiveBoolFields, typeofJS, propIsBool, getProp] <;>
    tauto

end GameServer

namespace GameEngine

/-- `find?` over a replace-in-place map returns the replacement when some
element matches. -/
theorem find?_map_replace (l : List Player) (q : Player)
    (hmem : (l.find? (fun r => r.playerId = q.playerId)).isSome) :
    (l.map (fun r => if r.playerId = q.playerId then q else r)).find?
      (fun r => r.playerId = q.playerId) = some q := by
  induction l with
  | nil => simp at hmem
  | cons r rest ih =>
    by_cases hr : r.playerId = q.playerId
    · simp [hr]
    · have hmem2 : (rest.find? (fun r => r.playerId = q.playerId)).isSome := by
        simpa [List.find?_cons, hr] using hmem
      simp [hr, ih hmem2]

/-- `mapGet` after `mapSet` of a record carrying an existing key returns
that record. -/
theorem mapGet_mapSet_of_mem (l : List Player) (q : Player) (id : String)
    (hq : q.playerId = id) (hmem : (l.find? (fun r => r.playerId = id)).isSome) :
    mapGet (mapSet l q) id = some q := by
  subst hq
  have hany : l.any (fun r => r.playerId = q.playerId) = true := by
    rcases Option.isSome_iff_exists.mp hmem with ⟨p, hp⟩
    have hpmem := List.mem_of_find?_eq_some hp
    have hppred := List.find?_some hp
    exact List.any_eq_true.mpr ⟨p, hpmem, hppred⟩
  simp only [mapSet, mapGet, hany, if_true]
  exact find?_map_replace l q hmem

/-- Effect of `updatePlayerInput` on the named player. -/
theorem mapGet_updatePlayerInput (s : GameState) (id : String) (inp : PlayerInput) :
    mapGet (updatePlayerInput s id inp).players id =
      (mapGet s.players id).map (fun p => { p with input := inp }) := by
  unfold updatePlayerInput
  cases hfind : mapGet s.players id with
  | none => simp [hfind]
  | some p =>
    have hp : p.playerId = id := by
      have := List.find?_some hfind
      simpa using this
    simp only [hfind, Option.map_some]
    exact mapGet_mapSet_of_mem s.players { p with input := inp } id hp
      (by unfold mapGet at hfind; simp [hfind])

end GameEngine

/-- C9: an `input` message is applied to the named player's input state if
and only if its data has all five fields present and boolean-typed;
otherwise it is silently dropped — no reply is emitted and the engine
state (in particular the player's input) is unchanged. -/
theorem c9_input_validation (engine : GameState) (playerId : String)
    (message : GameServer.GameMessage) (hm : message.type = "input") :
    (GameServer.processMessage engine playerId message).2 = [] ∧
    (∀ d, message.data = some d → GameServer.hasFiveBoolFields d = true →
      GameServer.processMessage engine playerId message =
        (GameEngine.updatePlayerInput engine playerId (GameServer.decodeInput d), []) ∧
      GameEngine.mapGet
          (GameEngine.updatePlayerInput engine playerId (GameServer.decodeInput d)).players
          playerId =
        (GameEngine.mapGet engine.players playerId).map
          (fun p => { p with input := GameServer.decodeInput d })) ∧
    ((∀ d, message.data = some d → GameServer.hasFiveBoolFields d = false) →
      GameServer.processMessage engine playerId message = (engine, [])) := by
  refine ⟨?_, ?_, ?_⟩
  · cases hd : message.data with
    | none => simp [GameServer.processMessage, hm, hd]
    | some d =>
      by_cases hv : GameServer.truthy d = true ∧ GameServer.isValidInput d = true
      · simp [GameServer.processMessage, hm, hd, hv]
      · simp [GameServer.processMessage, hm, hd, hv]
  · intro d hd hfive
    have hv := (GameServer.guard_iff_fiveBool d).mpr hfive
    constructor
    · simp [GameServer.processMessage, hm, hd, hv.1, hv.2]
    · exact GameEngine.mapGet_updatePlayerInput engine playerId (GameServer.decodeInput d)
  · intro hall
    cases hd : message.data with
    | none => simp [GameServer.processMessage, hm, hd]
    | some d =>
      have hfive := hall d hd
      have hv : ¬ (GameServer.truthy d = true ∧ GameServer.isValidInput d = true) := by
        intro hcontra
        rw [(GameServer.guard_iff_fiveBool d).mp hcontra] at hfive
        exact Bool.true_eq_false.mp hfive
      simp [GameServer.processMessage, hm, hd, hv]

/-- C9 witness: a well-formed five-boolean payload is applied and a payload
missing `kick` is dropped, at concrete messages. -/
theorem c9_input_validation_witness :
    GameServer.hasFiveBoolFields
        (GameServer.JValue.obj
          [("up", GameServer.JValue.bool true), ("down", GameServer.JValue.bool false),
           ("left", GameServer.JValue.bool false), ("right", GameServer.JValue.bool false),
           ("kick", GameServer.JValue.bool true)]) = true ∧
    GameServer.processMessage GameEngine.initialGameState "p1"
        ⟨"input", none,
         some (GameServer.JValue.obj
          [("up", GameServer.JValue.bool true), ("down", GameServer.JValue.bool false),
           ("left", GameServer.JValue.bool false), ("right", GameServer.JValue.bool false),
           ("kick", GameServer.JValue.bool true)]), 0⟩ =
      (GameEngine.updatePlayerInput GameEngine.initialGameState "p1"
        (GameServer.decodeInput
          (GameServer.JValue.obj
          [("up", GameServer.JValue.bool true), ("down", GameServer.JValue.bool false),
           ("left", GameServer.JValue.bool false), ("right", GameServer.JValue.bool false),
           ("kick", GameServer.JValue.bool true)])), []) ∧
    GameServer.processMessage GameEngine.initialGameState "p1"
        ⟨"input", none,
         some (GameServer.JValue.obj
          [("up", GameServer.JValue.bool true), ("down", GameServer.JValue.bool false),
           ("left", GameServer.JValue.bool false), ("right", GameServer.JValue.bool false)]), 0⟩ =
      (GameEngine.initialGameState, []) := by
  refine ⟨by decide, ?_, ?_⟩
  · exact ((c9_input_validation GameEngine.initialGameState "p1" _ rfl).2.1 _ rfl (by decide)).1
  · refine (c9_input_validation GameEngine.initialGameState "p1" _ rfl).2.2 ?_
    intro d hd
    cases hd
    decide

/-!
Claim C5: circle collision resolution separates to exactly the radius sum
and applies equal-and-opposite velocity changes.
-/

theorem Vector2.ext2 {v w : Vector2} (hx : v.x = w.x) (hy : v.y = w.y) : v = w := by
  cases v
  cases w
  simp_all

namespace Physics

theorem magnitude_subtract_comm (u v : Vector2) :
    magnitude (subtract u v) = magnitude (subtract v u) := by
  unfold magnitude subtract
  ring_nf

/-- The separation step moves the centers to exactly the radius sum. -/
theorem separated_distance (a b : Circ)
    (hoverlap : distance a.position b.position < a.radius + b.radius) :
    distance
        (subtract a.position
          (multiply (collisionNormal a b)
            ((a.radius + b.radius - distance a.position b.position) * 0.5)))
        (add b.position
          (multiply (collisionNormal a b)
            ((a.radius + b.radius - distance a.position b.position) * 0.5))) =
      a.radius + b.radius := by
  have hd0 : 0 ≤ distance a.position b.position := distance_nonneg _ _
  have hmin : 0 < a.radius + b.radius := lt_of_le_of_lt hd0 hoverlap
  set ov := (a.radius + b.radius - distance a.position b.position) * 0.5 with hov
  by_cases hd : distance a.position b.position = 0
  · have hzero := (magnitude_eq_zero_iff (subtract a.position b.position)).mp hd
    simp only [subtract] at hzero
    have hdir : collisionNormal a b = ⟨1, 0⟩ := by
      unfold collisionNormal
      rw [if_pos hd]
    rw [hdir]
    have hvec :
        subtract (subtract a.position (multiply ⟨1, 0⟩ ov)) (add b.position (multiply ⟨1, 0⟩ ov)) =
          ⟨-(a.radius + b.radius), 0⟩ := by
      apply Vector2.ext2 <;> simp only [subtract, add, multiply]
      · rw [hov, hd]
        nlinarith [hzero.1]
      · linarith [hzero.2]
    unfold distance
    rw [hvec, magnitude_mk_x, abs_neg, abs_of_pos hmin]
  · have hm : magnitude (subtract b.position a.position) ≠ 0 := by
      rw [magnitude_subtract_comm]
      exact hd
    have hmpos : 0 < magnitude (subtract b.position a.position) := by
      rcases lt_or_eq_of_le (magnitude_nonneg (subtract b.position a.position)) with h | h
      · exact h
      · exact absurd h.symm hm
    have hdir : collisionNormal a b =
        ⟨(subtract b.position a.position).x / magnitude (subtract b.position a.position),
         (subtract b.position a.position).y / magnitude (subtract b.position a.position)⟩ := by
      unfold collisionNormal normalize
      rw [if_neg hd, if_neg hm]
    rw [hdir]
    set m := magnitude (subtract b.position a.position) with hmdef
    set dx := (subtract b.position a.position).x with hdx
    set dy := (subtract b.position a.position).y with hdy
    have hmd : m = distance a.position b.position := by
      rw [hmdef]
      unfold distance
      exact magnitude_subtract_comm _ _
    have hvec :
        subtract (subtract a.position (multiply ⟨dx / m, dy / m⟩ ov))
            (add b.position (multiply ⟨dx / m, dy / m⟩ ov)) =
          multiply ⟨dx, dy⟩ (-((m + 2 * ov) / m)) := by
      apply Vector2.ext2 <;> simp only [subtract, add, multiply]
      · rw [hdx]
        simp only [subtract]
        field_simp
        ring
      · rw [hdy]
        simp only [subtract]
        field_simp
        ring
    unfold distance
    rw [hvec]
    have hveq : (⟨dx, dy⟩ : Vector2) = subtract b.position a.position := by
      apply Vector2.ext2 <;> simp [hdx, hdy]
    rw [magnitude_multiply, hveq, ← hmdef]
    have hov2 : m + 2 * ov = a.radius + b.radius := by
      rw [hov, ← hmd]
      ring
    have hcpos : 0 < (m + 2 * ov) / m := by
      rw [hov2]
      positivity
    rw [abs_neg, abs_of_pos hcpos]
    field_simp
    linarith [hov2]

/-- After resolution of an overlapping pair, the centers sit exactly the
radius sum apart. -/
theorem resolveCircle_separates (a b : Circ)
    (hoverlap : distance a.position b.position < a.radius + b.radius) :
    distance (resolveCircleCollision a b).1.position (resolveCircleCollision a b).2.position =
      a.radius + b.radius := by
  simp only [resolveCircleCollision]
  rw [if_pos hoverlap]
  split_ifs with hsep
  · exact separated_distance a b hoverlap
  · exact separated_distance a b hoverlap

end Physics

/-- C5: for an overlapping pair, `resolveCircleCollision` re-separates the
centers to at least the radius sum minus any nonnegative epsilon (in
fact exactly the radius sum), applies equal-and-opposite velocity
changes, and skips the impulse entirely (velocities unchanged) when the
pair is already separating along the collision normal. -/
theorem c5_circle_resolution (a b : Physics.Circ) (eps : ℝ) (heps : 0 ≤ eps)
    (hoverlap : Physics.distance a.position b.position < a.radius + b.radius) :
    Physics.distance (Physics.resolveCircleCollision a b).1.position
        (Physics.resolveCircleCollision a b).2.position ≥ a.radius + b.radius - eps ∧
    Physics.add
        (Physics.subtract (Physics.resolveCircleCollision a b).1.velocity a.velocity)
        (Physics.subtract (Physics.resolveCircleCollision a b).2.velocity b.velocity) =
      (⟨0, 0⟩ : Vector2) ∧
    (Physics.dot (Physics.subtract b.velocity a.velocity) (Physics.collisionNormal a b) > 0 →
      (Physics.resolveCircleCollision a b).1.velocity = a.velocity ∧
      (Physics.resolveCircleCollision a b).2.velocity = b.velocity) := by
  refine ⟨?_, ?_, ?_⟩
  · rw [Physics.resolveCircle_separates a b hoverlap]
    linarith
  · simp only [Physics.resolveCircleCollision]
    rw [if_pos hoverlap]
    split_ifs with hsep
    · apply Vector2.ext2 <;> (simp only [Physics.add, Physics.subtract]; ring)
    · apply Vector2.ext2 <;>
        (simp only [Physics.add, Physics.subtract, Physics.multiply]; ring)
  · intro hsep
    simp only [Physics.resolveCircleCollision]
    rw [if_pos hoverlap]
    rw [if_pos hsep]
    exact ⟨rfl, rfl⟩

/-- C5 witness: the theorem applied to two concrete overlapping circles. -/
theorem c5_circle_resolution_witness :
    ((0 : ℝ) ≤ 0 ∧
      Physics.distance (⟨0, 0⟩ : Vector2) ⟨30, 0⟩ < 24 + 18) ∧
    Physics.distance
        (Physics.resolveCircleCollision ⟨⟨0, 0⟩, ⟨10, 0⟩, 24⟩ ⟨⟨30, 0⟩, ⟨0, 0⟩, 18⟩).1.position
        (Physics.resolveCircleCollision ⟨⟨0, 0⟩, ⟨10, 0⟩, 24⟩ ⟨⟨30, 0⟩, ⟨0, 0⟩, 18⟩).2.position ≥
      24 + 18 - 0 := by
  have hd : Physics.distance (⟨0, 0⟩ : Vector2) ⟨30, 0⟩ < 24 + 18 := by
    rw [show Physics.distance (⟨0, 0⟩ : Vector2) ⟨30, 0⟩ = |(0 : ℝ) - 30| from
      Physics.distance_mk_x 0 0 30]
    norm_num
  exact ⟨⟨le_refl 0, hd⟩,
    (c5_circle_resolution ⟨⟨0, 0⟩, ⟨10, 0⟩, 24⟩ ⟨⟨30, 0⟩, ⟨0, 0⟩, 18⟩ 0 (le_refl 0) hd).1⟩

/-!
Claim C7: kick permission boundary and kick impulse accumulation.
-/

/-- C7: a kick is permitted exactly up to the inclusive boundary
`player.radius + ball.radius + kickRange` (equality permits, one unit
further rejects), and a performed kick adds the kick-power impulse along
the player-to-ball direction on top of the ball's existing velocity. -/
theorem c7_kick_rule :
    (∀ (p : Player) (ball : Ball),
        Physics.distance p.position ball.position ≤
            p.radius + ball.radius + GameConfig.kickRange ↔
          GameEngine.canPlayerKickBall p ball) ∧
    (∀ (p : Player) (ball : Ball),
        Physics.distance p.position ball.position =
            p.radius + ball.radius + GameConfig.kickRange →
          GameEngine.canPlayerKickBall p ball) ∧
    (∀ (p : Player) (ball : Ball),
        Physics.distance p.position ball.position =
            p.radius + ball.radius + GameConfig.kickRange + 1 →
          ¬ GameEngine.canPlayerKickBall p ball) ∧
    (∀ (p : Player) (ball : Ball),
        (GameEngine.performKick p ball).velocity =
          Physics.add ball.velocity
            (Physics.multiply
              (Physics.normalize (Physics.subtract ball.position p.position))
              GameConfig.kickPower)) := by
  refine ⟨?_, ?_, ?_, ?_⟩
  · intro p ball
    exact Iff.rfl
  · intro p ball h
    unfold GameEngine.canPlayerKickBall
    rw [h]
  · intro p ball h
    unfold GameEngine.canPlayerKickBall
    rw [h]
    intro hcontra
    linarith
  · intro p ball
    rfl

/-- C7 witness: at the exact boundary distance 57 = 24 + 18 + 15 the kick is
permitted; one unit further it is rejected; the kick impulse adds to a
nonzero existing ball velocity. -/
theorem c7_kick_rule_witness :
    (Physics.distance
        ({ GameEngine.mkHumanPlayer "p" 0 with position := ⟨0, 0⟩ } : Player).position
        ({ GameEngine.createBall with position := ⟨57, 0⟩ } : Ball).position =
      ({ GameEngine.mkHumanPlayer "p" 0 with position := ⟨0, 0⟩ } : Player).radius +
        ({ GameEngine.createBall with position := ⟨57, 0⟩ } : Ball).radius +
        GameConfig.kickRange) ∧
    GameEngine.canPlayerKickBall { GameEngine.mkHumanPlayer "p" 0 with position := ⟨0, 0⟩ }
      { GameEngine.createBall with position := ⟨57, 0⟩ } ∧
    (Physics.distance
        ({ GameEngine.mkHumanPlayer "p" 0 with position := ⟨0, 0⟩ } : Player).position
        ({ GameEngine.createBall with position := ⟨58, 0⟩ } : Ball).position =
      ({ GameEngine.mkHumanPlayer "p" 0 with position := ⟨0, 0⟩ } : Player).radius +
        ({ GameEngine.createBall with position := ⟨58, 0⟩ } : Ball).radius +
        GameConfig.kickRange + 1) ∧
    ¬ GameEngine.canPlayerKickBall { GameEngine.mkHumanPlayer "p" 0 with position := ⟨0, 0⟩ }
      { GameEngine.createBall with position := ⟨58, 0⟩ } := by
  have h57 : Physics.distance
      ({ GameEngine.mkHumanPlayer "p" 0 with position := ⟨0, 0⟩ } : Player).position
      ({ GameEngine.createBall with position := ⟨57, 0⟩ } : Ball).position =
      ({ GameEngine.mkHumanPlayer "p" 0 with position := ⟨0, 0⟩ } : Player).radius +
        ({ GameEngine.createBall with position := ⟨57, 0⟩ } : Ball).radius +
        GameConfig.kickRange := by
    show Physics.distance (⟨0, 0⟩ : Vector2) (⟨57, 0⟩ : Vector2) = _
    rw [Physics.distance_mk_x 0 0 57]
    norm_num [GameEngine.mkHumanPlayer, GameEngine.createBall, GameConfig.playerRadius,
      GameConfig.ballRadius, GameConfig.kickRange]
  have h58 : Physics.distance
      ({ GameEngine.mkHumanPlayer "p" 0 with position := ⟨0, 0⟩ } : Player).position
      ({ GameEngine.createBall with position := ⟨58, 0⟩ } : Ball).position =
      ({ GameEngine.mkHumanPlayer "p" 0 with position := ⟨0, 0⟩ } : Player).radius +
        ({ GameEngine.createBall with position := ⟨58, 0⟩ } : Ball).radius +
        GameConfig.kickRange + 1 := by
    show Physics.distance (⟨0, 0⟩ : Vector2) (⟨58, 0⟩ : Vector2) = _
    rw [Physics.distance_mk_x 0 0 58]
    norm_num [GameEngine.mkHumanPlayer, GameEngine.createBall, GameConfig.playerRadius,
      GameConfig.ballRadius, GameConfig.kickRange]
  exact ⟨h57, c7_kick_rule.2.1 _ _ h57, h58, c7_kick_rule.2.2.1 _ _ h58⟩

/-!
Identity-string lemmas: decimal renderings contain no underscore and are
injective, so distinct AI indices give distinct `ai_blue_<now>_<index>`
ids, and AI ids always carry the `ai_` discriminator.
-/

namespace GameEngine

theorem digitChar10_ne_underscore : ∀ d, d < 10 → digitChar10 d ≠ '_' := by decide

theorem digitChar10_inj : ∀ a, a < 10 → ∀ b, b < 10 → digitChar10 a = digitChar10 b → a = b := by
  decide

theorem natToString_no_underscore (n : ℕ) : '_' ∉ (natToString n).data := by
  unfold natToString
  split
  · intro h
    simp at h
  · intro h
    simp only [String.mk] at h
    rw [List.mem_reverse] at h
    rcases List.mem_map.mp h with ⟨d, hd, hdc⟩
    exact digitChar10_ne_underscore d (Nat.digits_lt_base (by norm_num) hd) hdc

theorem map_digitChar10_inj (l1 l2 : List ℕ) (h1 : ∀ d ∈ l1, d < 10) (h2 : ∀ d ∈ l2, d < 10)
    (heq : l1.map digitChar10 = l2.map digitChar10) : l1 = l2 := by
  induction l1 generalizing l2 with
  | nil =>
    cases l2 with
    | nil => rfl
    | cons b bs => simp at heq
  | cons a as ih =>
    cases l2 with
    | nil => simp at heq
    | cons b bs =>
      simp only [List.map_cons, List.cons.injEq] at heq
      have ha := h1 a (List.mem_cons_self a as)
      have hb := h2 b (List.mem_cons_self b bs)
      rw [digitChar10_inj a ha b hb heq.1,
        ih bs (fun d hd => h1 d (List.mem_cons_of_mem a hd))
          (fun d hd => h2 d (List.mem_cons_of_mem b hd)) heq.2]

theorem natToString_pos_ne_zero_str (n : ℕ) (hn : n ≠ 0) : natToString n ≠ "0" := by
  unfold natToString
  rw [if_neg hn]
  intro h
  have hdata : ((Nat.digits 10 n).map digitChar10).reverse = ['0'] := by
    have := congrArg String.data h
    simpa using this
  have hmap : (Nat.digits 10 n).map digitChar10 = ['0'] := by
    rw [← List.reverse_reverse ((Nat.digits 10 n).map digitChar10), hdata]
    rfl
  have hne : Nat.digits 10 n ≠ [] := Nat.digits_ne_nil_iff_ne_zero.mpr hn
  cases hdig : Nat.digits 10 n with
  | nil => exact hne hdig
  | cons d ds =>
    rw [hdig] at hmap
    simp only [List.map_cons, List.cons.injEq] at hmap
    have hds : ds = [] := by
      have := hmap.2
      cases ds with
      | nil => rfl
      | cons e es => simp at this
    have hd10 : d < 10 :=
      Nat.digits_lt_base (by norm_num) (by rw [hdig]; exact List.mem_cons_self d ds)
    have hd0 : d = 0 :=
      digitChar10_inj d hd10 0 (by norm_num) (by simpa [digitChar10] using hmap.1)
    have hn0 : n = 0 := by
      have := Nat.ofDigits_digits 10 n
      rw [hdig, hds, hd0] at this
      simpa [Nat.ofDigits] using this.symm
    exact hn hn0

theorem natToString_inj (m n : ℕ) (h : natToString m = natToString n) : m = n := by
  by_cases hm : m = 0 <;> by_cases hn : n = 0
  · rw [hm, hn]
  · exfalso
    refine natToString_pos_ne_zero_str n hn ?_
    rw [← h, hm]
    rfl
  · exfalso
    refine natToString_pos_ne_zero_str m hm ?_
    rw [h, hn]
    rfl
  · unfold natToString at h
    rw [if_neg hm, if_neg hn] at h
    have hdata := congrArg String.data h
    simp only [String.mk] at hdata
    have hrev := List.reverse_injective hdata
    have hdig := map_digitChar10_inj _ _
      (fun d hd => Nat.digits_lt_base (by norm_num) hd)
      (fun d hd => Nat.digits_lt_base (by norm_num) hd) hrev
    have h2 := congrArg (Nat.ofDigits 10) hdig
    rwa [Nat.ofDigits_digits, Nat.ofDigits_digits] at h2

theorem data_append (s t : String) : (s ++ t).data = s.data ++ t.data := by
  cases s
  cases t
  rfl

theorem aiId_data (t i : ℕ) :
    (aiId t i).data =
      "ai_blue_".data ++ ((natToString t).data ++ ('_' :: (natToString i).data)) := by
  unfold aiId
  rw [data_append, data_append, data_append]
  simp [List.append_assoc]

theorem isAIid_aiId (t i : ℕ) : isAIid (aiId t i) = true := by
  unfold isAIid strStartsWith
  rw [aiId_data]
  apply List.isPrefixOf_iff_prefix.mpr
  show "ai_".data <+: "ai_blue_".data ++ _
  refine List.IsPrefix.trans ?_ (List.prefix_append _ _)
  exact ⟨['b', 'l', 'u', 'e', '_'], rfl⟩

theorem underscore_split (A B C D : List Char) (hA : '_' ∉ A) (hC : '_' ∉ C)
    (h : A ++ '_' :: B = C ++ '_' :: D) : A = C ∧ B = D := by
  induction A generalizing C with
  | nil =>
    cases C with
    | nil =>
      simp only [List.nil_append, List.cons.injEq] at h
      exact ⟨rfl, h.2⟩
    | cons c cs =>
      exfalso
      simp only [List.nil_append, List.cons_append, List.cons.injEq] at h
      exact hC (h.1 ▸ List.mem_cons_self c cs)
  | cons a as ih =>
    cases C with
    | nil =>
      exfalso
      simp only [List.cons_append, List.nil_append, List.cons.injEq] at h
      exact hA (h.1 ▸ List.mem_cons_self a as)
    | cons c cs =>
      simp only [List.cons_append, List.cons.injEq] at h
      have hA2 : '_' ∉ as := fun hmem => hA (List.mem_cons_of_mem a hmem)
      have hC2 : '_' ∉ cs := fun hmem => hC (List.mem_cons_of_mem c hmem)
      obtain ⟨h1, h2⟩ := ih cs hA2 hC2 h.2
      exact ⟨by rw [h.1, h1], h2⟩

theorem aiId_index_inj (t i t' i' : ℕ) (h : aiId t i = aiId t' i') : i = i' := by
  have hdata := congrArg String.data h
  rw [aiId_data, aiId_data] at hdata
  have hcut := List.append_cancel_left hdata
  obtain ⟨-, h2⟩ := underscore_split _ _ _ _ (natToString_no_underscore t)
    (natToString_no_underscore t') hcut
  refine natToString_inj i i' ?_
  cases hsi : natToString i
  cases hsi' : natToString i'
  rw [hsi, hsi'] at h2
  simp only at h2
  rw [h2]

theorem ne_aiId_of_not_isAIid (id : String) (t i : ℕ) (h : isAIid id = false) :
    id ≠ aiId t i := by
  intro heq
  rw [heq, isAIid_aiId] at h
  exact Bool.true_eq_false.mp h

end GameEngine

/-!
Roster projection: the join/leave/balance logic only reads each player's
`playerId` and `team`, so the auto-balance invariant is proved on the
projected roster `List (String x Team)` and transported to the engine.
-/

namespace GameEngine

/-- The roster view of the player map: id and team, in insertion order. -/
def rosterProj (l : List Player) : List (String × Team) :=
  l.map (fun p => (p.playerId, p.team))

/-- Red human entries of a roster (the filter of `getRedPlayerCount`). -/
def redHumansR (r : List (String × Team)) : List (String × Team) :=
  r.filter (fun pr => pr.2 = Team.red ∧ ¬ isAIid pr.1 = true)

/-- Blue autonomous entries of a roster (the filter of
`getBluePlayerCount` and of `balanceAITeam`'s removal branch). -/
def blueAIR (r : List (String × Team)) : List (String × Team) :=
  r.filter (fun pr => pr.2 = Team.blue ∧ isAIid pr.1 = true)

/-- `Map.set` on the roster view. -/
def rosterSet (r : List (String × Team)) (id : String) (tm : Team) : List (String × Team) :=
  if r.any (fun pr => pr.1 = id) then r.map (fun pr => if pr.1 = id then (id, tm) else pr)
  else r ++ [(id, tm)]

/-- `Map.delete` on the roster view. -/
def rosterDelete (r : List (String × Team)) (id : String) : List (String × Team) :=
  r.filter (fun pr => ¬ pr.1 = id)

/-- `balanceAITeam` on the roster view. -/
def balanceR (r : List (String × Team)) (now : ℕ) : List (String × Team) :=
  let redCount := (redHumansR r).length
  let blueCount := (blueAIR r).length
  if blueCount < redCount then
    (List.range' blueCount (redCount - blueCount)).foldl
      (fun t i => rosterSet t (aiId now i) Team.blue) r
  else if redCount < blueCount then
    ((blueAIR r).drop redCount).foldl (fun t pr => rosterDelete t pr.1) r
  else r

/-- `addPlayer` on the roster view (match start does not touch the roster). -/
def addPlayerR (r : List (String × Team)) (id : String) (now : ℕ) : List (String × Team) :=
  balanceR (rosterSet r id Team.red) now

/-- `removePlayer` on the roster view. -/
def removePlayerR (r : List (String × Team)) (id : String) (now : ℕ) : List (String × Team) :=
  if isAIid id = true then rosterDelete r id else balanceR (rosterDelete r id) now

theorem getRedPlayerCount_roster (s : GameState) :
    getRedPlayerCount s = (redHumansR (rosterProj s.players)).length := by
  unfold getRedPlayerCount redHumansR rosterProj
  rw [List.filter_map]
  simp [Function.comp_def]

theorem getBluePlayerCount_roster (s : GameState) :
    getBluePlayerCount s = (blueAIR (rosterProj s.players)).length := by
  unfold getBluePlayerCount blueAIR rosterProj
  rw [List.filter_map]
  simp [Function.comp_def]

theorem aiBlues_roster (l : List Player) :
    (aiBlues l).map (fun p => (p.playerId, p.team)) = blueAIR (rosterProj l) := by
  unfold aiBlues blueAIR rosterProj
  rw [List.filter_map]
  simp [Function.comp_def]

theorem rosterProj_mapSet (l : List Player) (q : Player) :
    rosterProj (mapSet l q) = rosterSet (rosterProj l) q.playerId q.team := by
  unfold mapSet rosterSet rosterProj
  have hany : ((l.map (fun p => (p.playerId, p.team))).any fun pr => decide (pr.1 = q.playerId)) =
      (l.any fun p => decide (p.playerId = q.playerId)) := by
    induction l with
    | nil => rfl
    | cons p rest ih => simp [ih]
  rw [hany]
  split
  · rw [List.map_map, List.map_map]
    apply List.map_congr_left
    intro p hp
    by_cases hid : p.playerId = q.playerId <;> simp [hid, Function.comp_def]
  · simp

theorem rosterProj_mapDelete (l : List Player) (id : String) :
    rosterProj (mapDelete l id) = rosterDelete (rosterProj l) id := by
  unfold mapDelete rosterDelete rosterProj
  rw [List.filter_map]
  simp [Function.comp_def]

theorem rosterProj_resetPositionsAux (l : List Player) (r b : ℕ) :
    rosterProj (resetPositionsAux l r b) = rosterProj l := by
  induction l generalizing r b with
  | nil => rfl
  | cons p rest ih =>
    unfold resetPositionsAux
    split <;> simpa [rosterProj] using ih _ _

theorem rosterProj_resetBallAndPlayers (s : GameState) :
    rosterProj (resetBallAndPlayers s).players = rosterProj s.players :=
  rosterProj_resetPositionsAux s.players 0 0

theorem balanceAITeam_roster (s : GameState) (now : ℕ) :
    rosterProj (balanceAITeam s now).players = balanceR (rosterProj s.players) now := by
  have haddaux : ∀ (idxs : List ℕ) (t : GameState),
      rosterProj ((idxs.foldl (fun t i => addAIPlayer t now i) t)).players =
        idxs.foldl (fun r i => rosterSet r (aiId now i) Team.blue) (rosterProj t.players) := by
    intro idxs
    induction idxs with
    | nil => intro t; rfl
    | cons i idxs ih =>
      intro t
      simp only [List.foldl_cons]
      rw [ih]
      congr 1
      exact rosterProj_mapSet t.players (mkAIPlayer now i)
  have hdelaux : ∀ (dl : List Player) (t : GameState),
      rosterProj ((dl.foldl
          (fun t p => { t with players := mapDelete t.players p.playerId }) t)).players =
        (dl.map (fun p => (p.playerId, p.team))).foldl
          (fun r pr => rosterDelete r pr.1) (rosterProj t.players) := by
    intro dl
    induction dl with
    | nil => intro t; rfl
    | cons p dl ih =>
      intro t
      simp only [List.foldl_cons, List.map_cons]
      rw [ih]
      congr 1
      exact rosterProj_mapDelete t.players p.playerId
  by_cases h1 : getBluePlayerCount s < getRedPlayerCount s
  · have h1r : (blueAIR (rosterProj s.players)).length < (redHumansR (rosterProj s.players)).length := by
      rw [← getRedPlayerCount_roster, ← getBluePlayerCount_roster]
      exact h1
    simp only [balanceAITeam, balanceR, h1, h1r, if_true,
      ← getRedPlayerCount_roster, ← getBluePlayerCount_roster]
    exact haddaux _ s
  · have h1r : ¬ (blueAIR (rosterProj s.players)).length < (redHumansR (rosterProj s.players)).length := by
      rw [← getRedPlayerCount_roster, ← getBluePlayerCount_roster]
      exact h1
    by_cases h2 : getRedPlayerCount s < getBluePlayerCount s
    · have h2r : (redHumansR (rosterProj s.players)).length < (blueAIR (rosterProj s.players)).length := by
        rw [← getRedPlayerCount_roster, ← getBluePlayerCount_roster]
        exact h2
      simp only [balanceAITeam, balanceR, h1, h1r, h2, h2r, if_true, if_false,
        ← getRedPlayerCount_roster, ← getBluePlayerCount_roster]
      rw [hdelaux]
      rw [List.map_drop, aiBlues_roster, getRedPlayerCount_roster]
    · have h2r : ¬ (redHumansR (rosterProj s.players)).length < (blueAIR (rosterProj s.players)).length := by
        rw [← getRedPlayerCount_roster, ← getBluePlayerCount_roster]
        exact h2
      simp only [balanceAITeam, balanceR, h1, h1r, h2, h2r, if_false]

theorem addPlayer_roster (s : GameState) (id : String) (now : ℕ) :
    rosterProj (addPlayer s id now).players = addPlayerR (rosterProj s.players) id now := by
  have hbase :
      rosterProj (balanceAITeam
          { s with players := mapSet s.players (mkHumanPlayer id
              ((s.players.filter
                (fun p => p.team = Team.red ∧ ¬ isAIid p.playerId = true)).length)) }
          now).players = addPlayerR (rosterProj s.players) id now := by
    rw [balanceAITeam_roster]
    unfold addPlayerR
    congr 1
    exact rosterProj_mapSet s.players (mkHumanPlayer id _)
  simp only [addPlayer]
  split
  · rw [startMatch, rosterProj_resetBallAndPlayers]
    exact hbase
  · exact hbase

theorem removePlayer_roster (s : GameState) (id : String) (now : ℕ) :
    rosterProj (removePlayer s id now).players = removePlayerR (rosterProj s.players) id now := by
  simp only [removePlayer, removePlayerR]
  by_cases hai : isAIid id = true
  · simp only [hai, if_true]
    split <;> exact rosterProj_mapDelete s.players id
  · rw [if_neg hai, if_neg hai]
    split <;>
      (rw [balanceAITeam_roster]; congr 1; exact rosterProj_mapDelete s.players id)

end GameEngine

/-!
The auto-balance invariant on rosters.
-/

namespace GameEngine

/-- Well-formedness of a reachable roster: every entry is a red human or a
blue autonomous player with a well-formed `ai_blue_<now>_<index>` id,
keys are unique, and the j-th live blue autonomous entry (in insertion
order) carries index j. -/
def RosterOk (r : List (String × Team)) : Prop :=
  (∀ pr ∈ r, (pr.2 = Team.red ∧ isAIid pr.1 = false) ∨
      (pr.2 = Team.blue ∧ ∃ t i, pr.1 = aiId t i)) ∧
  (r.map Prod.fst).Nodup ∧
  (∀ j (h : j < (blueAIR r).length), ∃ t, (blueAIR r)[j].1 = aiId t j)

/-- The auto-balance invariant: as many blue autonomous entries as red
human entries. -/
def BalancedR (r : List (String × Team)) : Prop :=
  (blueAIR r).length = (redHumansR r).length

theorem mem_blueAIR {r : List (String × Team)} {pr : String × Team} :
    pr ∈ blueAIR r ↔ pr ∈ r ∧ pr.2 = Team.blue ∧ isAIid pr.1 = true := by
  unfold blueAIR
  rw [List.mem_filter]
  simp

theorem mem_redHumansR {r : List (String × Team)} {pr : String × Team} :
    pr ∈ redHumansR r ↔ pr ∈ r ∧ pr.2 = Team.red ∧ ¬ isAIid pr.1 = true := by
  unfold redHumansR
  rw [List.mem_filter]
  simp

/-- No live entry carries the id of a fresh AI slot at or beyond the
current blue autonomous headcount. -/
theorem fresh_aiId {r : List (String × Team)} (hok : RosterOk r) (now i : ℕ)
    (hi : (blueAIR r).length ≤ i) :
    (r.any fun pr => pr.1 = aiId now i) = false := by
  rw [List.any_eq_false]
  intro pr hpr
  simp only [decide_eq_true_eq]
  intro heq
  rcases hok.1 pr hpr with ⟨-, hhuman⟩ | ⟨hblue, t', i', hid⟩
  · rw [heq, isAIid_aiId] at hhuman
    exact Bool.true_eq_false.mp hhuman
  · have hmem : pr ∈ blueAIR r := mem_blueAIR.mpr ⟨hpr, hblue, by rw [hid]; exact isAIid_aiId t' i'⟩
    rcases List.mem_iff_get.mp hmem with ⟨⟨j, hj⟩, hget⟩
    rcases hok.2.2 j hj with ⟨tj, htj⟩
    have hpr1 : pr.1 = aiId tj j := by
      rw [← hget]
      exact htj
    have hij : i = j := aiId_index_inj now i tj j (by rw [← heq, hpr1])
    omega

theorem not_mem_fst_of_any_false {r : List (String × Team)} {id : String}
    (h : (r.any fun pr => pr.1 = id) = false) : id ∉ r.map Prod.fst := by
  rw [List.any_eq_false] at h
  intro hmem
  rcases List.mem_map.mp hmem with ⟨pr, hpr, hfst⟩
  exact h pr hpr (by simp [hfst])

theorem rosterSet_fresh {r : List (String × Team)} {id : String} {tm : Team}
    (h : (r.any fun pr => pr.1 = id) = false) :
    rosterSet r id tm = r ++ [(id, tm)] := by
  unfold rosterSet
  rw [h]
  simp

/-- Appending the next fresh blue AI preserves well-formedness, appends the
entry to the blue AI list, and leaves red humans untouched. -/
theorem rosterSet_blueAI_step {r : List (String × Team)} (hok : RosterOk r) (now : ℕ) :
    RosterOk (rosterSet r (aiId now (blueAIR r).length) Team.blue) ∧
    blueAIR (rosterSet r (aiId now (blueAIR r).length) Team.blue) =
      blueAIR r ++ [(aiId now (blueAIR r).length, Team.blue)] ∧
    redHumansR (rosterSet r (aiId now (blueAIR r).length) Team.blue) = redHumansR r := by
  have hfresh := fresh_aiId hok now (blueAIR r).length (le_refl _)
  rw [rosterSet_fresh hfresh]
  have hblue : blueAIR (r ++ [(aiId now (blueAIR r).length, Team.blue)]) =
      blueAIR r ++ [(aiId now (blueAIR r).length, Team.blue)] := by
    unfold blueAIR
    rw [List.filter_append]
    simp [isAIid_aiId]
  have hred : redHumansR (r ++ [(aiId now (blueAIR r).length, Team.blue)]) = redHumansR r := by
    unfold redHumansR
    rw [List.filter_append]
    simp
  refine ⟨⟨?_, ?_, ?_⟩, hblue, hred⟩
  · intro pr hpr
    rcases List.mem_append.mp hpr with hpr | hpr
    · exact hok.1 pr hpr
    · right
      rcases List.mem_singleton.mp hpr with rfl
      exact ⟨rfl, now, (blueAIR r).length, rfl⟩
  · rw [List.map_append, List.nodup_append]
    refine ⟨hok.2.1, List.nodup_singleton _, ?_⟩
    intro x hx hy
    simp only [List.map_cons, List.map_nil, List.mem_singleton] at hy
    subst hy
    exact not_mem_fst_of_any_false hfresh hx
  · intro j hj
    have hj2 : j < (blueAIR r ++ [(aiId now (blueAIR r).length, Team.blue)]).length := by
      rw [← hblue]
      exact hj
    rw [List.getElem_of_eq hblue hj]
    rcases Nat.lt_or_ge j (blueAIR r).length with hlt | hge
    · rw [List.getElem_append_left hlt]
      exact hok.2.2 j hlt
    · have hjeq : j = (blueAIR r).length := by
        rw [List.length_append, List.length_singleton] at hj2
        omega
      refine ⟨now, ?_⟩
      rw [List.getElem_append_right hge]
      subst hjeq
      simp

/-- The balance addition loop: starting at the current blue headcount, each
iteration appends one fresh blue AI. -/
theorem balance_add_loop : ∀ (c : ℕ) (r : List (String × Team)) (now : ℕ), RosterOk r →
    RosterOk ((List.range' (blueAIR r).length c).foldl
        (fun t i => rosterSet t (aiId now i) Team.blue) r) ∧
    (blueAIR ((List.range' (blueAIR r).length c).foldl
        (fun t i => rosterSet t (aiId now i) Team.blue) r)).length =
      (blueAIR r).length + c ∧
    redHumansR ((List.range' (blueAIR r).length c).foldl
        (fun t i => rosterSet t (aiId now i) Team.blue) r) = redHumansR r := by
  intro c
  induction c with
  | zero =>
    intro r now hok
    exact ⟨hok, rfl, rfl⟩
  | succ c ih =>
    intro r now hok
    rw [List.range'_succ]
    simp only [List.foldl_cons]
    obtain ⟨hok1, hblue1, hred1⟩ := rosterSet_blueAI_step hok now
    have hlen1 : (blueAIR (rosterSet r (aiId now (blueAIR r).length) Team.blue)).length =
        (blueAIR r).length + 1 := by
      rw [hblue1]
      simp
    obtain ⟨hok2, hlen2, hred2⟩ := ih (rosterSet r (aiId now (blueAIR r).length) Team.blue) now hok1
    rw [hlen1] at hok2 hlen2 hred2
    refine ⟨hok2, ?_, hred2.trans hred1⟩
    rw [hlen2]
    ring

end GameEngine

namespace GameEngine

theorem eq_of_fst_eq_of_nodup {r : List (String × Team)} (hnd : (r.map Prod.fst).Nodup)
    {a b : String × Team} (ha : a ∈ r) (hb : b ∈ r) (hf : a.1 = b.1) : a = b :=
  List.inj_on_of_nodup_map hnd ha hb hf

theorem rosterDelete_foldl (dl : List (String × Team)) (r : List (String × Team)) :
    dl.foldl (fun t pr => rosterDelete t pr.1) r =
      r.filter (fun pr => decide (pr.1 ∉ dl.map Prod.fst)) := by
  induction dl generalizing r with
  | nil => simp
  | cons d dl ih =>
    simp only [List.foldl_cons]
    rw [ih]
    unfold rosterDelete
    rw [List.filter_filter]
    apply List.filter_congr
    intro pr hpr
    simp only [List.map_cons, List.mem_cons, decide_not]
    by_cases h1 : pr.1 = d.1 <;> by_cases h2 : pr.1 ∈ dl.map Prod.fst <;> simp [h1, h2]

theorem blueAIR_filter (p : String × Team → Bool) (r : List (String × Team)) :
    blueAIR (r.filter p) = (blueAIR r).filter p := by
  unfold blueAIR
  rw [List.filter_filter, List.filter_filter]
  apply List.filter_congr
  intro pr hpr
  rw [Bool.and_comm]

theorem redHumansR_filter (p : String × Team → Bool) (r : List (String × Team)) :
    redHumansR (r.filter p) = (redHumansR r).filter p := by
  unfold redHumansR
  rw [List.filter_filter, List.filter_filter]
  apply List.filter_congr
  intro pr hpr
  rw [Bool.and_comm]

/-- The balance removal branch: deleting the blue AI entries past the red
human headcount keeps exactly the first `rc` of them and leaves red
humans untouched. -/
theorem balance_remove (r : List (String × Team)) (rc : ℕ) (hok : RosterOk r)
    (hle : rc ≤ (blueAIR r).length) :
    RosterOk (((blueAIR r).drop rc).foldl (fun t pr => rosterDelete t pr.1) r) ∧
    blueAIR (((blueAIR r).drop rc).foldl (fun t pr => rosterDelete t pr.1) r) =
      (blueAIR r).take rc ∧
    redHumansR (((blueAIR r).drop rc).foldl (fun t pr => rosterDelete t pr.1) r) =
      redHumansR r := by
  rw [rosterDelete_foldl]
  have hblue_sub : ∀ pr ∈ blueAIR r, pr ∈ r := fun pr hpr => (mem_blueAIR.mp hpr).1
  have hbluend : ((blueAIR r).map Prod.fst).Nodup := by
    refine List.Sublist.nodup ?_ hok.2.1
    exact List.Sublist.map Prod.fst (List.filter_sublist r)
  have hkeep : ∀ pr ∈ (blueAIR r).take rc,
      (decide (pr.1 ∉ ((blueAIR r).drop rc).map Prod.fst)) = true := by
    intro pr hpr
    simp only [decide_eq_true_eq]
    intro hmem
    rcases List.mem_map.mp hmem with ⟨qr, hqr, hfst⟩
    have hnd2 : (((blueAIR r).take rc).map Prod.fst ++ ((blueAIR r).drop rc).map Prod.fst).Nodup := by
      rw [← List.map_append, List.take_append_drop]
      exact hbluend
    rw [List.nodup_append] at hnd2
    exact hnd2.2.2 (List.mem_map.mpr ⟨pr, hpr, rfl⟩) (hfst ▸ List.mem_map.mpr ⟨qr, hqr, rfl⟩)
  have hdroppedAll : ∀ pr ∈ (blueAIR r).drop rc,
      (decide (pr.1 ∉ ((blueAIR r).drop rc).map Prod.fst)) = false := by
    intro pr hpr
    simp only [decide_eq_false_iff_not, not_not]
    exact List.mem_map.mpr ⟨pr, hpr, rfl⟩
  have hblue2 : blueAIR (r.filter (fun pr => decide (pr.1 ∉ ((blueAIR r).drop rc).map Prod.fst)))
      = (blueAIR r).take rc := by
    rw [blueAIR_filter]
    have hsplit :
        (blueAIR r).filter (fun pr => decide (pr.1 ∉ ((blueAIR r).drop rc).map Prod.fst)) =
        ((blueAIR r).take rc).filter
            (fun pr => decide (pr.1 ∉ ((blueAIR r).drop rc).map Prod.fst)) ++
          ((blueAIR r).drop rc).filter
            (fun pr => decide (pr.1 ∉ ((blueAIR r).drop rc).map Prod.fst)) := by
      rw [← List.filter_append, List.take_append_drop]
    rw [hsplit]
    rw [List.filter_eq_self.mpr hkeep]
    rw [List.filter_eq_nil_iff.mpr (fun pr hpr => by rw [hdroppedAll pr hpr]; exact Bool.false_ne_true)]
    exact List.append_nil _
  have hred2 : redHumansR (r.filter (fun pr => decide (pr.1 ∉ ((blueAIR r).drop rc).map Prod.fst)))
      = redHumansR r := by
    rw [redHumansR_filter]
    apply List.filter_eq_self.mpr
    intro pr hpr
    simp only [decide_eq_true_eq]
    intro hmem
    rcases List.mem_map.mp hmem with ⟨qr, hqr, hfst⟩
    have hqmem : qr ∈ blueAIR r := List.mem_of_mem_drop hqr
    have hpr2 := mem_redHumansR.mp hpr
    have hqr2 := mem_blueAIR.mp hqmem
    have heq := eq_of_fst_eq_of_nodup hok.2.1 hpr2.1 hqr2.1 hfst.symm
    rw [heq] at hpr2
    rw [hqr2.2.1] at hpr2
    exact absurd hpr2.2.1 (by simp)
  refine ⟨⟨?_, ?_, ?_⟩, hblue2, hred2⟩
  · intro pr hpr
    exact hok.1 pr (List.mem_of_mem_filter hpr)
  · refine List.Sublist.nodup ?_ hok.2.1
    exact List.Sublist.map Prod.fst (List.filter_sublist r)
  · intro j hj
    rw [List.getElem_of_eq hblue2 hj]
    have hj2 : j < ((blueAIR r).take rc).length := by
      rw [← hblue2]
      exact hj
    have hj3 : j < (blueAIR r).length := by
      rw [List.length_take] at hj2
      omega
    rw [List.getElem_take]
    exact hok.2.2 j hj3

end GameEngine

namespace GameEngine

/-- `balanceAITeam` (roster view) re-establishes the auto-balance
invariant from any well-formed roster. -/
theorem balanceR_inv (r : List (String × Team)) (now : ℕ) (hok : RosterOk r) :
    RosterOk (balanceR r now) ∧ BalancedR (balanceR r now) := by
  unfold balanceR BalancedR
  by_cases h1 : (blueAIR r).length < (redHumansR r).length
  · simp only [h1, if_true]
    obtain ⟨hok2, hlen2, hred2⟩ :=
      balance_add_loop ((redHumansR r).length - (blueAIR r).length) r now hok
    refine ⟨hok2, ?_⟩
    rw [hlen2, hred2]
    omega
  · by_cases h2 : (redHumansR r).length < (blueAIR r).length
    · simp only [h1, h2, if_true, if_false]
      obtain ⟨hok2, hblue2, hred2⟩ := balance_remove r (redHumansR r).length hok (le_of_lt h2)
      refine ⟨hok2, ?_⟩
      rw [hblue2, hred2, List.length_take]
      omega
    · simp only [h1, h2, if_false]
      exact ⟨hok, by omega⟩

/-- Inserting (or replacing) a red human preserves well-formedness and does
not change the blue autonomous list. -/
theorem rosterSet_red_human (r : List (String × Team)) (id : String) (hok : RosterOk r)
    (hid : isAIid id = false) :
    RosterOk (rosterSet r id Team.red) ∧
    blueAIR (rosterSet r id Team.red) = blueAIR r := by
  have hkey : ∀ pr ∈ r, pr.1 = id → pr.2 = Team.red ∧ isAIid pr.1 = false := by
    intro pr hpr hfst
    rcases hok.1 pr hpr with h | ⟨hblue, t, i, hai⟩
    · exact h
    · exfalso
      rw [hfst] at hai
      exact Bool.true_eq_false.mp ((ne_aiId_of_not_isAIid id t i (by simp [hid])) hai |>.elim)
  unfold rosterSet
  by_cases hany : (r.any fun pr => pr.1 = id) = true
  · rw [if_pos hany]
    have hfst_same : (r.map (fun pr => if pr.1 = id then (id, Team.red) else pr)).map Prod.fst =
        r.map Prod.fst := by
      rw [List.map_map]
      apply List.map_congr_left
      intro pr hpr
      by_cases hfst : pr.1 = id <;> simp [hfst, Function.comp_def]
    have hblue_same : blueAIR (r.map (fun pr => if pr.1 = id then (id, Team.red) else pr)) =
        blueAIR r := by
      unfold blueAIR
      rw [List.filter_map]
      have hfc : (r.filter ((fun pr => decide (pr.2 = Team.blue ∧ isAIid pr.1 = true)) ∘
          (fun pr => if pr.1 = id then (id, Team.red) else pr))) =
          r.filter (fun pr => decide (pr.2 = Team.blue ∧ isAIid pr.1 = true)) := by
        apply List.filter_congr
        intro pr hpr
        by_cases hfst : pr.1 = id
        · have := (hkey pr hpr hfst).1
          simp [Function.comp_def, hfst, this, hid]
        · simp [Function.comp_def, hfst]
      rw [hfc]
      have hpt : ∀ pr ∈ r.filter (fun pr => decide (pr.2 = Team.blue ∧ isAIid pr.1 = true)),
          (if pr.1 = id then ((id, Team.red) : String × Team) else pr) = pr := by
        intro pr hpr
        rw [List.mem_filter] at hpr
        have hblue : pr.2 = Team.blue := by
          have := hpr.2
          simp only [decide_eq_true_eq] at this
          exact this.1
        by_cases hfst : pr.1 = id
        · exfalso
          have := (hkey pr hpr.1 hfst).1
          rw [this] at hblue
          exact absurd hblue (by simp)
        · simp [hfst]
      rw [List.map_congr_left hpt, List.map_id']
    refine ⟨⟨?_, ?_, ?_⟩, hblue_same⟩
    · intro pr hpr
      rcases List.mem_map.mp hpr with ⟨qr, hqr, hmap⟩
      by_cases hfst : qr.1 = id
      · left
        rw [← hmap]
        simp [hfst, hid]
      · rw [← hmap]
        simp only [hfst, if_false]
        exact hok.1 qr hqr
    · rw [hfst_same]
      exact hok.2.1
    · intro j hj
      rw [List.getElem_of_eq hblue_same hj]
      have hj2 : j < (blueAIR r).length := by
        rw [← hblue_same]
        exact hj
      exact hok.2.2 j hj2
  · rw [if_neg hany]
    have hany_false : (r.any fun pr => pr.1 = id) = false := by
      rw [List.any_eq_false]
      intro pr hpr hfst
      exact hany (List.any_eq_true.mpr ⟨pr, hpr, hfst⟩)
    have hblue_app : blueAIR (r ++ [(id, Team.red)]) = blueAIR r := by
      unfold blueAIR
      rw [List.filter_append]
      simp
    refine ⟨⟨?_, ?_, ?_⟩, hblue_app⟩
    · intro pr hpr
      rcases List.mem_append.mp hpr with hpr | hpr
      · exact hok.1 pr hpr
      · left
        rcases List.mem_singleton.mp hpr with rfl
        exact ⟨rfl, hid⟩
    · rw [List.map_append, List.nodup_append]
      refine ⟨hok.2.1, List.nodup_singleton _, ?_⟩
      intro x hx hy
      simp only [List.map_cons, List.map_nil, List.mem_singleton] at hy
      subst hy
      exact not_mem_fst_of_any_false hany_false hx
    · intro j hj
      rw [List.getElem_of_eq hblue_app hj]
      have hj2 : j < (blueAIR r).length := by
        rw [← hblue_app]
        exact hj
      exact hok.2.2 j hj2

/-- Deleting a human id preserves well-formedness and the blue autonomous
list. -/
theorem rosterDelete_human (r : List (String × Team)) (id : String) (hok : RosterOk r)
    (hid : isAIid id = false) :
    RosterOk (rosterDelete r id) ∧ blueAIR (rosterDelete r id) = blueAIR r := by
  have hblue_same : blueAIR (rosterDelete r id) = blueAIR r := by
    unfold rosterDelete
    rw [blueAIR_filter]
    apply List.filter_eq_self.mpr
    intro pr hpr
    have hpr2 := mem_blueAIR.mp hpr
    rcases hok.1 pr hpr2.1 with h | ⟨-, t, i, hai⟩
    · rw [h.1] at hpr2
      exact absurd hpr2.2.1 (by simp)
    · simp only [decide_eq_true_eq]
      rw [hai]
      exact fun heq => ne_aiId_of_not_isAIid id t i (by simp [hid]) heq.symm
  refine ⟨⟨?_, ?_, ?_⟩, hblue_same⟩
  · intro pr hpr
    exact hok.1 pr (List.mem_of_mem_filter hpr)
  · refine List.Sublist.nodup ?_ hok.2.1
    exact List.Sublist.map Prod.fst (List.filter_sublist r)
  · intro j hj
    rw [List.getElem_of_eq hblue_same hj]
    have hj2 : j < (blueAIR r).length := by
      rw [← hblue_same]
      exact hj
    exact hok.2.2 j hj2

/-- Replacing an entry by an identical one is a no-op on the roster. -/
theorem rosterSet_mem_same (r : List (String × Team)) (id : String) (tm : Team)
    (hnd : (r.map Prod.fst).Nodup) (hmem : (id, tm) ∈ r) :
    rosterSet r id tm = r := by
  unfold rosterSet
  have hany : (r.any fun pr => pr.1 = id) = true :=
    List.any_eq_true.mpr ⟨(id, tm), hmem, by simp⟩
  rw [hany]
  simp only [if_true]
  have : ∀ pr ∈ r, (if pr.1 = id then (id, tm) else pr) = pr := by
    intro pr hpr
    by_cases hfst : pr.1 = id
    · rw [if_pos hfst]
      exact (eq_of_fst_eq_of_nodup hnd hmem hpr (by simp [hfst])).symm ▸ rfl
    · rw [if_neg hfst]
  rw [List.map_congr_left this, List.map_id']

/-- `addPlayer` (roster view) preserves well-formedness and re-establishes
the balance invariant for a human id. -/
theorem addPlayerR_inv (r : List (String × Team)) (id : String) (now : ℕ) (hok : RosterOk r)
    (hid : isAIid id = false) :
    RosterOk (addPlayerR r id now) ∧ BalancedR (addPlayerR r id now) := by
  unfold addPlayerR
  exact balanceR_inv _ now (rosterSet_red_human r id hok hid).1

/-- `removePlayer` (roster view) preserves well-formedness and
re-establishes the balance invariant for a human id. -/
theorem removePlayerR_inv (r : List (String × Team)) (id : String) (now : ℕ) (hok : RosterOk r)
    (hid : isAIid id = false) :
    RosterOk (removePlayerR r id now) ∧ BalancedR (removePlayerR r id now) := by
  unfold removePlayerR
  rw [if_neg (by simp [hid])]
  exact balanceR_inv _ now (rosterDelete_human r id hok hid).1

end GameEngine

/-!
Claim C1: the auto-balance invariant holds after every join/leave.
-/

namespace GameEngine

/-- A join or leave of a (human) player, with the `Date.now()` value the
engine observes during the call. -/
inductive HumanOp where
  | join (id : String) (now : ℕ)
  | leave (id : String) (now : ℕ)

/-- The id named by an operation. -/
def opId : HumanOp → String
  | HumanOp.join id _ => id
  | HumanOp.leave id _ => id

/-- Run one public roster operation on the engine. -/
def applyHumanOp (s : GameState) : HumanOp → GameState
  | HumanOp.join id now => addPlayer s id now
  | HumanOp.leave id now => removePlayer s id now

theorem applyHumanOp_inv (s : GameState) (op : HumanOp) (hid : isAIid (opId op) = false)
    (hok : RosterOk (rosterProj s.players)) :
    RosterOk (rosterProj (applyHumanOp s op).players) ∧
    BalancedR (rosterProj (applyHumanOp s op).players) := by
  cases op with
  | join id now =>
    unfold applyHumanOp
    rw [addPlayer_roster]
    exact addPlayerR_inv _ id now hok hid
  | leave id now =>
    unfold applyHumanOp
    rw [removePlayer_roster]
    exact removePlayerR_inv _ id now hok hid

theorem foldl_humanOps_inv (ops : List HumanOp) :
    ∀ (s : GameState), (∀ op ∈ ops, isAIid (opId op) = false) →
    RosterOk (rosterProj s.players) → BalancedR (rosterProj s.players) →
    RosterOk (rosterProj (ops.foldl applyHumanOp s).players) ∧
    BalancedR (rosterProj (ops.foldl applyHumanOp s).players) := by
  induction ops with
  | nil =>
    intro s hops hok hbal
    exact ⟨hok, hbal⟩
  | cons op ops ih =>
    intro s hops hok hbal
    simp only [List.foldl_cons]
    obtain ⟨hok1, hbal1⟩ :=
      applyHumanOp_inv s op (hops op (List.mem_cons_self op ops)) hok
    exact ih (applyHumanOp s op) (fun o ho => hops o (List.mem_cons_of_mem op ho)) hok1 hbal1

theorem initial_rosterOk : RosterOk (rosterProj initialGameState.players) := by
  refine ⟨?_, ?_, ?_⟩
  · intro pr hpr
    simp [initialGameState, rosterProj] at hpr
  · simp [initialGameState, rosterProj]
  · intro j hj
    simp [initialGameState, rosterProj, blueAIR] at hj

theorem initial_balanced : BalancedR (rosterProj initialGameState.players) := rfl

end GameEngine

/-- C1: for any sequence of joins and leaves of human players (ids without
the autonomous `ai_` prefix), after every `addPlayer`/`removePlayer`
returns, the number of autonomous blue players equals the number of
human red players. -/
theorem c1_auto_balance (ops : List GameEngine.HumanOp)
    (hops : ∀ op ∈ ops, GameEngine.isAIid (GameEngine.opId op) = false) :
    GameEngine.getBluePlayerCount
        (ops.foldl GameEngine.applyHumanOp GameEngine.initialGameState) =
      GameEngine.getRedPlayerCount
        (ops.foldl GameEngine.applyHumanOp GameEngine.initialGameState) := by
  obtain ⟨-, hbal⟩ := GameEngine.foldl_humanOps_inv ops GameEngine.initialGameState hops
    GameEngine.initial_rosterOk GameEngine.initial_balanced
  rw [GameEngine.getBluePlayerCount_roster, GameEngine.getRedPlayerCount_roster]
  exact hbal

/-- C1 witness: a concrete join/join/leave/join sequence of human ids. -/
theorem c1_auto_balance_witness :
    (∀ op ∈ [GameEngine.HumanOp.join "p1" 3, GameEngine.HumanOp.join "p2" 5,
        GameEngine.HumanOp.leave "p1" 9, GameEngine.HumanOp.join "p3" 11],
      GameEngine.isAIid (GameEngine.opId op) = false) ∧
    GameEngine.getBluePlayerCount
        ([GameEngine.HumanOp.join "p1" 3, GameEngine.HumanOp.join "p2" 5,
          GameEngine.HumanOp.leave "p1" 9, GameEngine.HumanOp.join "p3" 11].foldl
          GameEngine.applyHumanOp GameEngine.initialGameState) =
      GameEngine.getRedPlayerCount
        ([GameEngine.HumanOp.join "p1" 3, GameEngine.HumanOp.join "p2" 5,
          GameEngine.HumanOp.leave "p1" 9, GameEngine.HumanOp.join "p3" 11].foldl
          GameEngine.applyHumanOp GameEngine.initialGameState) :=
  ⟨by decide, c1_auto_balance _ (by decide)⟩

/-!
Structural lemmas about the tick pipeline: the player loop never changes
ids or teams, and the AI decision is total exactly when a red player
exists.
-/

namespace GameEngine

theorem moveAggressively_core (s : GameState) (p : Player) (tp : Vector2)
    (rand : ℕ → ℝ) (ridx : ℕ) :
    (moveAggressivelyToTarget s p tp rand ridx).1.playerId = p.playerId ∧
    (moveAggressivelyToTarget s p tp rand ridx).1.team = p.team := by
  simp only [moveAggressivelyToTarget]
  split
  · exact ⟨rfl, rfl⟩
  · split
    · exact ⟨rfl, rfl⟩
    · exact ⟨rfl, rfl⟩

theorem kickPhase_core (ball : Ball) (rand : ℕ → ℝ) (shouldKick : Bool)
    (moved : Player × ℕ) :
    (kickPhase ball rand shouldKick moved).1.playerId = moved.1.playerId ∧
    (kickPhase ball rand shouldKick moved).1.team = moved.1.team := by
  simp only [kickPhase]
  split
  · split
    · exact ⟨rfl, rfl⟩
    · exact ⟨rfl, rfl⟩
  · exact ⟨rfl, rfl⟩

theorem decisionBody_core (s : GameState) (p : Player) (ball : Ball) (d : ℝ)
    (rand : ℕ → ℝ) (ridx : ℕ) (ch : Player) :
    (decisionBody s p ball d rand ridx ch).1.playerId = p.playerId ∧
    (decisionBody s p ball d rand ridx ch).1.team = p.team := by
  have hmv := moveAggressively_core s p
  simp only [decisionBody]
  constructor
  · rw [(kickPhase_core _ _ _ _).1]
    exact (hmv _ _ _).1
  · rw [(kickPhase_core _ _ _ _).2]
    exact (hmv _ _ _).2

theorem makeAggressive_nil (s : GameState) (p : Player) (ball : Ball) (d : ℝ)
    (rand : ℕ → ℝ) (ridx : ℕ)
    (hr : s.players.filter (fun q => q.team = Team.red) = []) :
    makeAggressiveAIDecision s p ball d rand ridx = none := by
  delta makeAggressiveAIDecision
  rw [hr]

theorem makeAggressive_cons (s : GameState) (p : Player) (ball : Ball) (d : ℝ)
    (rand : ℕ → ℝ) (ridx : ℕ) (hd : Player) (tl : List Player)
    (hr : s.players.filter (fun q => q.team = Team.red) = hd :: tl) :
    makeAggressiveAIDecision s p ball d rand ridx =
      some (decisionBody s p ball d rand ridx
        (tl.foldl (fun closest player =>
          if Physics.distance player.position ball.position <
              Physics.distance closest.position ball.position then player else closest) hd)) := by
  delta makeAggressiveAIDecision
  rw [hr]

theorem makeAggressive_core (s : GameState) (p : Player) (ball : Ball) (d : ℝ)
    (rand : ℕ → ℝ) (ridx : ℕ) (p' : Player) (r' : ℕ)
    (h : makeAggressiveAIDecision s p ball d rand ridx = some (p', r')) :
    p'.playerId = p.playerId ∧ p'.team = p.team := by
  cases hr : s.players.filter (fun q => q.team = Team.red) with
  | nil =>
    rw [makeAggressive_nil s p ball d rand ridx hr] at h
    simp at h
  | cons hd tl =>
    rw [makeAggressive_cons s p ball d rand ridx hd tl hr] at h
    have hp := Option.some.inj h
    have hp1 : (decisionBody s p ball d rand ridx
        (tl.foldl (fun closest player =>
          if Physics.distance player.position ball.position <
              Physics.distance closest.position ball.position then player else closest) hd)).1 =
        p' := by
      rw [hp]
    rw [← hp1]
    exact decisionBody_core s p ball d rand ridx _

theorem updateAIPlayer_core (s : GameState) (p : Player) (dt : ℝ)
    (rand : ℕ → ℝ) (ridx : ℕ) (p' : Player) (r' : ℕ)
    (h : updateAIPlayer s p dt rand ridx = some (p', r')) :
    p'.playerId = p.playerId ∧ p'.team = p.team := by
  simp only [updateAIPlayer] at h
  have hc := makeAggressive_core s _ s.ball _ rand ridx p' r' h
  exact hc

theorem updatePlayer_core (p : Player) (ball : Ball) (dt : ℝ) :
    (updatePlayer p ball dt).1.playerId = p.playerId ∧
    (updatePlayer p ball dt).1.team = p.team := by
  simp only [updatePlayer, apply_ite Prod.fst, ite_self]
  exact ⟨trivial, trivial⟩

theorem makeAggressive_isSome (s : GameState) (p : Player) (ball : Ball) (d : ℝ)
    (rand : ℕ → ℝ) (ridx : ℕ)
    (hred : s.players.filter (fun q => q.team = Team.red) ≠ []) :
    (makeAggressiveAIDecision s p ball d rand ridx).isSome = true := by
  cases hr : s.players.filter (fun q => q.team = Team.red) with
  | nil => exact absurd hr hred
  | cons hd tl => rw [makeAggressive_cons s p ball d rand ridx hd tl hr]; rfl

theorem updateAIPlayer_isSome (s : GameState) (p : Player) (dt : ℝ)
    (rand : ℕ → ℝ) (ridx : ℕ)
    (hred : s.players.filter (fun q => q.team = Team.red) ≠ []) :
    (updateAIPlayer s p dt rand ridx).isSome = true := by
  simp only [updateAIPlayer]
  exact makeAggressive_isSome s _ s.ball _ rand ridx hred

/-- A live blue autonomous player forces a nonempty red side. -/
theorem redPlayers_ne_nil (s : GameState) (hbal : BalancedR (rosterProj s.players))
    (p : Player) (hp : p ∈ s.players) (hblue : p.team = Team.blue)
    (hai : isAIid p.playerId = true) :
    s.players.filter (fun q => q.team = Team.red) ≠ [] := by
  have hmem : (p.playerId, p.team) ∈ rosterProj s.players :=
    List.mem_map.mpr ⟨p, hp, rfl⟩
  have hbmem : (p.playerId, p.team) ∈ blueAIR (rosterProj s.players) :=
    mem_blueAIR.mpr ⟨hmem, hblue, hai⟩
  have hlen : 0 < (blueAIR (rosterProj s.players)).length :=
    List.length_pos.mpr (List.ne_nil_of_mem hbmem)
  have hrlen : 0 < (redHumansR (rosterProj s.players)).length := by
    rw [← hbal]
    exact hlen
  rcases List.exists_mem_of_length_pos hrlen with ⟨pr, hpr⟩
  have hpr2 := mem_redHumansR.mp hpr
  rcases List.mem_map.mp hpr2.1 with ⟨q, hq, hqproj⟩
  have hqred : q.team = Team.red := by
    have := hpr2.2.1
    rw [← hqproj] at this
    exact this
  intro hnil
  have : q ∈ s.players.filter (fun q => q.team = Team.red) :=
    List.mem_filter.mpr ⟨hq, by simp [hqred]⟩
  rw [hnil] at this
  exact List.not_mem_nil q this

end GameEngine

/-!
The player loop never changes the roster projection, never crashes while
the balance invariant holds, and never touches the scalar fields.
-/

namespace GameEngine

theorem mapGet_some_mem {l : List Player} {id : String} {p : Player}
    (h : mapGet l id = some p) : p ∈ l ∧ p.playerId = id := by
  unfold mapGet at h
  refine ⟨List.mem_of_find?_eq_some h, ?_⟩
  have h2 := List.find?_some h
  simpa using h2

theorem rosterProj_mapSet_same (l : List Player) (q : Player)
    (hnd : ((rosterProj l).map Prod.fst).Nodup)
    (hmem : (q.playerId, q.team) ∈ rosterProj l) :
    rosterProj (mapSet l q) = rosterProj l := by
  rw [rosterProj_mapSet]
  exact rosterSet_mem_same _ _ _ hnd hmem

theorem stepPlayer_get_none (dt : ℝ) (rand : ℕ → ℝ) (acc : GameState × ℕ) (id : String)
    (hg : mapGet acc.1.players id = none) :
    stepPlayer dt rand acc id = some acc := by
  delta stepPlayer
  rw [hg]

theorem stepPlayer_get_some (dt : ℝ) (rand : ℕ → ℝ) (acc : GameState × ℕ) (id : String)
    (p : Player) (hg : mapGet acc.1.players id = some p) :
    stepPlayer dt rand acc id =
      (if p.team = Team.blue ∧ isAIid p.playerId = true
        then updateAIPlayer acc.1 p dt rand acc.2
        else some (p, acc.2)).map (fun pr =>
        ({ acc.1 with
            players := mapSet acc.1.players (updatePlayer pr.1 acc.1.ball dt).1
            ball := (updatePlayer pr.1 acc.1.ball dt).2 }, pr.2)) := by
  delta stepPlayer
  rw [hg]

theorem stepPlayer_spec (dt : ℝ) (rand : ℕ → ℝ) (s : GameState) (ridx : ℕ) (id : String)
    (hok : RosterOk (rosterProj s.players)) (hbal : BalancedR (rosterProj s.players)) :
    ∃ s' r', stepPlayer dt rand (s, ridx) id = some (s', r') ∧
      rosterProj s'.players = rosterProj s.players ∧
      s'.score = s.score ∧ s'.gameTime = s.gameTime ∧
      s'.matchDuration = s.matchDuration ∧ s'.isMatchActive = s.isMatchActive := by
  cases hg : mapGet s.players id with
  | none =>
    exact ⟨s, ridx, stepPlayer_get_none dt rand (s, ridx) id hg, rfl, rfl, rfl, rfl, rfl⟩
  | some p =>
    obtain ⟨hpmem, hpid⟩ := mapGet_some_mem hg
    by_cases hcond : p.team = Team.blue ∧ isAIid p.playerId = true
    · obtain ⟨pr2, hup⟩ := Option.isSome_iff_exists.mp
        (updateAIPlayer_isSome s p dt rand ridx
          (redPlayers_ne_nil s hbal p hpmem hcond.1 hcond.2))
      obtain ⟨hid2, hteam2⟩ := updateAIPlayer_core s p dt rand ridx pr2.1 pr2.2 (by rw [hup])
      refine ⟨{ s with
          players := mapSet s.players (updatePlayer pr2.1 s.ball dt).1
          ball := (updatePlayer pr2.1 s.ball dt).2 }, pr2.2, ?_, ?_, rfl, rfl, rfl, rfl⟩
      · rw [stepPlayer_get_some dt rand (s, ridx) id p hg, if_pos hcond, hup]
        rfl
      · apply rosterProj_mapSet_same s.players _ hok.2.1
        have h1 := (updatePlayer_core pr2.1 s.ball dt).1
        have h2 := (updatePlayer_core pr2.1 s.ball dt).2
        rw [h1, h2, hid2, hteam2]
        exact List.mem_map.mpr ⟨p, hpmem, rfl⟩
    · refine ⟨{ s with
          players := mapSet s.players (updatePlayer p s.ball dt).1
          ball := (updatePlayer p s.ball dt).2 }, ridx, ?_, ?_, rfl, rfl, rfl, rfl⟩
      · rw [stepPlayer_get_some dt rand (s, ridx) id p hg, if_neg hcond]
        rfl
      · apply rosterProj_mapSet_same s.players _ hok.2.1
        have h1 := (updatePlayer_core p s.ball dt).1
        have h2 := (updatePlayer_core p s.ball dt).2
        rw [h1, h2]
        exact List.mem_map.mpr ⟨p, hpmem, rfl⟩

theorem stepPlayer_scalars (dt : ℝ) (rand : ℕ → ℝ) (acc : GameState × ℕ) (id : String)
    (out : GameState × ℕ) (h : stepPlayer dt rand acc id = some out) :
    out.1.score = acc.1.score ∧ out.1.gameTime = acc.1.gameTime ∧
    out.1.matchDuration = acc.1.matchDuration ∧ out.1.isMatchActive = acc.1.isMatchActive := by
  cases hg : mapGet acc.1.players id with
  | none =>
    rw [stepPlayer_get_none dt rand acc id hg] at h
    obtain rfl := Option.some.inj h
    exact ⟨rfl, rfl, rfl, rfl⟩
  | some p =>
    rw [stepPlayer_get_some dt rand acc id p hg] at h
    cases hai : (if p.team = Team.blue ∧ isAIid p.playerId = true
        then updateAIPlayer acc.1 p dt rand acc.2 else some (p, acc.2)) with
    | none => rw [hai] at h; simp at h
    | some pr =>
      rw [hai, Option.map_some'] at h
      obtain h2 := Option.some.inj h
      rw [← h2]
      exact ⟨rfl, rfl, rfl, rfl⟩

theorem foldl_stepPlayer_none (dt : ℝ) (rand : ℕ → ℝ) (ids : List String) :
    ids.foldl (fun acc id => acc.bind (fun a => stepPlayer dt rand a id)) none = none := by
  induction ids with
  | nil => rfl
  | cons id ids ih => simpa using ih

theorem foldl_stepPlayer_spec (dt : ℝ) (rand : ℕ → ℝ) (ids : List String) :
    ∀ (s : GameState) (ridx : ℕ),
    RosterOk (rosterProj s.players) → BalancedR (rosterProj s.players) →
    ∃ s' r',
      ids.foldl (fun acc id => acc.bind (fun a => stepPlayer dt rand a id)) (some (s, ridx)) =
        some (s', r') ∧
      rosterProj s'.players = rosterProj s.players ∧
      s'.score = s.score ∧ s'.gameTime = s.gameTime ∧
      s'.matchDuration = s.matchDuration ∧ s'.isMatchActive = s.isMatchActive := by
  induction ids with
  | nil =>
    intro s ridx hok hbal
    exact ⟨s, ridx, rfl, rfl, rfl, rfl, rfl, rfl⟩
  | cons id ids ih =>
    intro s ridx hok hbal
    obtain ⟨s1, r1, hstep, hpr, hsc, hgt, hmd, hma⟩ := stepPlayer_spec dt rand s ridx id hok hbal
    have hok1 : RosterOk (rosterProj s1.players) := by rw [hpr]; exact hok
    have hbal1 : BalancedR (rosterProj s1.players) := by unfold BalancedR; rw [hpr]; exact hbal
    obtain ⟨s2, r2, hrest, hpr2, hsc2, hgt2, hmd2, hma2⟩ := ih s1 r1 hok1 hbal1
    refine ⟨s2, r2, ?_, hpr2.trans hpr, hsc2.trans hsc, hgt2.trans hgt,
      hmd2.trans hmd, hma2.trans hma⟩
    rw [List.foldl_cons, Option.some_bind, hstep]
    exact hrest

theorem updatePlayersPhase_spec (s : GameState) (dt : ℝ) (rand : ℕ → ℝ) (ridx : ℕ)
    (hok : RosterOk (rosterProj s.players)) (hbal : BalancedR (rosterProj s.players)) :
    ∃ s' r', updatePlayersPhase s dt rand ridx = some (s', r') ∧
      rosterProj s'.players = rosterProj s.players ∧
      s'.score = s.score ∧ s'.gameTime = s.gameTime ∧
      s'.matchDuration = s.matchDuration ∧ s'.isMatchActive = s.isMatchActive := by
  unfold updatePlayersPhase
  exact foldl_stepPlayer_spec dt rand (s.players.map (fun p => p.playerId)) s ridx hok hbal

theorem foldl_stepPlayer_scalars (dt : ℝ) (rand : ℕ → ℝ) (ids : List String) :
    ∀ (a out : GameState × ℕ),
    ids.foldl (fun acc id => acc.bind (fun x => stepPlayer dt rand x id)) (some a) = some out →
    out.1.score = a.1.score ∧ out.1.gameTime = a.1.gameTime ∧
    out.1.matchDuration = a.1.matchDuration ∧ out.1.isMatchActive = a.1.isMatchActive := by
  induction ids with
  | nil =>
    intro a out h
    obtain rfl := Option.some.inj h
    exact ⟨rfl, rfl, rfl, rfl⟩
  | cons id ids ih =>
    intro a out h
    rw [List.foldl_cons, Option.some_bind] at h
    cases hstep : stepPlayer dt rand a id with
    | none =>
      rw [hstep, foldl_stepPlayer_none] at h
      exact absurd h (by simp)
    | some a1 =>
      rw [hstep] at h
      obtain ⟨h1, h2, h3, h4⟩ := ih a1 out h
      obtain ⟨g1, g2, g3, g4⟩ := stepPlayer_scalars dt rand a id a1 hstep
      exact ⟨h1.trans g1, h2.trans g2, h3.trans g3, h4.trans g4⟩

theorem updatePlayersPhase_scalars (s : GameState) (dt : ℝ) (rand : ℕ → ℝ) (ridx : ℕ)
    (out : GameState × ℕ) (h : updatePlayersPhase s dt rand ridx = some out) :
    out.1.score = s.score ∧ out.1.gameTime = s.gameTime ∧
    out.1.matchDuration = s.matchDuration ∧ out.1.isMatchActive = s.isMatchActive := by
  unfold updatePlayersPhase at h
  exact foldl_stepPlayer_scalars dt rand _ (s, ridx) out h

end GameEngine

/-!
The collision passes and the goal check never change the roster
projection; the collision passes never change a scalar field; the goal
check never reactivates a match.
-/

namespace GameEngine

theorem foldl_scalars {α : Type} (f : GameState → α → GameState)
    (hstep : ∀ t a, (f t a).score = t.score ∧ (f t a).gameTime = t.gameTime ∧
      (f t a).matchDuration = t.matchDuration ∧ (f t a).isMatchActive = t.isMatchActive)
    (l : List α) : ∀ t : GameState,
    (l.foldl f t).score = t.score ∧ (l.foldl f t).gameTime = t.gameTime ∧
    (l.foldl f t).matchDuration = t.matchDuration ∧
    (l.foldl f t).isMatchActive = t.isMatchActive := by
  induction l with
  | nil => intro t; exact ⟨rfl, rfl, rfl, rfl⟩
  | cons a l ih =>
    intro t
    obtain ⟨h1, h2, h3, h4⟩ := ih (f t a)
    obtain ⟨g1, g2, g3, g4⟩ := hstep t a
    rw [List.foldl_cons]
    exact ⟨h1.trans g1, h2.trans g2, h3.trans g3, h4.trans g4⟩

theorem foldl_roster {α : Type} (f : GameState → α → GameState)
    (hstep : ∀ t a, ((rosterProj t.players).map Prod.fst).Nodup →
      rosterProj (f t a).players = rosterProj t.players)
    (l : List α) : ∀ t : GameState, ((rosterProj t.players).map Prod.fst).Nodup →
    rosterProj (l.foldl f t).players = rosterProj t.players := by
  induction l with
  | nil => intro t _; rfl
  | cons a l ih =>
    intro t hnd
    have g := hstep t a hnd
    rw [List.foldl_cons]
    exact (ih (f t a) (by rw [g]; exact hnd)).trans g

theorem playerBallStep_scalars (t : GameState) (id : String) :
    (playerBallStep t id).score = t.score ∧ (playerBallStep t id).gameTime = t.gameTime ∧
    (playerBallStep t id).matchDuration = t.matchDuration ∧
    (playerBallStep t id).isMatchActive = t.isMatchActive := by
  unfold playerBallStep
  split
  · exact ⟨rfl, rfl, rfl, rfl⟩
  · split
    · exact ⟨rfl, rfl, rfl, rfl⟩
    · exact ⟨rfl, rfl, rfl, rfl⟩

theorem playerBallStep_roster (t : GameState) (id : String)
    (hnd : ((rosterProj t.players).map Prod.fst).Nodup) :
    rosterProj (playerBallStep t id).players = rosterProj t.players := by
  unfold playerBallStep
  split
  · rfl
  · rename_i p hp
    split
    · obtain ⟨hmem, -⟩ := mapGet_some_mem hp
      exact rosterProj_mapSet_same t.players _ hnd (List.mem_map.mpr ⟨p, hmem, rfl⟩)
    · rfl

theorem playerPlayerStep_scalars (ids : List String) (t : GameState) (ij : ℕ × ℕ) :
    (playerPlayerStep ids t ij).score = t.score ∧
    (playerPlayerStep ids t ij).gameTime = t.gameTime ∧
    (playerPlayerStep ids t ij).matchDuration = t.matchDuration ∧
    (playerPlayerStep ids t ij).isMatchActive = t.isMatchActive := by
  unfold playerPlayerStep
  split
  · split
    · exact ⟨rfl, rfl, rfl, rfl⟩
    · exact ⟨rfl, rfl, rfl, rfl⟩
  · exact ⟨rfl, rfl, rfl, rfl⟩

theorem rosterProj_mapSet_mapSet_same (l : List Player) (qa qb : Player)
    (hnd : ((rosterProj l).map Prod.fst).Nodup)
    (hma : (qa.playerId, qa.team) ∈ rosterProj l)
    (hmb : (qb.playerId, qb.team) ∈ rosterProj l) :
    rosterProj (mapSet (mapSet l qa) qb) = rosterProj l := by
  have h1 := rosterProj_mapSet_same l qa hnd hma
  refine (rosterProj_mapSet_same _ _ ?_ ?_).trans h1
  · rw [h1]
    exact hnd
  · rw [h1]
    exact hmb

theorem playerPlayerStep_roster (ids : List String) (t : GameState) (ij : ℕ × ℕ)
    (hnd : ((rosterProj t.players).map Prod.fst).Nodup) :
    rosterProj (playerPlayerStep ids t ij).players = rosterProj t.players := by
  unfold playerPlayerStep
  split
  · rename_i pa pb hpa hpb
    split
    · obtain ⟨hmema, -⟩ := mapGet_some_mem hpa
      obtain ⟨hmemb, -⟩ := mapGet_some_mem hpb
      exact rosterProj_mapSet_mapSet_same t.players _ _ hnd
        (List.mem_map.mpr ⟨pa, hmema, rfl⟩) (List.mem_map.mpr ⟨pb, hmemb, rfl⟩)
    · rfl
  · rfl

theorem rosterProj_playerWallPass (l : List Player) :
    rosterProj (playerWallPass l) = rosterProj l := by
  unfold playerWallPass rosterProj
  rw [List.map_map]
  exact List.map_congr_left (fun p hp => rfl)

theorem playerBallPass_scalars (s : GameState) :
    (playerBallPass s).score = s.score ∧ (playerBallPass s).gameTime = s.gameTime ∧
    (playerBallPass s).matchDuration = s.matchDuration ∧
    (playerBallPass s).isMatchActive = s.isMatchActive := by
  unfold playerBallPass
  exact foldl_scalars playerBallStep playerBallStep_scalars _ s

theorem playerBallPass_roster (s : GameState)
    (hnd : ((rosterProj s.players).map Prod.fst).Nodup) :
    rosterProj (playerBallPass s).players = rosterProj s.players := by
  unfold playerBallPass
  exact foldl_roster playerBallStep playerBallStep_roster _ s hnd

theorem playerPlayerPass_scalars (s : GameState) :
    (playerPlayerPass s).score = s.score ∧ (playerPlayerPass s).gameTime = s.gameTime ∧
    (playerPlayerPass s).matchDuration = s.matchDuration ∧
    (playerPlayerPass s).isMatchActive = s.isMatchActive := by
  unfold playerPlayerPass
  exact foldl_scalars _ (playerPlayerStep_scalars _) _ s

theorem playerPlayerPass_roster (s : GameState)
    (hnd : ((rosterProj s.players).map Prod.fst).Nodup) :
    rosterProj (playerPlayerPass s).players = rosterProj s.players := by
  unfold playerPlayerPass
  exact foldl_roster _ (playerPlayerStep_roster _) _ s hnd

theorem handleCollisions_def (s : GameState) :
    handleCollisions s = playerPlayerPass (playerBallPass { s with players := playerWallPass s.players, ball := ballWallPass s.ball }) := rfl

theorem handleCollisions_scalars (s : GameState) :
    (handleCollisions s).score = s.score ∧ (handleCollisions s).gameTime = s.gameTime ∧
    (handleCollisions s).matchDuration = s.matchDuration ∧
    (handleCollisions s).isMatchActive = s.isMatchActive := by
  rw [handleCollisions_def]
  obtain ⟨a1, a2, a3, a4⟩ := playerPlayerPass_scalars (playerBallPass { s with players := playerWallPass s.players, ball := ballWallPass s.ball })
  obtain ⟨b1, b2, b3, b4⟩ := playerBallPass_scalars { s with players := playerWallPass s.players, ball := ballWallPass s.ball }
  exact ⟨a1.trans b1, a2.trans b2, a3.trans b3, a4.trans b4⟩

theorem handleCollisions_roster (s : GameState)
    (hnd : ((rosterProj s.players).map Prod.fst).Nodup) :
    rosterProj (handleCollisions s).players = rosterProj s.players := by
  rw [handleCollisions_def]
  have hwall : rosterProj ({ s with players := playerWallPass s.players, ball := ballWallPass s.ball } : GameState).players = rosterProj s.players :=
    rosterProj_playerWallPass s.players
  have hnd1 : ((rosterProj ({ s with players := playerWallPass s.players, ball := ballWallPass s.ball } : GameState).players).map Prod.fst).Nodup := by
    rw [hwall]
    exact hnd
  have hball := playerBallPass_roster _ hnd1
  have hnd2 : ((rosterProj (playerBallPass { s with players := playerWallPass s.players, ball := ballWallPass s.ball }).players).map Prod.fst).Nodup := by
    rw [hball, hwall]
    exact hnd
  exact ((playerPlayerPass_roster _ hnd2).trans hball).trans hwall

theorem checkGoals_roster (s : GameState) :
    rosterProj (checkGoals s).players = rosterProj s.players := by
  unfold checkGoals
  split
  · rfl
  · rename_i team heq
    cases team <;> (dsimp only; split <;> exact rosterProj_resetBallAndPlayers _)

theorem checkGoals_frame (s : GameState) :
    (checkGoals s).matchDuration = s.matchDuration ∧
    (checkGoals s).gameTime = s.gameTime := by
  unfold checkGoals
  split
  · exact ⟨rfl, rfl⟩
  · rename_i team heq
    cases team <;> (dsimp only; split <;> exact ⟨rfl, rfl⟩)

theorem checkGoals_active_mono (s : GameState) :
    (checkGoals s).isMatchActive = true → s.isMatchActive = true := by
  unfold checkGoals
  split
  · exact id
  · rename_i team heq
    cases team <;> (dsimp only; split <;> first
      | exact id
      | (intro h; simp [endMatch] at h))

theorem tickClock_frame (s : GameState) (dt : ℝ) :
    (tickClock s dt).players = s.players ∧ (tickClock s dt).score = s.score ∧
    (tickClock s dt).matchDuration = s.matchDuration := by
  unfold tickClock
  by_cases hact : s.isMatchActive = true
  · rw [if_pos hact]
    dsimp only
    split
    · exact ⟨rfl, rfl, rfl⟩
    · exact ⟨rfl, rfl, rfl⟩
  · rw [if_neg hact]
    exact ⟨rfl, rfl, rfl⟩

theorem tickClock_inactive (s : GameState) (dt : ℝ) (h : s.isMatchActive = false) :
    tickClock s dt = s := by
  unfold tickClock
  rw [if_neg]
  simp [h]

theorem tickClock_timeup (s : GameState) (dt : ℝ) (hact : s.isMatchActive = true)
    (h : s.matchDuration ≤ s.gameTime + dt * 1000) :
    (tickClock s dt).isMatchActive = false := by
  unfold tickClock
  rw [if_pos hact, if_pos]
  · rfl
  · exact h

end GameEngine

/-!
`GameEngine.update` as a whole: with the roster invariant it never
crashes and never changes the roster; unconditionally, it never
reactivates an ended match.
-/

namespace GameEngine

theorem update_spec (s : GameState) (dt : ℝ) (rand : ℕ → ℝ) (ridx : ℕ)
    (hok : RosterOk (rosterProj s.players)) (hbal : BalancedR (rosterProj s.players)) :
    ∃ s', update s dt rand ridx = some s' ∧
      rosterProj s'.players = rosterProj s.players ∧
      s'.matchDuration = s.matchDuration ∧
      (s'.isMatchActive = true → (tickClock s dt).isMatchActive = true) := by
  have hok1 : RosterOk (rosterProj (tickClock s dt).players) := by
    rw [(tickClock_frame s dt).1]
    exact hok
  have hbal1 : BalancedR (rosterProj (tickClock s dt).players) := by
    unfold BalancedR
    rw [(tickClock_frame s dt).1]
    exact hbal
  obtain ⟨s1, r1, hphase, hpr, hsc, hgt, hmd, hma⟩ :=
    updatePlayersPhase_spec (tickClock s dt) dt rand ridx hok1 hbal1
  have hpr' : rosterProj s1.players = rosterProj s.players := by
    rw [hpr, (tickClock_frame s dt).1]
  refine ⟨checkGoals (handleCollisions { s1 with ball := updateBall s1.ball dt }), ?_, ?_, ?_, ?_⟩
  · unfold update
    rw [hphase, Option.map_some']
  · have hnd1 : ((rosterProj ({ s1 with ball := updateBall s1.ball dt } : GameState).players).map Prod.fst).Nodup := by
      show ((rosterProj s1.players).map Prod.fst).Nodup
      rw [hpr']
      exact hok.2.1
    calc rosterProj (checkGoals (handleCollisions { s1 with ball := updateBall s1.ball dt })).players
        = rosterProj (handleCollisions { s1 with ball := updateBall s1.ball dt }).players :=
          checkGoals_roster _
      _ = rosterProj ({ s1 with ball := updateBall s1.ball dt } : GameState).players :=
          handleCollisions_roster _ hnd1
      _ = rosterProj s.players := hpr'
  · calc (checkGoals (handleCollisions { s1 with ball := updateBall s1.ball dt })).matchDuration
        = (handleCollisions { s1 with ball := updateBall s1.ball dt }).matchDuration :=
          (checkGoals_frame _).1
      _ = s.matchDuration := by
          rw [(handleCollisions_scalars _).2.2.1]
          show s1.matchDuration = s.matchDuration
          rw [hmd, (tickClock_frame s dt).2.2]
  · intro hact
    have h1 := checkGoals_active_mono _ hact
    rw [(handleCollisions_scalars _).2.2.2] at h1
    rw [← hma]
    exact h1

theorem update_isSome (s : GameState) (dt : ℝ) (rand : ℕ → ℝ) (ridx : ℕ)
    (hok : RosterOk (rosterProj s.players)) (hbal : BalancedR (rosterProj s.players)) :
    (update s dt rand ridx).isSome = true := by
  obtain ⟨s', h, -, -, -⟩ := update_spec s dt rand ridx hok hbal
  rw [h]
  rfl

theorem update_active_mono (s : GameState) (dt : ℝ) (rand : ℕ → ℝ) (ridx : ℕ) (s' : GameState)
    (h : update s dt rand ridx = some s') (ha : s'.isMatchActive = true) :
    (tickClock s dt).isMatchActive = true := by
  unfold update at h
  cases hphase : updatePlayersPhase (tickClock s dt) dt rand ridx with
  | none =>
    rw [hphase] at h
    simp at h
  | some a =>
    rw [hphase, Option.map_some'] at h
    obtain h2 := Option.some.inj h
    rw [← h2] at ha
    have h3 := checkGoals_active_mono _ ha
    rw [(handleCollisions_scalars _).2.2.2] at h3
    obtain ⟨-, -, -, h4⟩ := updatePlayersPhase_scalars _ dt rand ridx a hphase
    rw [← h4]
    exact h3

theorem update_inactive_persists (s : GameState) (dt : ℝ) (rand : ℕ → ℝ) (ridx : ℕ)
    (s' : GameState) (h : update s dt rand ridx = some s') (hin : s.isMatchActive = false) :
    s'.isMatchActive = false := by
  by_contra hne
  have ha : s'.isMatchActive = true := by
    cases hb : s'.isMatchActive
    · exact absurd hb hne
    · rfl
  have h1 := update_active_mono s dt rand ridx s' h ha
  rw [tickClock_inactive s dt hin, hin] at h1
  exact absurd h1 (by simp)

theorem update_timeup_ends (s : GameState) (dt : ℝ) (rand : ℕ → ℝ) (ridx : ℕ) (s' : GameState)
    (h : update s dt rand ridx = some s') (hact : s.isMatchActive = true)
    (htime : s.matchDuration ≤ s.gameTime + dt * 1000) :
    s'.isMatchActive = false := by
  by_contra hne
  have ha : s'.isMatchActive = true := by
    cases hb : s'.isMatchActive
    · exact absurd hb hne
    · rfl
  have h1 := update_active_mono s dt rand ridx s' h ha
  rw [tickClock_timeup s dt hact htime] at h1
  exact absurd h1 (by simp)

end GameEngine

/-!
Reachable engine states and claim C10: the empty-red `reduce` crash is
unreachable through the public interface.
-/

namespace GameEngine

/-- States reachable through the engine's public operations: the
constructor state, joins and leaves of human players (whose ids never
carry the `ai_` prefix), input updates, and completed ticks. -/
inductive Reachable : GameState → Prop where
  | init : Reachable initialGameState
  | add (s : GameState) (id : String) (now : ℕ) (hs : Reachable s)
      (hid : isAIid id = false) : Reachable (addPlayer s id now)
  | remove (s : GameState) (id : String) (now : ℕ) (hs : Reachable s)
      (hid : isAIid id = false) : Reachable (removePlayer s id now)
  | input (s : GameState) (id : String) (inp : PlayerInput) (hs : Reachable s) :
      Reachable (updatePlayerInput s id inp)
  | tick (s : GameState) (dt : ℝ) (rand : ℕ → ℝ) (ridx : ℕ) (s' : GameState)
      (hs : Reachable s) (h : update s dt rand ridx = some s') : Reachable s'

theorem updatePlayerInput_roster (s : GameState) (id : String) (inp : PlayerInput)
    (hnd : ((rosterProj s.players).map Prod.fst).Nodup) :
    rosterProj (updatePlayerInput s id inp).players = rosterProj s.players := by
  unfold updatePlayerInput
  split
  · rfl
  · rename_i p hp
    obtain ⟨hmem, -⟩ := mapGet_some_mem hp
    exact rosterProj_mapSet_same s.players _ hnd (List.mem_map.mpr ⟨p, hmem, rfl⟩)

theorem reachable_inv (s : GameState) (hs : Reachable s) :
    RosterOk (rosterProj s.players) ∧ BalancedR (rosterProj s.players) := by
  induction hs with
  | init => exact ⟨initial_rosterOk, initial_balanced⟩
  | add s id now hs hid ih =>
    rw [addPlayer_roster]
    exact addPlayerR_inv _ id now ih.1 hid
  | remove s id now hs hid ih =>
    rw [removePlayer_roster]
    exact removePlayerR_inv _ id now ih.1 hid
  | input s id inp hs ih =>
    rw [updatePlayerInput_roster s id inp ih.1.2.1]
    exact ih
  | tick s dt rand ridx s' hs h ih =>
    obtain ⟨s'', h2, hpr, -, -⟩ := update_spec s dt rand ridx ih.1 ih.2
    rw [h2] at h
    obtain h3 := Option.some.inj h
    rw [← h3, hpr]
    exact ih

end GameEngine

/-- C10: in every game state reachable through the engine's public
operations, the set of red players seen by an autonomous blue player's
AI decision is non-empty, so the closest-human `reduce` never runs on an
empty collection and `update` never hits its error branch (the embedding
returns `none` exactly on that branch). -/
theorem c10_reduce_never_empty (s : GameState) (hs : GameEngine.Reachable s) (dt : ℝ)
    (rand : ℕ → ℝ) (ridx : ℕ) :
    (GameEngine.update s dt rand ridx).isSome = true ∧
    (∀ p ∈ s.players, p.team = Team.blue → GameEngine.isAIid p.playerId = true →
      s.players.filter (fun q => q.team = Team.red) ≠ []) := by
  obtain ⟨hok, hbal⟩ := GameEngine.reachable_inv s hs
  exact ⟨GameEngine.update_isSome s dt rand ridx hok hbal,
    fun p hp hblue hai => GameEngine.redPlayers_ne_nil s hbal p hp hblue hai⟩

/-- C10 witness: a tick from the state reached by a single human join
completes. -/
theorem c10_reduce_never_empty_witness :
    (GameEngine.update (GameEngine.addPlayer GameEngine.initialGameState "p1" 0) 1
      (fun _ => 0) 0).isSome = true :=
  (c10_reduce_never_empty _
    (GameEngine.Reachable.add _ "p1" 0 GameEngine.Reachable.init (by decide)) 1
    (fun _ => 0) 0).1

/-!
Claim C3: what happens at match end. `endMatch` only clears
`isMatchActive`; nothing in the tick pipeline ever sets it back, so the
ended state is persistent, not transient.
-/

/-- C3 counterexample: after a time-up tick from the single-join state
the match is ended, and it is still ended after a further tick even
though a red human is present — no automatic reset to an active kickoff
state ever happens. -/
theorem c3_no_auto_reset_counterexample :
    ∃ s1 s2 : GameState,
      GameEngine.update (GameEngine.addPlayer GameEngine.initialGameState "p1" 0) 180
        (fun _ => 0) 0 = some s1 ∧
      GameEngine.update s1 1 (fun _ => 0) 0 = some s2 ∧
      s1.isMatchActive = false ∧ s2.isMatchActive = false ∧
      GameEngine.getRedPlayerCount s2 = 1 := by
  have hinv := GameEngine.applyHumanOp_inv GameEngine.initialGameState
    (GameEngine.HumanOp.join "p1" 0) (by decide) GameEngine.initial_rosterOk
  obtain ⟨s1, h1, hpr1, -, -⟩ := GameEngine.update_spec
    (GameEngine.addPlayer GameEngine.initialGameState "p1" 0) 180 (fun _ => 0) 0 hinv.1 hinv.2
  have hok1 : GameEngine.RosterOk (GameEngine.rosterProj s1.players) := by
    rw [hpr1]
    exact hinv.1
  have hbal1 : GameEngine.BalancedR (GameEngine.rosterProj s1.players) := by
    unfold GameEngine.BalancedR
    rw [hpr1]
    exact hinv.2
  obtain ⟨s2, h2, hpr2, -, -⟩ := GameEngine.update_spec s1 1 (fun _ => 0) 0 hok1 hbal1
  have hend1 : s1.isMatchActive = false := by
    refine GameEngine.update_timeup_ends _ 180 (fun _ => 0) 0 s1 h1 (by decide) ?_
    rw [show (GameEngine.addPlayer GameEngine.initialGameState "p1" 0).matchDuration =
        3 * 60 * 1000 from rfl,
      show (GameEngine.addPlayer GameEngine.initialGameState "p1" 0).gameTime = 0 from rfl]
    norm_num
  have hend2 : s2.isMatchActive = false :=
    GameEngine.update_inactive_persists s1 1 (fun _ => 0) 0 s2 h2 hend1
  refine ⟨s1, s2, h1, h2, hend1, hend2, ?_⟩
  rw [GameEngine.getRedPlayerCount_roster, hpr2, hpr1]
  decide

/-- C3 (amended): a match that has ended stays ended — `update` never
reactivates a match; and the transition into the ended state does happen
at time-up. The engine therefore has a persistent ended state, with no
automatic reset to an active kickoff. -/
theorem c3_ended_state_persists (s : GameState) (dt : ℝ) (rand : ℕ → ℝ) (ridx : ℕ)
    (s' : GameState) (h : GameEngine.update s dt rand ridx = some s')
    (hin : s.isMatchActive = false) :
    s'.isMatchActive = false :=
  GameEngine.update_inactive_persists s dt rand ridx s' h hin

/-- C3 witness: a tick from the inactive constructor state stays
inactive. -/
theorem c3_ended_state_persists_witness :
    ∃ s' : GameState, GameEngine.update GameEngine.initialGameState 1 (fun _ => 0) 0 = some s' ∧
      s'.isMatchActive = false := by
  obtain ⟨s', h, -, -, -⟩ := GameEngine.update_spec GameEngine.initialGameState 1 (fun _ => 0) 0
    GameEngine.initial_rosterOk GameEngine.initial_balanced
  exact ⟨s', h, c3_ended_state_persists GameEngine.initialGameState 1 (fun _ => 0) 0 s' h rfl⟩

/-!
Claim C6: the join / score-limit / leave lifecycle.
-/

namespace GameEngine

/-- A mid-match state with the score at `{red: 2, blue: 0}` and the ball
just inside the right (blue-defended) goal pocket; the roster is the one
reached by the single join of `"p1"`. -/
def c6GoalState : GameState :=
  { players := (addPlayer initialGameState "p1" 0).players
    ball := { createBall with position := ⟨652, 0⟩ }
    score := ⟨2, 0⟩
    gameTime := 0
    matchDuration := 3 * 60 * 1000
    isMatchActive := true }

end GameEngine

/-- C6: starting from the empty engine (`isMatchActive = false`),
`addPlayer "p1"` activates the match with score `{0,0}` and exactly one
autonomous blue player; a goal taking the score to `{red: 3, blue: 0}`
deactivates the match in `checkGoals`; and `removePlayer "p1"` from the
active single-join state deactivates the match and leaves zero
autonomous blue players. -/
theorem c6_lifecycle :
    GameEngine.initialGameState.isMatchActive = false ∧
    (GameEngine.addPlayer GameEngine.initialGameState "p1" 0).isMatchActive = true ∧
    (GameEngine.addPlayer GameEngine.initialGameState "p1" 0).score = ⟨0, 0⟩ ∧
    GameEngine.getBluePlayerCount (GameEngine.addPlayer GameEngine.initialGameState "p1" 0) = 1 ∧
    GameEngine.c6GoalState.score = ⟨2, 0⟩ ∧
    (GameEngine.checkGoals GameEngine.c6GoalState).score = ⟨3, 0⟩ ∧
    (GameEngine.checkGoals GameEngine.c6GoalState).isMatchActive = false ∧
    (GameEngine.removePlayer (GameEngine.addPlayer GameEngine.initialGameState "p1" 0) "p1" 9).isMatchActive = false ∧
    GameEngine.getBluePlayerCount
      (GameEngine.removePlayer (GameEngine.addPlayer GameEngine.initialGameState "p1" 0) "p1" 9) = 0 := by
  have hgoal : StadiumConfig.isInGoal (⟨652, 0⟩ : Vector2) GameEngine.stadium = some Team.red := by
    rw [StadiumConfig.isInGoal]
    norm_num [GameEngine.stadium, StadiumConfig.createClassicStadium]
  have hscore : (GameEngine.checkGoals GameEngine.c6GoalState).score = ⟨3, 0⟩ ∧
      (GameEngine.checkGoals GameEngine.c6GoalState).isMatchActive = false := by
    unfold GameEngine.checkGoals
    rw [show GameEngine.c6GoalState.ball.position = (⟨652, 0⟩ : Vector2) from rfl, hgoal]
    dsimp only
    rw [if_pos]
    · exact ⟨rfl, rfl⟩
    · left
      show 3 ≤ GameEngine.c6GoalState.score.red + 1
      decide
  exact ⟨rfl, by decide, by decide, by decide, rfl, hscore.1, hscore.2, by decide, by decide⟩

/-!
Claim C4: wall containment over one tick. Concrete scenario: a red human
player just inside the right wall moving right at full speed.
-/

namespace GameEngine

/-- The arena's outer wall boundary in the sense of the specification: a
position is in bounds when it is inside the rectangular field or inside
one of the two goal pockets. -/
noncomputable def inArenaBounds (pos : Vector2) : Prop :=
  (|pos.x| ≤ stadium.width / 2 ∧ |pos.y| ≤ stadium.height / 2) ∨
    (StadiumConfig.isInGoal pos stadium).isSome = true

/-- A human red player one unit inside the right wall, moving right at the
configured maximum speed, no input held. -/
def c4Player : Player :=
  { id := "h1"
    playerId := "h1"
    team := Team.red
    position := ⟨629, 200⟩
    velocity := ⟨450, 0⟩
    radius := GameConfig.playerRadius
    maxSpeed := GameConfig.playerMaxSpeed
    acceleration := GameConfig.playerAcceleration
    aiRole := none
    aiCooldowns := none
    input := ⟨false, false, false, false, false⟩ }

/-- The tick-start state for the C4 scenario: the single human above, the
ball at rest at the center, no match running. -/
def c4State : GameState :=
  { players := [c4Player]
    ball := createBall
    score := ⟨0, 0⟩
    gameTime := 0
    matchDuration := 3 * 60 * 1000
    isMatchActive := false }

/-- The per-tick friction factor `0.1 ^ (1/60)` at the 60 Hz tick. -/
noncomputable def c4f : ℝ := GameConfig.playerFriction ^ ((1 : ℝ)/60)

/-- The player's x position after integration: `629 + 450·f/60`. -/
noncomputable def c4X : ℝ := 629 + 450 * c4f * (1/60)

/-- The player after the integration step of `updatePlayer`. -/
noncomputable def c4PlayerMoved : Player :=
  { c4Player with velocity := ⟨450 * c4f, 0⟩, position := ⟨c4X, 200⟩ }

/-- The player after the wall pass: pushed to x = 654, outside the wall
line x = 630, with the reflected, damped velocity. -/
noncomputable def c4PlayerFinal : Player :=
  { c4Player with velocity := ⟨-360 * c4f, 0⟩, position := ⟨654, 200⟩ }

/-- The state after the player loop of the C4 tick. -/
noncomputable def c4StateM : GameState :=
  { c4State with players := [c4PlayerMoved], ball := createBall }

/-- The state after the collision pass of the C4 tick. -/
noncomputable def c4StateW : GameState :=
  { c4State with players := [c4PlayerFinal], ball := createBall }

theorem c4f_pos : 0 < c4f :=
  Real.rpow_pos_of_pos (by norm_num [GameConfig.playerFriction]) _

theorem c4f_le_one : c4f ≤ 1 :=
  Real.rpow_le_one (by norm_num [GameConfig.playerFriction])
    (by norm_num [GameConfig.playerFriction]) (by norm_num)

theorem c4f_pow60 : c4f ^ (60 : ℕ) = GameConfig.playerFriction := by
  unfold c4f
  rw [← Real.rpow_natCast (GameConfig.playerFriction ^ ((1 : ℝ)/60)) 60,
    ← Real.rpow_mul (by norm_num [GameConfig.playerFriction])]
  rw [show ((1 : ℝ)/60) * ((60 : ℕ) : ℝ) = 1 by norm_num, Real.rpow_one]

theorem c4f_ge_half : (1/2 : ℝ) ≤ c4f := by
  by_contra hlt
  push_neg at hlt
  have h1 : c4f ^ (60 : ℕ) < (1/2 : ℝ) ^ (60 : ℕ) :=
    pow_lt_pow_left hlt (le_of_lt c4f_pos) (by norm_num)
  rw [c4f_pow60] at h1
  have h2 : ((1 : ℝ)/2) ^ (60 : ℕ) < GameConfig.playerFriction := by
    norm_num [GameConfig.playerFriction]
  linarith

theorem c4X_lb : (632 : ℝ) ≤ c4X := by
  unfold c4X
  have := c4f_ge_half
  linarith

theorem c4X_ub : c4X ≤ 636.5 := by
  unfold c4X
  have := c4f_le_one
  linarith

end GameEngine

namespace Physics

theorem Circ.ext3 {a b : Circ} (h1 : a.position = b.position)
    (h2 : a.velocity = b.velocity) (h3 : a.radius = b.radius) : a = b := by
  cases a
  cases b
  cases h1
  cases h2
  cases h3
  rfl

theorem convex_bound (a b L t : ℝ) (hL : 0 < L) (ht0 : 0 ≤ t) (htL : t ≤ L) :
    min a b ≤ a + ((b - a) / L) * t ∧ a + ((b - a) / L) * t ≤ max a b := by
  have hu0 : 0 ≤ t / L := div_nonneg ht0 (le_of_lt hL)
  have hu1 : t / L ≤ 1 := (div_le_one hL).mpr htL
  have hexpr : a + ((b - a) / L) * t = a + (b - a) * (t / L) := by
    field_simp
  rw [hexpr]
  rcases le_total a b with hab | hba
  · rw [min_eq_left hab, max_eq_right hab]
    constructor
    · nlinarith
    · nlinarith
  · rw [min_eq_right hba, max_eq_left hba]
    constructor
    · nlinarith
    · nlinarith

/-- The closest point on a wall lies in the wall's bounding box. -/
theorem getClosestPointOnWall_mem_box (pnt : Vector2) (w : Wall) :
    min w.start.x w.stop.x ≤ (getClosestPointOnWall pnt w).x ∧
    (getClosestPointOnWall pnt w).x ≤ max w.start.x w.stop.x ∧
    min w.start.y w.stop.y ≤ (getClosestPointOnWall pnt w).y ∧
    (getClosestPointOnWall pnt w).y ≤ max w.start.y w.stop.y := by
  unfold getClosestPointOnWall
  dsimp only
  split
  · exact ⟨min_le_left _ _, le_max_left _ _, min_le_left _ _, le_max_left _ _⟩
  · rename_i hL
    have hLpos : 0 < magnitude (subtract w.stop w.start) :=
      lt_of_le_of_ne (magnitude_nonneg _) (Ne.symm hL)
    have hnorm : normalize (subtract w.stop w.start) =
        ⟨(subtract w.stop w.start).x / magnitude (subtract w.stop w.start),
         (subtract w.stop w.start).y / magnitude (subtract w.stop w.start)⟩ := by
      unfold normalize
      rw [if_neg hL]
    rw [hnorm]
    have ht0 : 0 ≤ max 0 (min (magnitude (subtract w.stop w.start))
        (dot (subtract pnt w.start)
          ⟨(subtract w.stop w.start).x / magnitude (subtract w.stop w.start),
           (subtract w.stop w.start).y / magnitude (subtract w.stop w.start)⟩)) :=
      le_max_left _ _
    have htL : max 0 (min (magnitude (subtract w.stop w.start))
        (dot (subtract pnt w.start)
          ⟨(subtract w.stop w.start).x / magnitude (subtract w.stop w.start),
           (subtract w.stop w.start).y / magnitude (subtract w.stop w.start)⟩)) ≤
        magnitude (subtract w.stop w.start) :=
      max_le (le_of_lt hLpos) (min_le_left _ _)
    have hx := convex_bound w.start.x w.stop.x (magnitude (subtract w.stop w.start)) _
      hLpos ht0 htL
    have hy := convex_bound w.start.y w.stop.y (magnitude (subtract w.stop w.start)) _
      hLpos ht0 htL
    exact ⟨hx.1, hx.2, hy.1, hy.2⟩

end Physics

namespace GameEngine

/-- A circle separated from a wall's bounding box by at least its radius
along one axis is not in collision, so the wall step leaves it alone. -/
theorem wallStep_miss_box (c : Physics.Circ) (w : Wall)
    (h : max w.start.x w.stop.x + c.radius ≤ c.position.x ∨
         c.position.x + c.radius ≤ min w.start.x w.stop.x ∨
         max w.start.y w.stop.y + c.radius ≤ c.position.y ∨
         c.position.y + c.radius ≤ min w.start.y w.stop.y) :
    wallStep c w = c := by
  obtain ⟨hx1, hx2, hy1, hy2⟩ := Physics.getClosestPointOnWall_mem_box c.position w
  unfold wallStep
  refine if_neg (fun hcol => ?_)
  unfold Physics.checkWallCollision Physics.distance at hcol
  have hax : |c.position.x - (Physics.getClosestPointOnWall c.position w).x| ≤
      Physics.magnitude (Physics.subtract c.position (Physics.getClosestPointOnWall c.position w)) :=
    Physics.abs_x_le_magnitude (Physics.subtract c.position (Physics.getClosestPointOnWall c.position w))
  have hay : |c.position.y - (Physics.getClosestPointOnWall c.position w).y| ≤
      Physics.magnitude (Physics.subtract c.position (Physics.getClosestPointOnWall c.position w)) :=
    Physics.abs_y_le_magnitude (Physics.subtract c.position (Physics.getClosestPointOnWall c.position w))
  rcases h with h | h | h | h
  · have h1 : c.position.x - (Physics.getClosestPointOnWall c.position w).x ≤
        |c.position.x - (Physics.getClosestPointOnWall c.position w).x| := le_abs_self _
    have h2 := lt_of_le_of_lt hax hcol
    linarith
  · have h1 : -(c.position.x - (Physics.getClosestPointOnWall c.position w).x) ≤
        |c.position.x - (Physics.getClosestPointOnWall c.position w).x| := neg_le_abs _
    have h2 := lt_of_le_of_lt hax hcol
    linarith
  · have h1 : c.position.y - (Physics.getClosestPointOnWall c.position w).y ≤
        |c.position.y - (Physics.getClosestPointOnWall c.position w).y| := le_abs_self _
    have h2 := lt_of_le_of_lt hay hcol
    linarith
  · have h1 : -(c.position.y - (Physics.getClosestPointOnWall c.position w).y) ≤
        |c.position.y - (Physics.getClosestPointOnWall c.position w).y| := neg_le_abs _
    have h2 := lt_of_le_of_lt hay hcol
    linarith

end GameEngine

namespace GameEngine

/-- Closest point on an upward vertical wall segment. -/
theorem closestPoint_vertical (x0 y0 y1 : ℝ) (n : Vector2) (p : Vector2) (h : 0 < y1 - y0) :
    Physics.getClosestPointOnWall p ⟨⟨x0, y0⟩, ⟨x0, y1⟩, n⟩ =
      ⟨x0, y0 + max 0 (min (y1 - y0) (p.y - y0))⟩ := by
  unfold Physics.getClosestPointOnWall
  dsimp only
  have hsub : Physics.subtract (⟨x0, y1⟩ : Vector2) ⟨x0, y0⟩ = ⟨0, y1 - y0⟩ := by
    unfold Physics.subtract
    exact Vector2.ext2 (by norm_num) rfl
  rw [hsub]
  rw [Physics.magnitude_mk_y, abs_of_pos h]
  rw [if_neg (by intro hc; linarith)]
  have hnorm : Physics.normalize (⟨0, y1 - y0⟩ : Vector2) = ⟨0, 1⟩ := by
    unfold Physics.normalize
    rw [Physics.magnitude_mk_y, abs_of_pos h, if_neg (by intro hc; linarith)]
    refine Vector2.ext2 ?_ ?_
    · show (0 : ℝ) / (y1 - y0) = 0
      exact zero_div _
    · show (y1 - y0) / (y1 - y0) = 1
      exact div_self (by intro hc; linarith)
  rw [hnorm]
  have hdot : Physics.dot (Physics.subtract p ⟨x0, y0⟩) ⟨0, 1⟩ = p.y - y0 := by
    unfold Physics.dot Physics.subtract
    ring
  rw [hdot]
  unfold Physics.add Physics.multiply
  refine Vector2.ext2 ?_ ?_
  · show x0 + 0 * max 0 (min (y1 - y0) (p.y - y0)) = x0
    ring
  · show y0 + 1 * max 0 (min (y1 - y0) (p.y - y0)) = y0 + max 0 (min (y1 - y0) (p.y - y0))
    ring

theorem c4_updatePlayer :
    updatePlayer c4Player createBall (1/60) = (c4PlayerMoved, createBall) := by
  unfold updatePlayer
  dsimp only
  rw [if_neg]
  swap
  · intro hcontra
    exact Bool.noConfusion hcontra.1
  have hv1 : Physics.add c4Player.velocity (Physics.multiply
      ⟨(if c4Player.input.left = true then -c4Player.acceleration else 0) +
        (if c4Player.input.right = true then c4Player.acceleration else 0),
       (if c4Player.input.up = true then -c4Player.acceleration else 0) +
        (if c4Player.input.down = true then c4Player.acceleration else 0)⟩ (1/60)) =
      (⟨450, 0⟩ : Vector2) := by
    unfold Physics.add Physics.multiply
    refine Vector2.ext2 ?_ ?_ <;> simp [c4Player]
  rw [hv1]
  have hlim : Physics.limit (⟨450, 0⟩ : Vector2) c4Player.maxSpeed = ⟨450, 0⟩ := by
    unfold Physics.limit
    rw [if_neg]
    rw [Physics.magnitude_mk_x]
    show ¬ |(450 : ℝ)| > c4Player.maxSpeed
    rw [show c4Player.maxSpeed = (450 : ℝ) from rfl]
    norm_num
  rw [hlim]
  have hfr : Physics.applyFriction (⟨450, 0⟩ : Vector2) GameConfig.playerFriction (1/60) =
      ⟨450 * c4f, 0⟩ := by
    unfold Physics.applyFriction Physics.multiply c4f
    refine Vector2.ext2 rfl ?_
    show (0 : ℝ) * GameConfig.playerFriction ^ ((1 : ℝ)/60) = 0
    ring
  rw [hfr]
  have hpos : Physics.add c4Player.position (Physics.multiply ⟨450 * c4f, 0⟩ (1/60)) =
      (⟨c4X, 200⟩ : Vector2) := by
    unfold Physics.add Physics.multiply c4X
    refine Vector2.ext2 rfl ?_
    show c4Player.position.y + 0 * (1/60) = (200 : ℝ)
    rw [show c4Player.position.y = (200 : ℝ) from rfl]
    ring
  rw [hpos]
  rfl

theorem c4_phase :
    updatePlayersPhase c4State (1/60) (fun _ => 0) 0 = some (c4StateM, 0) := by
  unfold updatePlayersPhase
  rw [show c4State.players.map (fun p => p.playerId) = ["h1"] from rfl]
  rw [List.foldl_cons, List.foldl_nil, Option.some_bind]
  rw [stepPlayer_get_some (1/60) (fun _ => 0) (c4State, 0) "h1" c4Player rfl]
  rw [if_neg]
  swap
  · intro hc
    exact Team.noConfusion hc.1
  rw [Option.map_some']
  show some ({ c4State with
      players := mapSet c4State.players (updatePlayer c4Player createBall (1/60)).1
      ball := (updatePlayer c4Player createBall (1/60)).2 }, 0) = some (c4StateM, 0)
  rw [c4_updatePlayer]
  rfl

end GameEngine

namespace GameEngine

theorem c4_wallStep_hit :
    wallStep ⟨⟨c4X, 200⟩, ⟨450 * c4f, 0⟩, 24⟩ ⟨⟨630, 96⟩, ⟨630, 300⟩, ⟨-1, 0⟩⟩ =
      ⟨⟨654, 200⟩, ⟨-360 * c4f, 0⟩, 24⟩ := by
  have hXlb := c4X_lb
  have hXub := c4X_ub
  have hfpos := c4f_pos
  have hcp : Physics.getClosestPointOnWall (⟨c4X, 200⟩ : Vector2) ⟨⟨630, 96⟩, ⟨630, 300⟩, ⟨-1, 0⟩⟩ =
      ⟨630, 200⟩ := by
    rw [closestPoint_vertical 630 96 300 _ _ (by norm_num)]
    refine Vector2.ext2 rfl ?_
    show (96 : ℝ) + max 0 (min (300 - 96) ((⟨c4X, 200⟩ : Vector2).y - 96)) = (⟨(630 : ℝ), 200⟩ : Vector2).y
    show (96 : ℝ) + max 0 (min (300 - 96) ((200 : ℝ) - 96)) = (200 : ℝ)
    norm_num
  have hsub : Physics.subtract (⟨c4X, 200⟩ : Vector2) ⟨630, 200⟩ = ⟨c4X - 630, 0⟩ := by
    unfold Physics.subtract
    exact Vector2.ext2 rfl (by norm_num)
  have hdist : Physics.distance (⟨c4X, 200⟩ : Vector2) ⟨630, 200⟩ = c4X - 630 := by
    unfold Physics.distance
    rw [hsub, Physics.magnitude_mk_x]
    exact abs_of_pos (by linarith)
  have hdir : Physics.normalize (⟨c4X - 630, 0⟩ : Vector2) = ⟨1, 0⟩ := by
    unfold Physics.normalize
    rw [Physics.magnitude_mk_x, abs_of_pos (by linarith)]
    rw [if_neg (by intro hc; linarith)]
    refine Vector2.ext2 ?_ ?_
    · show (c4X - 630) / (c4X - 630) = 1
      exact div_self (by intro hc; linarith)
    · show (0 : ℝ) / (c4X - 630) = 0
      exact zero_div _
  unfold wallStep
  rw [if_pos]
  swap
  · unfold Physics.checkWallCollision
    rw [hcp, hdist]
    show c4X - 630 < (24 : ℝ)
    linarith
  unfold Physics.resolveWallCollision
  dsimp only
  rw [hcp, hdist, hsub, hdir]
  rw [if_pos (by show c4X - 630 < (24 : ℝ); linarith)]
  have hvan : Physics.dot (⟨450 * c4f, 0⟩ : Vector2) ⟨-1, 0⟩ = -(450 * c4f) := by
    unfold Physics.dot
    show 450 * c4f * -1 + 0 * 0 = -(450 * c4f)
    ring
  rw [hvan]
  rw [if_pos (by show -(450 * c4f) < (0 : ℝ); linarith)]
  refine Physics.Circ.ext3 ?_ ?_ rfl
  · show Physics.add ⟨c4X, 200⟩ (Physics.multiply ⟨1, 0⟩ (24 - (c4X - 630))) = (⟨654, 200⟩ : Vector2)
    unfold Physics.add Physics.multiply
    refine Vector2.ext2 ?_ ?_
    · show c4X + 1 * (24 - (c4X - 630)) = (654 : ℝ)
      ring
    · show (200 : ℝ) + 0 * (24 - (c4X - 630)) = 200
      ring
  · show Physics.multiply (Physics.subtract ⟨450 * c4f, 0⟩
        (Physics.multiply ⟨-1, 0⟩ (-(450 * c4f) * 2))) 0.8 = (⟨-360 * c4f, 0⟩ : Vector2)
    unfold Physics.multiply Physics.subtract
    refine Vector2.ext2 ?_ ?_
    · show (450 * c4f - -1 * (-(450 * c4f) * 2)) * 0.8 = -360 * c4f
      ring
    · show ((0 : ℝ) - 0 * (-(450 * c4f) * 2)) * 0.8 = 0
      ring

end GameEngine

namespace GameEngine

theorem c4_wallFold :
    stadium.walls.foldl wallStep (⟨⟨c4X, 200⟩, ⟨450 * c4f, 0⟩, 24⟩ : Physics.Circ) =
      ⟨⟨654, 200⟩, ⟨-360 * c4f, 0⟩, 24⟩ := by
  have hXlb := c4X_lb
  have hXub := c4X_ub
  rw [show stadium.walls =
      [ (⟨⟨-630, -300⟩, ⟨630, -300⟩, ⟨0, 1⟩⟩ : Wall)
      , ⟨⟨-630, 300⟩, ⟨630, 300⟩, ⟨0, -1⟩⟩
      , ⟨⟨-630, -300⟩, ⟨-630, -96⟩, ⟨1, 0⟩⟩
      , ⟨⟨-630, 96⟩, ⟨-630, 300⟩, ⟨1, 0⟩⟩
      , ⟨⟨630, -300⟩, ⟨630, -96⟩, ⟨-1, 0⟩⟩
      , ⟨⟨630, 96⟩, ⟨630, 300⟩, ⟨-1, 0⟩⟩
      , ⟨⟨-630, -96⟩, ⟨-675, -96⟩, ⟨0, 1⟩⟩
      , ⟨⟨-630, 96⟩, ⟨-675, 96⟩, ⟨0, -1⟩⟩
      , ⟨⟨-675, -96⟩, ⟨-675, 96⟩, ⟨1, 0⟩⟩
      , ⟨⟨630, -96⟩, ⟨675, -96⟩, ⟨0, 1⟩⟩
      , ⟨⟨630, 96⟩, ⟨675, 96⟩, ⟨0, -1⟩⟩
      , ⟨⟨675, -96⟩, ⟨675, 96⟩, ⟨-1, 0⟩⟩ ] from rfl]
  simp only [List.foldl_cons, List.foldl_nil]
  rw [wallStep_miss_box (⟨⟨c4X, 200⟩, ⟨450 * c4f, 0⟩, 24⟩ : Physics.Circ)
    ⟨⟨-630, -300⟩, ⟨630, -300⟩, ⟨0, 1⟩⟩ (by right; right; left; norm_num)]
  rw [wallStep_miss_box (⟨⟨c4X, 200⟩, ⟨450 * c4f, 0⟩, 24⟩ : Physics.Circ)
    ⟨⟨-630, 300⟩, ⟨630, 300⟩, ⟨0, -1⟩⟩ (by right; right; right; norm_num)]
  rw [wallStep_miss_box (⟨⟨c4X, 200⟩, ⟨450 * c4f, 0⟩, 24⟩ : Physics.Circ)
    ⟨⟨-630, -300⟩, ⟨-630, -96⟩, ⟨1, 0⟩⟩ (by left; norm_num; linarith)]
  rw [wallStep_miss_box (⟨⟨c4X, 200⟩, ⟨450 * c4f, 0⟩, 24⟩ : Physics.Circ)
    ⟨⟨-630, 96⟩, ⟨-630, 300⟩, ⟨1, 0⟩⟩ (by left; norm_num; linarith)]
  rw [wallStep_miss_box (⟨⟨c4X, 200⟩, ⟨450 * c4f, 0⟩, 24⟩ : Physics.Circ)
    ⟨⟨630, -300⟩, ⟨630, -96⟩, ⟨-1, 0⟩⟩ (by right; right; left; norm_num)]
  rw [c4_wallStep_hit]
  rw [wallStep_miss_box (⟨⟨654, 200⟩, ⟨-360 * c4f, 0⟩, 24⟩ : Physics.Circ)
    ⟨⟨-630, -96⟩, ⟨-675, -96⟩, ⟨0, 1⟩⟩ (by left; norm_num)]
  rw [wallStep_miss_box (⟨⟨654, 200⟩, ⟨-360 * c4f, 0⟩, 24⟩ : Physics.Circ)
    ⟨⟨-630, 96⟩, ⟨-675, 96⟩, ⟨0, -1⟩⟩ (by left; norm_num)]
  rw [wallStep_miss_box (⟨⟨654, 200⟩, ⟨-360 * c4f, 0⟩, 24⟩ : Physics.Circ)
    ⟨⟨-675, -96⟩, ⟨-675, 96⟩, ⟨1, 0⟩⟩ (by left; norm_num)]
  rw [wallStep_miss_box (⟨⟨654, 200⟩, ⟨-360 * c4f, 0⟩, 24⟩ : Physics.Circ)
    ⟨⟨630, -96⟩, ⟨675, -96⟩, ⟨0, 1⟩⟩ (by right; right; left; norm_num)]
  rw [wallStep_miss_box (⟨⟨654, 200⟩, ⟨-360 * c4f, 0⟩, 24⟩ : Physics.Circ)
    ⟨⟨630, 96⟩, ⟨675, 96⟩, ⟨0, -1⟩⟩ (by right; right; left; norm_num)]
  rw [wallStep_miss_box (⟨⟨654, 200⟩, ⟨-360 * c4f, 0⟩, 24⟩ : Physics.Circ)
    ⟨⟨675, -96⟩, ⟨675, 96⟩, ⟨-1, 0⟩⟩ (by right; right; left; norm_num)]

theorem c4_playerWallPass : playerWallPass [c4PlayerMoved] = [c4PlayerFinal] := by
  unfold playerWallPass
  rw [List.map_cons, List.map_nil]
  dsimp only
  rw [show (⟨c4PlayerMoved.position, c4PlayerMoved.velocity, c4PlayerMoved.radius⟩ :
      Physics.Circ) = ⟨⟨c4X, 200⟩, ⟨450 * c4f, 0⟩, 24⟩ from rfl]
  rw [c4_wallFold]
  rfl

theorem c4_ballWallPass : ballWallPass createBall = createBall := by
  unfold ballWallPass
  dsimp only
  rw [show (⟨createBall.position, createBall.velocity, createBall.radius⟩ : Physics.Circ) =
      ⟨⟨0, 0⟩, ⟨0, 0⟩, 18⟩ from rfl]
  rw [show stadium.walls =
      [ (⟨⟨-630, -300⟩, ⟨630, -300⟩, ⟨0, 1⟩⟩ : Wall)
      , ⟨⟨-630, 300⟩, ⟨630, 300⟩, ⟨0, -1⟩⟩
      , ⟨⟨-630, -300⟩, ⟨-630, -96⟩, ⟨1, 0⟩⟩
      , ⟨⟨-630, 96⟩, ⟨-630, 300⟩, ⟨1, 0⟩⟩
      , ⟨⟨630, -300⟩, ⟨630, -96⟩, ⟨-1, 0⟩⟩
      , ⟨⟨630, 96⟩, ⟨630, 300⟩, ⟨-1, 0⟩⟩
      , ⟨⟨-630, -96⟩, ⟨-675, -96⟩, ⟨0, 1⟩⟩
      , ⟨⟨-630, 96⟩, ⟨-675, 96⟩, ⟨0, -1⟩⟩
      , ⟨⟨-675, -96⟩, ⟨-675, 96⟩, ⟨1, 0⟩⟩
      , ⟨⟨630, -96⟩, ⟨675, -96⟩, ⟨0, 1⟩⟩
      , ⟨⟨630, 96⟩, ⟨675, 96⟩, ⟨0, -1⟩⟩
      , ⟨⟨675, -96⟩, ⟨675, 96⟩, ⟨-1, 0⟩⟩ ] from rfl]
  simp only [List.foldl_cons, List.foldl_nil]
  rw [wallStep_miss_box (⟨⟨0, 0⟩, ⟨0, 0⟩, 18⟩ : Physics.Circ)
    ⟨⟨-630, -300⟩, ⟨630, -300⟩, ⟨0, 1⟩⟩ (by right; right; left; norm_num)]
  rw [wallStep_miss_box (⟨⟨0, 0⟩, ⟨0, 0⟩, 18⟩ : Physics.Circ)
    ⟨⟨-630, 300⟩, ⟨630, 300⟩, ⟨0, -1⟩⟩ (by right; right; right; norm_num)]
  rw [wallStep_miss_box (⟨⟨0, 0⟩, ⟨0, 0⟩, 18⟩ : Physics.Circ)
    ⟨⟨-630, -300⟩, ⟨-630, -96⟩, ⟨1, 0⟩⟩ (by left; norm_num)]
  rw [wallStep_miss_box (⟨⟨0, 0⟩, ⟨0, 0⟩, 18⟩ : Physics.Circ)
    ⟨⟨-630, 96⟩, ⟨-630, 300⟩, ⟨1, 0⟩⟩ (by left; norm_num)]
  rw [wallStep_miss_box (⟨⟨0, 0⟩, ⟨0, 0⟩, 18⟩ : Physics.Circ)
    ⟨⟨630, -300⟩, ⟨630, -96⟩, ⟨-1, 0⟩⟩ (by right; left; norm_num)]
  rw [wallStep_miss_box (⟨⟨0, 0⟩, ⟨0, 0⟩, 18⟩ : Physics.Circ)
    ⟨⟨630, 96⟩, ⟨630, 300⟩, ⟨-1, 0⟩⟩ (by right; left; norm_num)]
  rw [wallStep_miss_box (⟨⟨0, 0⟩, ⟨0, 0⟩, 18⟩ : Physics.Circ)
    ⟨⟨-630, -96⟩, ⟨-675, -96⟩, ⟨0, 1⟩⟩ (by left; norm_num)]
  rw [wallStep_miss_box (⟨⟨0, 0⟩, ⟨0, 0⟩, 18⟩ : Physics.Circ)
    ⟨⟨-630, 96⟩, ⟨-675, 96⟩, ⟨0, -1⟩⟩ (by left; norm_num)]
  rw [wallStep_miss_box (⟨⟨0, 0⟩, ⟨0, 0⟩, 18⟩ : Physics.Circ)
    ⟨⟨-675, -96⟩, ⟨-675, 96⟩, ⟨1, 0⟩⟩ (by left; norm_num)]
  rw [wallStep_miss_box (⟨⟨0, 0⟩, ⟨0, 0⟩, 18⟩ : Physics.Circ)
    ⟨⟨630, -96⟩, ⟨675, -96⟩, ⟨0, 1⟩⟩ (by right; left; norm_num)]
  rw [wallStep_miss_box (⟨⟨0, 0⟩, ⟨0, 0⟩, 18⟩ : Physics.Circ)
    ⟨⟨630, 96⟩, ⟨675, 96⟩, ⟨0, -1⟩⟩ (by right; left; norm_num)]
  rw [wallStep_miss_box (⟨⟨0, 0⟩, ⟨0, 0⟩, 18⟩ : Physics.Circ)
    ⟨⟨675, -96⟩, ⟨675, 96⟩, ⟨-1, 0⟩⟩ (by right; left; norm_num)]
  rfl

end GameEngine

namespace GameEngine

theorem c4_updateBall : updateBall createBall (1/60) = createBall := by
  unfold updateBall
  dsimp only
  have hv : Physics.applyFriction createBall.velocity createBall.friction (1/60) =
      (⟨0, 0⟩ : Vector2) := by
    unfold Physics.applyFriction Physics.multiply
    refine Vector2.ext2 ?_ ?_
    · show createBall.velocity.x * (createBall.friction ^ ((1 : ℝ)/60)) = (0 : ℝ)
      rw [show createBall.velocity.x = (0 : ℝ) from rfl]
      ring
    · show createBall.velocity.y * (createBall.friction ^ ((1 : ℝ)/60)) = (0 : ℝ)
      rw [show createBall.velocity.y = (0 : ℝ) from rfl]
      ring
  rw [hv]
  have hp : Physics.add createBall.position (Physics.multiply ⟨0, 0⟩ (1/60)) =
      createBall.position := by
    unfold Physics.add Physics.multiply
    refine Vector2.ext2 ?_ ?_
    · show createBall.position.x + 0 * (1/60) = createBall.position.x
      ring
    · show createBall.position.y + 0 * (1/60) = createBall.position.y
      ring
  rw [hp]
  rfl

theorem c4_playerBallPass : playerBallPass c4StateW = c4StateW := by
  have hsub : Physics.subtract c4PlayerFinal.position c4StateW.ball.position =
      (⟨654, 200⟩ : Vector2) := by
    unfold Physics.subtract
    refine Vector2.ext2 ?_ ?_
    · show (654 : ℝ) - 0 = 654
      ring
    · show (200 : ℝ) - 0 = 200
      ring
  have hmiss : ¬ Physics.checkCircleCollision c4PlayerFinal.position c4PlayerFinal.radius
      c4StateW.ball.position c4StateW.ball.radius := by
    unfold Physics.checkCircleCollision Physics.distance
    rw [hsub]
    rw [show c4PlayerFinal.radius + c4StateW.ball.radius = (42 : ℝ) by
      show (24 : ℝ) + 18 = 42
      norm_num]
    exact Physics.not_magnitude_lt_of_sq_le (by norm_num)
  unfold playerBallPass
  rw [show c4StateW.players.map (fun p => p.playerId) = ["h1"] from rfl]
  rw [List.foldl_cons, List.foldl_nil]
  unfold playerBallStep
  rw [show mapGet c4StateW.players "h1" = some c4PlayerFinal from rfl]
  dsimp only
  rw [if_neg hmiss]

theorem c4_playerPlayerPass : playerPlayerPass c4StateW = c4StateW := rfl

theorem c4_checkGoals : checkGoals c4StateW = c4StateW := by
  have hg : StadiumConfig.isInGoal (⟨0, 0⟩ : Vector2) stadium = none := by
    rw [StadiumConfig.isInGoal]
    norm_num [stadium, StadiumConfig.createClassicStadium]
  unfold checkGoals
  rw [show c4StateW.ball.position = (⟨0, 0⟩ : Vector2) from rfl, hg]

theorem c4_handleCollisions : handleCollisions c4StateM = c4StateW := by
  rw [handleCollisions_def]
  rw [show c4StateM.players = [c4PlayerMoved] from rfl,
    show c4StateM.ball = createBall from rfl]
  rw [c4_playerWallPass, c4_ballWallPass]
  rw [show ({ c4StateM with players := [c4PlayerFinal], ball := createBall } : GameState) =
    c4StateW from rfl]
  rw [c4_playerBallPass, c4_playerPlayerPass]

theorem c4_update_eval : update c4State (1/60) (fun _ => 0) 0 = some c4StateW := by
  unfold update
  rw [tickClock_inactive c4State (1/60) rfl]
  rw [c4_phase, Option.map_some']
  show some (checkGoals (handleCollisions
    { c4StateM with ball := updateBall c4StateM.ball (1/60) })) = some c4StateW
  rw [show c4StateM.ball = createBall from rfl, c4_updateBall]
  rw [show ({ c4StateM with ball := createBall } : GameState) = c4StateM from rfl]
  rw [c4_handleCollisions, c4_checkGoals]

end GameEngine

/-- C4 (refuted): the wall pass can push an entity OUT of the arena. A
human red player one unit inside the right wall (x = 629, within bounds)
moving right at the configured maximum speed crosses the wall line
x = 630 during one 60 Hz tick of integration; `resolveWallCollision`
then pushes the center along `position - closestPoint`, which now points
AWAY from the field, and the collision pass ends with the player centered
at (654, 200) — outside the arena's outer wall boundary. -/
theorem c4_no_tunneling_counterexample :
    GameEngine.inArenaBounds GameEngine.c4Player.position ∧
    Physics.magnitude GameEngine.c4Player.velocity ≤ GameConfig.playerMaxSpeed ∧
    GameEngine.update GameEngine.c4State (1/60) (fun _ => 0) 0 =
      some GameEngine.c4StateW ∧
    GameEngine.mapGet GameEngine.c4StateW.players "h1" = some GameEngine.c4PlayerFinal ∧
    GameEngine.c4PlayerFinal.position = ⟨654, 200⟩ ∧
    ¬ GameEngine.inArenaBounds GameEngine.c4PlayerFinal.position := by
  refine ⟨?_, ?_, GameEngine.c4_update_eval, rfl, rfl, ?_⟩
  · unfold GameEngine.inArenaBounds
    left
    constructor
    · show |(629 : ℝ)| ≤ GameEngine.stadium.width / 2
      norm_num [GameEngine.stadium, StadiumConfig.createClassicStadium]
    · show |(200 : ℝ)| ≤ GameEngine.stadium.height / 2
      norm_num [GameEngine.stadium, StadiumConfig.createClassicStadium]
  · rw [show GameEngine.c4Player.velocity = (⟨450, 0⟩ : Vector2) from rfl,
      Physics.magnitude_mk_x]
    norm_num [GameConfig.playerMaxSpeed]
  · intro hin
    unfold GameEngine.inArenaBounds at hin
    rcases hin with ⟨hx, -⟩ | hgoal
    · revert hx
      show ¬ |(654 : ℝ)| ≤ GameEngine.stadium.width / 2
      norm_num [GameEngine.stadium, StadiumConfig.createClassicStadium]
    · have hnone : StadiumConfig.isInGoal (⟨654, 200⟩ : Vector2) GameEngine.stadium = none := by
        rw [StadiumConfig.isInGoal]
        norm_num [GameEngine.stadium, StadiumConfig.createClassicStadium]
      rw [show GameEngine.c4PlayerFinal.position = (⟨654, 200⟩ : Vector2) from rfl,
        hnone] at hgoal
      exact Bool.noConfusion hgoal
